import Mathlib

/-! OpenZWave `COMMAND_CLASS_ALARM` (`src/command_classes/Alarm.cpp`)

A shallow embedding of the Alarm / Notification command class: the static
code tables, the versioned report decoder `Alarm::HandleMsg`, the request
builders `Alarm::RequestState` / `Alarm::RequestValue` and `Alarm::CreateVars`.

Conventions of the embedding

* bytes and indices are natural numbers; a frame `_data`/`_length` is a
  `List Nat` whose length is `_length`;
* a read `_data[k]` with `k` not below `_length`, and a read of a C array
  past its last entry, is a `Fault`: the handlers live in `Except Fault`;
* the value store of the node, the driver's send queue and the static
  request flag are explicit state (`Alarm`);
* the value store is the registry of the spec (`getSlot`, `createByteSlot`,
  `refreshSlotValue`); its index parameter is a `uint8`: where the source hands
  an `int` expression to `GetValue` / `CreateValueByte`, the embedding hands
  over the expression reduced modulo 256 (`uint8`);
* a label is a `string`: where the source hands a null `char const*` to the
  `string const&` label parameter of `CreateValueByte`, the construction of the
  `string` throws, which is a `Fault` too;
* the text written by `Log::Write` is not modelled. Bytes of `_data` that are
  read for a `Log::Write` argument only are not modelled either, whatever the
  offset: they are printed and have no influence on the state or the result.
  The `char const*` read from `c_alarmTypeName` for the log line of the
  supported-events branch is dereferenced as a string, and is modelled.
-/

namespace OpenZWave

/-! ## Command and index constants -/

def AlarmCmd_Get : Nat := 0x04
def AlarmCmd_Report : Nat := 0x05
def AlarmCmd_SupportedGet : Nat := 0x07
def AlarmCmd_SupportedReport : Nat := 0x08
def AlarmCmd_SupportedEventGet : Nat := 0x01
def AlarmCmd_SupportedEventReport : Nat := 0x02

def AlarmIndex_Type : Nat := 0
def AlarmIndex_Level : Nat := 1
def AlarmIndex_SourceNodeId : Nat := 2

def Alarm_General : Nat := 0
def Alarm_Smoke : Nat := 1
def Alarm_CarbonMonoxide : Nat := 2
def Alarm_CarbonDioxide : Nat := 3
def Alarm_Heat : Nat := 4
def Alarm_Flood : Nat := 5
def Alarm_Access_Control : Nat := 6
def Alarm_Burglar : Nat := 7
def Alarm_Power_Management : Nat := 8
def Alarm_System : Nat := 9
def Alarm_Emergency : Nat := 10
def Alarm_Clock : Nat := 11
def Alarm_Appliance : Nat := 12
def Alarm_HomeHealth : Nat := 13
def Alarm_Count : Nat := 14

/-- The table `c_alarmTypeName`. -/
def c_alarmTypeName : List String :=
  [ "General",
    "Smoke",
    "Carbon Monoxide",
    "Carbon Dioxide",
    "Heat",
    "Flood",
    "Access Control",
    "Burglar",
    "Power Management",
    "System",
    "Emergency",
    "Clock",
    "Appliance",
    "HomeHealth" ]

/-! ## Event enumerations: the `_Count` enumerator follows the last listed
event code, so it is that code plus one. -/

def Alarm_Smoke_Count : Nat := 0x04 + 1
def Alarm_CarbonMonoxide_Count : Nat := 0x04 + 1
def Alarm_CarbonDioxide_Count : Nat := 0x04 + 1
def Alarm_Heat_Count : Nat := 0x06 + 1
def Alarm_Flood_Count : Nat := 0x05 + 1
def Alarm_Access_Control_Count : Nat := 0x4C + 1
def Alarm_Burglar_Count : Nat := 0x08 + 1
def Alarm_Power_Management_Count : Nat := 0x0F + 1
def Alarm_System_Count : Nat := 0x04 + 1
def Alarm_Emergency_Count : Nat := 0x03 + 1
def Alarm_Clock_Count : Nat := 0x03 + 1
def Alarm_Appliance_Count : Nat := 0x15 + 1
def Alarm_HomeHealth_Count : Nat := 0x06 + 1

/-- The table `alarmPrefixCount` (fifteen entries). -/
def alarmPrefixCount : List Nat :=
  [ 0,
    0,
    Alarm_Smoke_Count,
    Alarm_Smoke_Count + Alarm_CarbonMonoxide_Count,
    Alarm_Smoke_Count + Alarm_CarbonMonoxide_Count + Alarm_CarbonDioxide_Count,
    Alarm_Smoke_Count + Alarm_CarbonMonoxide_Count + Alarm_CarbonDioxide_Count + Alarm_Heat_Count,
    Alarm_Smoke_Count + Alarm_CarbonMonoxide_Count + Alarm_CarbonDioxide_Count + Alarm_Heat_Count
      + Alarm_Flood_Count,
    Alarm_Smoke_Count + Alarm_CarbonMonoxide_Count + Alarm_CarbonDioxide_Count + Alarm_Heat_Count
      + Alarm_Flood_Count + Alarm_Access_Control_Count,
    Alarm_Smoke_Count + Alarm_CarbonMonoxide_Count + Alarm_CarbonDioxide_Count + Alarm_Heat_Count
      + Alarm_Flood_Count + Alarm_Access_Control_Count + Alarm_Burglar_Count,
    Alarm_Smoke_Count + Alarm_CarbonMonoxide_Count + Alarm_CarbonDioxide_Count + Alarm_Heat_Count
      + Alarm_Flood_Count + Alarm_Access_Control_Count + Alarm_Burglar_Count
      + Alarm_Power_Management_Count,
    Alarm_Smoke_Count + Alarm_CarbonMonoxide_Count + Alarm_CarbonDioxide_Count + Alarm_Heat_Count
      + Alarm_Flood_Count + Alarm_Access_Control_Count + Alarm_Burglar_Count
      + Alarm_Power_Management_Count + Alarm_System_Count,
    Alarm_Smoke_Count + Alarm_CarbonMonoxide_Count + Alarm_CarbonDioxide_Count + Alarm_Heat_Count
      + Alarm_Flood_Count + Alarm_Access_Control_Count + Alarm_Burglar_Count
      + Alarm_Power_Management_Count + Alarm_System_Count + Alarm_Emergency_Count,
    Alarm_Smoke_Count + Alarm_CarbonMonoxide_Count + Alarm_CarbonDioxide_Count + Alarm_Heat_Count
      + Alarm_Flood_Count + Alarm_Access_Control_Count + Alarm_Burglar_Count
      + Alarm_Power_Management_Count + Alarm_System_Count + Alarm_Emergency_Count
      + Alarm_Clock_Count,
    Alarm_Smoke_Count + Alarm_CarbonMonoxide_Count + Alarm_CarbonDioxide_Count + Alarm_Heat_Count
      + Alarm_Flood_Count + Alarm_Access_Control_Count + Alarm_Burglar_Count
      + Alarm_Power_Management_Count + Alarm_System_Count + Alarm_Emergency_Count
      + Alarm_Clock_Count + Alarm_Appliance_Count,
    Alarm_Smoke_Count + Alarm_CarbonMonoxide_Count + Alarm_CarbonDioxide_Count + Alarm_Heat_Count
      + Alarm_Flood_Count + Alarm_Access_Control_Count + Alarm_Burglar_Count
      + Alarm_Power_Management_Count + Alarm_System_Count + Alarm_Emergency_Count
      + Alarm_Clock_Count + Alarm_Appliance_Count + Alarm_HomeHealth_Count ]

/-- The table `alarmCounts` (fourteen entries). -/
def alarmCounts : List Nat :=
  [ 0,
    Alarm_Smoke_Count,
    Alarm_CarbonMonoxide_Count,
    Alarm_CarbonDioxide_Count,
    Alarm_Heat_Count,
    Alarm_Flood_Count,
    Alarm_Access_Control_Count,
    Alarm_Burglar_Count,
    Alarm_Power_Management_Count,
    Alarm_System_Count,
    Alarm_Emergency_Count,
    Alarm_Clock_Count,
    Alarm_Appliance_Count,
    Alarm_HomeHealth_Count ]

/-- The initialiser of the two-level map `m_EventTypeName`: for each
notification type that has an entry, its event codes and their labels, in the
order of the source. -/
def m_EventTypeName : List (Nat × List (Nat × String)) :=
  [ (Alarm_Smoke,
      [ (0x00, "Smoke Alarm Inactive"),
        (0x01, "Smoke"),
        (0x02, "Smoke"),
        (0x03, "Smoke Test"),
        (0x04, "Smoke Replacement Required"),
        (0xFE, "Unknown") ]),
    (Alarm_CarbonMonoxide,
      [ (0x00, "Carbon Monoxide Alarm Inactive"),
        (0x01, "Carbon Monoxide"),
        (0x02, "Carbon Monoxide"),
        (0x03, "Carbon Monoxide Test"),
        (0x04, "Carbon Monoxide Replacement Required"),
        (0xFE, "Unknown") ]),
    (Alarm_CarbonDioxide,
      [ (0x00, "Carbon Dioxide Alarm Inactive"),
        (0x01, "Carbon Dioxide"),
        (0x02, "Carbon Dioxide"),
        (0x03, "Carbon Dioxide Test"),
        (0x04, "Carbon Dioxide Replacement Required"),
        (0xFE, "Unknown") ]),
    (Alarm_Heat,
      [ (0x00, "Heat Alarm Inactive"),
        (0x01, "Heat"),
        (0x02, "Heat"),
        (0x03, "Rapid Temperature Rise"),
        (0x04, "Rapid Temperature Rise"),
        (0x05, "Underheat"),
        (0x06, "Underheat"),
        (0xFE, "Unknown") ]),
    (Alarm_Flood,
      [ (0x00, "Flood Alarm Inactive"),
        (0x01, "Flood"),
        (0x02, "Flood"),
        (0x03, "Water Level Dropped"),
        (0x04, "Water Level Dropped"),
        (0x05, "Replace Water Filter"),
        (0xFE, "Unknown") ]),
    (Alarm_Access_Control,
      [ (0x00, "Access Control Inactive"),
        (0x01, "Manual Lock Operation"),
        (0x02, "Manual Unlock Operation"),
        (0x03, "RF Lock Operation"),
        (0x04, "RF Unlock Operation"),
        (0x05, "Keypad Lock Operation"),
        (0x06, "Keypad Unlock Operation"),
        (0x07, "Manual Not Fully Locked Operation"),
        (0x08, "RF Not Fully Locked Operation"),
        (0x09, "Auto Lock Locked Operation"),
        (0x0A, "Auto Lock Not Fully Operation"),
        (0x0B, "Lock Jammed"),
        (0x0C, "All user codes deleted"),
        (0x0D, "Single user code deleted"),
        (0x0E, "New user code added"),
        (0x0F, "New user code not added due to duplicate code"),
        (0x10, "Keypad temporary disabled"),
        (0x11, "Keypad busy"),
        (0x12, "New Program code Entered - Unique code for lock configuration"),
        (0x13, "Manually Enter user Access code exceeds code limit"),
        (0x14, "Unlock By RF with invalid user code"),
        (0x15, "Locked by RF with invalid user codes"),
        (0x16, "Window/Door is open"),
        (0x17, "Window/Door is closed"),
        (0x40, "Barrier performing Initialization process"),
        (0x41, "Barrier operation force has been exceeded."),
        (0x42, "Barrier motor has exceeded manufacturer’s operational time limit"),
        (0x43, "Barrier operation has exceeded physical mechanical limits."),
        (0x44, "Barrier unable to perform requested operation due to UL requirements."),
        (0x45, "Barrier Unattended operation has been disabled per UL requirements."),
        (0x46, "Barrier failed to perform Requested operation, device malfunction"),
        (0x47, "Barrier Vacation Mode"),
        (0x48, "Barrier Safety Beam Obstacle"),
        (0x49, "Barrier Sensor Not Detected / Supervisory Error"),
        (0x4A, "Barrier Sensor Low Battery Warning"),
        (0x4B, "Barrier detected short in Wall Station wires"),
        (0x4C, "Barrier associated with non-Z-wave remote control"),
        (0xFE, "Unknown") ]),
    (Alarm_Burglar,
      [ (0x00, "Burglar Alarm Inactive"),
        (0x01, "Intrusion"),
        (0x02, "Intrusion"),
        (0x03, "Tamper"),
        (0x04, "Tamper Invalid Code"),
        (0x05, "Glass Breakage"),
        (0x06, "Glass Breakage"),
        (0x07, "Motion"),
        (0x08, "Motion"),
        (0xFE, "Unknown") ]),
    (Alarm_Power_Management,
      [ (0x00, "Power Management Alarm Inactive"),
        (0x01, "Power Applied"),
        (0x02, "AC Mains Disconnected"),
        (0x03, "AC Mains re-connected"),
        (0x04, "Surge detected"),
        (0x05, "Voltage Drop/Drift"),
        (0x06, "Over-current detected"),
        (0x07, "Over-voltage detected"),
        (0x08, "Over-load detected"),
        (0x09, "Load error"),
        (0x0A, "Replace battery soon"),
        (0x0B, "Replace battery now"),
        (0x0C, "Battery is charging"),
        (0x0D, "Battery is fully charged"),
        (0x0E, "Charge battery soon"),
        (0x0F, "Charge battery now!"),
        (0xFE, "Unknown") ]),
    (Alarm_System,
      [ (0x00, "System Alarm Inactive"),
        (0x01, "System Hardware Failure"),
        (0x02, "System Software Failure"),
        (0x03, "System Hardware Failure With manufacturer proprietary failure code"),
        (0x04, "System Software Failure With manufacturer proprietary failure code"),
        (0xFE, "Unknown") ]),
    (Alarm_Emergency,
      [ (0x00, "Emergency Alarm Inactive"),
        (0x01, "Contact Police"),
        (0x02, "Contact Fire Service"),
        (0x03, "Contact Medical Service"),
        (0xFE, "Unknown") ]),
    (Alarm_Clock,
      [ (0x00, "Clock Alarm Inactive"),
        (0x01, "Wake Up Alert"),
        (0x02, "Timer Ended"),
        (0x03, "Time remaining"),
        (0xFE, "Unknown") ]),
    (Alarm_Appliance,
      [ (0x00, "Appliance Alarm Inactive"),
        (0x01, "Program started"),
        (0x02, "Program in progress"),
        (0x03, "Program completed"),
        (0x04, "Replace main filter"),
        (0x05, "Failure to set target temperature"),
        (0x06, "Supplying water"),
        (0x07, "Water supply failure"),
        (0x08, "Boiling"),
        (0x09, "Boiling failure"),
        (0x0A, "Washing"),
        (0x0B, "Washing failure"),
        (0x0C, "Rinsing"),
        (0x0D, "Rinsing failure"),
        (0x0E, "Draining"),
        (0x0F, "failure"),
        (0x10, "Spinning"),
        (0x11, "Spinning failure"),
        (0x12, "Drying"),
        (0x13, "Drying failure"),
        (0x14, "Fan failure"),
        (0x15, "Compressor failure"),
        (0xFE, "Unknown") ]),
    (Alarm_HomeHealth,
      [ (0x00, "Home Health Alarm Inactive"),
        (0x01, "Leaving Bed"),
        (0x02, "Sitting on bed"),
        (0x03, "Lying on bed"),
        (0x04, "Posture changed"),
        (0x05, "Sitting on edge of bed"),
        (0x06, "Volatile Organic Compound level"),
        (0xFE, "Unknown") ]) ]

/-- First entry of an association list with the given key. -/
def assocFind {β : Type} : List (Nat × β) → Nat → Option β
  | [], _ => none
  | (k, v) :: rest, key => if k = key then some v else assocFind rest key

/-- The expression `m_EventTypeName[t][index]`: `std::map::operator[]` yields
the mapped `char const*`, and a null pointer (`none`) for a key that has no
entry, on either level. -/
def eventTypeName (t index : Nat) : Option String :=
  match assocFind m_EventTypeName t with
  | none => none
  | some events => assocFind events index

/-! ## Faults, frames and table reads -/

/-- What a handler can do wrong on the C level: read `_data[offset]` at an
offset that is not below `_length`, read a C array past its last entry, or
construct the `string` label argument of `CreateValueByte` from a null
`char const*` (the constructor throws). -/
inductive Fault where
  | dataOutOfBounds (offset : Nat)
  | tableOutOfBounds (index : Nat)
  | nullLabel
  deriving DecidableEq, Repr

/-- The read `_data[k]` of a frame of `_data.length` bytes. -/
def readByte (_data : List Nat) (k : Nat) : Except Fault Nat :=
  match _data[k]? with
  | some b => pure b
  | none => throw (Fault.dataOutOfBounds k)

/-- The read `table[i]` of one of the static C arrays. -/
def tableRead {α : Type} (table : List α) (i : Nat) : Except Fault α :=
  match table[i]? with
  | some x => pure x
  | none => throw (Fault.tableOutOfBounds i)

/-- The test `( byte & (1<<bit) ) != 0`. -/
def bitSet (byte bit : Nat) : Bool :=
  byte &&& (1 <<< bit) != 0

/-! ## The value store, the send queue and the command class object -/

/-- Modelled from the spec: the `ValueSlot` of the external registry
(`ValueByte` in the source, whose class is not part of this file): a current
byte value and a display label, the `string` handed to `CreateValueByte`. -/
structure ValueByte where
  value : Nat
  label : String
  deriving DecidableEq, Repr

/-- Modelled from the spec: the registry of value slots of one node, keyed by
`(instance, index)`, the two `uint8` parameters of `GetValue` and
`CreateValueByte`; the first entry with a key is the slot of that key. -/
abbrev ValueStore := List ((Nat × Nat) × ValueByte)

/-- Modelled from the spec: `getSlot(instance, slotIndex)`, which answers
"not found" (`none`) for an index without a slot. -/
def ValueStore.find : ValueStore → Nat × Nat → Option ValueByte
  | [], _ => none
  | (k, v) :: rest, key => if k = key then some v else ValueStore.find rest key

/-- Modelled from the spec: `refreshSlotValue(handle, byteValue)` on the slot
of the key: the slot keeps its label and takes the byte as current value. -/
def ValueStore.refresh : ValueStore → Nat × Nat → Nat → ValueStore
  | [], _, _ => []
  | (k, v) :: rest, key, b =>
    if k = key then (k, { v with value := b }) :: ValueStore.refresh rest key b
    else (k, v) :: ValueStore.refresh rest key b

/-- Modelled from the spec: `createByteSlot(instance, classId, slotIndex, label,
...)`. A slot is "created once per (device instance, SlotIndex) the first time
that slot's existence is established": creating at a key that has a slot
leaves the store as it is, otherwise a slot with the label and the default
value 0 (the `_default` argument of every call in the source) is added. -/
def ValueStore.create (vs : ValueStore) (key : Nat × Nat) (label : String) :
    ValueStore :=
  match vs.find key with
  | some _ => vs
  | none => vs ++ [(key, { value := 0, label := label })]

/-- An outbound message: the arguments of `new Msg(...)` that vary, the
instance given to `SetInstance`, the bytes given to `Append` in order, and
the queue given to `SendMsg`. -/
structure Msg where
  name : String
  targetNodeId : Nat
  targetInstance : Nat
  bytes : List Nat
  queue : Nat
  deriving DecidableEq, Repr

/-- The command class object together with what it reaches through
`GetNodeUnsafe()` and `GetDriver()`.

* `nodeId`, `commandClassId`, `version`, `getSupported`, `transmitOptions`:
  the results of `GetNodeId()`, `GetCommandClassId()`, `GetVersion()`,
  `IsGetSupported()` and `GetDriver()->GetTransmitOptions()`;
* `MsgQueue_Query`, `RequestFlag_Static`, `RequestFlag_Dynamic`: constants of
  headers that are not part of this file;
* `staticRequest`: whether `StaticRequest_Values` is still set;
* `node`: the value store of the node, `none` when `GetNodeUnsafe()` is null;
* `sendQueue`: the messages handed to `SendMsg`, oldest first. -/
structure Alarm where
  nodeId : Nat
  commandClassId : Nat
  version : Nat
  getSupported : Bool
  transmitOptions : Nat
  MsgQueue_Query : Nat
  RequestFlag_Static : Nat
  RequestFlag_Dynamic : Nat
  staticRequest : Bool
  node : Option ValueStore
  sendQueue : List Msg
  deriving DecidableEq, Repr

/-- The conversion of an `int` expression to the `uint8` index parameter of
`GetValue` and `CreateValueByte`: the value modulo 256. -/
def uint8 (n : Nat) : Nat :=
  n % 256

/-- The call `GetValue( _instance, index )` with the `uint8` argument `index`
(a caller that has an `int` expression hands over `uint8` of it): the slot, or
null (also when there is no node to look in). -/
def GetValue (a : Alarm) (_instance index : Nat) : Option ValueByte :=
  match a.node with
  | none => none
  | some vs => vs.find (_instance, index)

/-- The effect of `value->OnValueRefreshed( b )` on the slot `value` that
`GetValue( _instance, index )` has returned. -/
def OnValueRefreshed (a : Alarm) (_instance index b : Nat) : Alarm :=
  { a with node := a.node.map (fun vs => vs.refresh (_instance, index) b) }

/-- The idiom
`if( (value = GetValue( _instance, index )) ) { value->OnValueRefreshed( byte ); value->Release(); }`:
the byte expression is evaluated only when the slot exists. -/
def RefreshValue (a : Alarm) (_instance index : Nat) (byte : Except Fault Nat) :
    Except Fault Alarm :=
  match GetValue a _instance index with
  | none => pure a
  | some _ => do
    let b ← byte
    pure (OnValueRefreshed a _instance index b)

/-- The call `node->CreateValueByte( ValueID::ValueGenre_User, GetCommandClassId(),
_instance, index, label, "", true, false, 0, 0 )` on a non-null node, with the
`uint8` argument `index` and the `string` argument `label` (a caller that has an
`int` expression hands over `uint8` of it; a caller that has a `char const*`
constructs the `string` first, which throws on a null pointer). -/
def CreateValueByte (a : Alarm) (_instance index : Nat) (label : String) : Alarm :=
  { a with node := a.node.map (fun vs => vs.create (_instance, index) label) }

/-- The call `GetDriver()->SendMsg( msg, queue )`. -/
def SendMsg (a : Alarm) (msg : Msg) : Alarm :=
  { a with sendQueue := a.sendQueue ++ [msg] }

/-- The call `ClearStaticRequest( StaticRequest_Values )`. -/
def ClearStaticRequest (a : Alarm) : Alarm :=
  { a with staticRequest := false }

/-! ## `Alarm::HandleMsg` -/

/-- The index expression `alarmPrefixCount[notificationType]+event+3` of the
version 3 scheme. -/
def slotIndex (notificationType event : Nat) : Except Fault Nat := do
  let offset ← tableRead alarmPrefixCount notificationType
  pure (offset + event + 3)

/-- The block `if(( GetVersion() == 2 ) && ( _length >= 7 ))` of the report branch. -/
def HandleMsg.reportV2 (a : Alarm) (_data : List Nat) (_instance : Nat) :
    Except Fault Alarm :=
  if a.version = 2 ∧ _data.length ≥ 7 then do
    let a ← RefreshValue a _instance AlarmIndex_SourceNodeId (readByte _data 3)
    let d5 ← readByte _data 5
    RefreshValue a _instance (uint8 (d5 + 3)) (readByte _data 6)
  else pure a

/-- The loop `for (uint8 i=0; i< alarmCounts[notificationType]; ++i)` that
clears every event slot of a notification type. -/
def HandleMsg.clearEvents (a : Alarm) (_instance notificationType : Nat) :
    Except Fault Alarm := do
  let count ← tableRead alarmCounts notificationType
  (List.range count).foldlM (fun a i => do
    let index ← slotIndex notificationType i
    RefreshValue a _instance (uint8 index) (pure 0)) a

/-- The block `if ( GetVersion() >= 3 )` of the report branch. -/
def HandleMsg.reportV3 (a : Alarm) (_data : List Nat) (_instance : Nat) :
    Except Fault Alarm :=
  if a.version ≥ 3 then do
    let notificationStatus ← readByte _data 4
    let notificationType ← readByte _data 5
    let event ← readByte _data 6
    let a ← RefreshValue a _instance AlarmIndex_Level (pure notificationStatus)
    if event = 0x00 ∨ event = 0xFE then
      HandleMsg.clearEvents a _instance notificationType
    else do
      let index ← slotIndex notificationType event
      RefreshValue a _instance (uint8 index) (pure 1)
  else pure a

/-- The branch `AlarmCmd_Report == (AlarmCmd)_data[0]`. The `Log::Write` call at
its head is left out: the bytes `_data[1]` .. `_data[6]` it reads are printed
only, and its read of `c_alarmTypeName` is guarded by `_data[5] < Alarm_Count`. -/
def HandleMsg.report (a : Alarm) (_data : List Nat) (_instance : Nat) :
    Except Fault (Bool × Alarm) := do
  let a ← RefreshValue a _instance AlarmIndex_Type (readByte _data 1)
  let a ← (if a.version ≤ 2 then
      RefreshValue a _instance AlarmIndex_Level (readByte _data 2) else pure a)
  let a ← HandleMsg.reportV2 a _data _instance
  let a ← HandleMsg.reportV3 a _data _instance
  pure (true, a)

/-- The message built in the supported-types loops for a notification type
`index`: `new Msg( "AlarmCmd_SupportedEventGet", GetNodeId(), ... )`, `SetInstance`,
the six `Append`s, and the queue `MsgQueue_Query` it is sent on. -/
def HandleMsg.supportedEventGet (a : Alarm) (_instance index : Nat) : Msg :=
  { name := "AlarmCmd_SupportedEventGet"
    targetNodeId := a.nodeId
    targetInstance := _instance
    bytes := [a.nodeId, 3, a.commandClassId, AlarmCmd_SupportedEventGet, index,
      a.transmitOptions]
    queue := a.MsgQueue_Query }

/-- The body run for one `(i, bit)` of the supported-types loops. -/
def HandleMsg.supportedBit (_data : List Nat) (_instance : Nat) (i : Nat) (a : Alarm)
    (bit : Nat) : Except Fault Alarm := do
  let b ← readByte _data (i + 2)
  if bitSet b bit then
    let index := (i <<< 3) + bit
    if index < Alarm_Count then
      if a.version ≤ 2 then do
        let name ← tableRead c_alarmTypeName index
        pure (CreateValueByte a _instance (uint8 (index + 3)) name)
      else if a.version ≥ 3 then
        pure (SendMsg a (HandleMsg.supportedEventGet a _instance index))
      else pure a
    else pure a
  else pure a

/-- The branch `AlarmCmd_SupportedReport == (AlarmCmd)_data[0]`. -/
def HandleMsg.supportedReport (a : Alarm) (_data : List Nat) (_instance : Nat) :
    Except Fault (Bool × Alarm) := do
  let a ← (match a.node with
    | none => pure a
    | some _ => do
      let a := CreateValueByte a _instance AlarmIndex_SourceNodeId "SourceNodeId"
      let numBytes ← readByte _data 1
      (List.range numBytes).foldlM (fun a i =>
        (List.range 8).foldlM (HandleMsg.supportedBit _data _instance i) a) a)
  pure (true, ClearStaticRequest a)

/-- The body run for one `(i, bit)` of the supported-events loops. The label
`m_EventTypeName[_data[1]][index]` is a `char const*`; handing it to
`CreateValueByte` constructs a `string`, which throws when the pointer is null,
before `CreateValueByte` runs. -/
def HandleMsg.supportedEventBit (_data : List Nat) (_instance : Nat) (i : Nat) (a : Alarm)
    (bit : Nat) : Except Fault Alarm := do
  let b ← readByte _data (3 + i)
  if bitSet b bit then
    let index := (i <<< 3) + bit
    let d1 ← readByte _data 1
    let slot ← slotIndex d1 index
    match eventTypeName d1 index with
    | none => throw Fault.nullLabel
    | some label => pure (CreateValueByte a _instance (uint8 slot) label)
  else pure a

/-- The branch `AlarmCmd_SupportedEventReport == (AlarmCmd)_data[0]`. -/
def HandleMsg.supportedEventReport (a : Alarm) (_data : List Nat) (_instance : Nat) :
    Except Fault (Bool × Alarm) := do
  let a ← (match a.node with
    | none => pure a
    | some _ => do
      let d2 ← readByte _data 2
      let numBytes := d2 &&& 0x1F
      let d1 ← readByte _data 1
      let _ ← tableRead c_alarmTypeName d1
      (List.range numBytes).foldlM (fun a i =>
        (List.range 8).foldlM (HandleMsg.supportedEventBit _data _instance i) a) a)
  pure (true, a)

/-- The method `Alarm::HandleMsg( _data, _length, _instance )`, with
`_length = _data.length`: the returned flag and the state afterwards, or the
fault it runs into. -/
def HandleMsg (a : Alarm) (_data : List Nat) (_instance : Nat) :
    Except Fault (Bool × Alarm) := do
  let d0 ← readByte _data 0
  if d0 = AlarmCmd_Report then
    HandleMsg.report a _data _instance
  else if d0 = AlarmCmd_SupportedReport then
    HandleMsg.supportedReport a _data _instance
  else if d0 = AlarmCmd_SupportedEventReport then
    HandleMsg.supportedEventReport a _data _instance
  else pure (false, a)

/-! ## `Alarm::RequestValue`, `Alarm::RequestState`, `Alarm::CreateVars` -/

/-- The message built in the loop of `RequestValue` for the notification type
`i`: `new Msg( "AlarmCmd_Get", GetNodeId(), ... )`, `SetInstance`, the `Append`s
(the 0x01 only when `GetVersion() > 2`), and the queue it is sent on. -/
def RequestValue.typedGet (a : Alarm) (_instance _queue i : Nat) : Msg :=
  { name := "AlarmCmd_Get"
    targetNodeId := a.nodeId
    targetInstance := _instance
    bytes := [a.nodeId, (if a.version = 2 then 4 else 5), a.commandClassId, AlarmCmd_Get,
        0x00, i]
      ++ (if a.version > 2 then [0x01] else [])
      ++ [a.transmitOptions]
    queue := _queue }

/-- The body run for one `i` of the loop of `RequestValue` (version other than 1). -/
def RequestValue.step (_instance _queue : Nat) (st : Bool × Alarm) (i : Nat) : Bool × Alarm :=
  let a := st.2
  match GetValue a _instance (uint8 (i + 3)) with
  | none => st
  | some _ => (true, SendMsg a (RequestValue.typedGet a _instance _queue i))

/-- The method `Alarm::RequestValue( _requestFlags, _dummy1, _instance, _queue )`. -/
def RequestValue (a : Alarm) (_requestFlags _dummy1 _instance _queue : Nat) : Bool × Alarm :=
  if a.getSupported then
    if a.version = 1 then
      (true, SendMsg a
        { name := "AlarmCmd_Get"
          targetNodeId := a.nodeId
          targetInstance := _instance
          bytes := [a.nodeId, 2, a.commandClassId, AlarmCmd_Get, a.transmitOptions]
          queue := _queue })
    else
      (List.range Alarm_Count).foldl (RequestValue.step _instance _queue) (false, a)
  else (false, a)

/-- The method `Alarm::RequestState( _requestFlags, _instance, _queue )`. -/
def RequestState (a : Alarm) (_requestFlags _instance _queue : Nat) : Bool × Alarm :=
  if (_requestFlags &&& a.RequestFlag_Static ≠ 0 ∧ a.staticRequest = true) ∧ a.version > 1 then
    (true, SendMsg a
      { name := "AlarmCmd_SupportedGet"
        targetNodeId := a.nodeId
        targetInstance := _instance
        bytes := [a.nodeId, 2, a.commandClassId, AlarmCmd_SupportedGet, a.transmitOptions]
        queue := _queue })
  else if _requestFlags &&& a.RequestFlag_Dynamic ≠ 0 then
    RequestValue a _requestFlags 0 _instance _queue
  else (false, a)

/-- The method `Alarm::CreateVars( _instance )`. -/
def CreateVars (a : Alarm) (_instance : Nat) : Alarm :=
  match a.node with
  | none => a
  | some _ =>
    let a := CreateValueByte a _instance AlarmIndex_Type "Alarm Type"
    let a := CreateValueByte a _instance AlarmIndex_Level "Alarm Level"
    if a.version ≥ 3 then
      CreateValueByte a _instance AlarmIndex_Level "Alarm Level"
    else a

/-! ## Sequences of calls -/

/-- One call of the dispatch layer into the command class. -/
inductive Call where
  | handleMsg (_data : List Nat) (_instance : Nat)
  | requestState (_requestFlags _instance _queue : Nat)
  | requestValue (_requestFlags _dummy1 _instance _queue : Nat)
  | createVars (_instance : Nat)
  deriving DecidableEq, Repr

/-- The state after one call, or the fault the call runs into. -/
def Call.run (a : Alarm) : Call → Except Fault Alarm
  | Call.handleMsg _data _instance => (HandleMsg a _data _instance).map (fun r => r.2)
  | Call.requestState _requestFlags _instance _queue =>
    pure (RequestState a _requestFlags _instance _queue).2
  | Call.requestValue _requestFlags _dummy1 _instance _queue =>
    pure (RequestValue a _requestFlags _dummy1 _instance _queue).2
  | Call.createVars _instance => pure (CreateVars a _instance)

/-- The state after a sequence of calls, each handled to completion before the
next one. -/
def runCalls (a : Alarm) (calls : List Call) : Except Fault Alarm :=
  calls.foldlM Call.run a

/-- Every slot of `a` is still there in `b`, with its label. -/
def SlotsKept (a b : Alarm) : Prop :=
  ∀ inst index w, GetValue a inst index = some w →
    ∃ w', GetValue b inst index = some w' ∧ w'.label = w.label

/-- The state `b` differs from `a` at most in the values of slots that `a` has:
same slots with the same labels, same send queue, same static request flag, and
the very same state when `a` has no slot at all. -/
def OnlyRefreshed (a b : Alarm) : Prop :=
  (∀ inst index, (GetValue b inst index).map (fun v => v.label)
    = (GetValue a inst index).map (fun v => v.label)) ∧
  b.sendQueue = a.sendQueue ∧ b.staticRequest = a.staticRequest ∧
  ((∀ inst index, GetValue a inst index = none) → b = a)

/-- A computation started in `a` keeps the slots: whenever it ends without fault,
every slot of `a` is still there, with its label, in the state `π r` of its
result `r`. -/
def KeepsSlots {γ : Type} (π : γ → Alarm) (a : Alarm) (x : Except Fault γ) : Prop :=
  ∀ r, x = .ok r → SlotsKept a (π r)

end OpenZWave

namespace OpenZWave

/-- A device with the given protocol version and value store, used for the
concrete instances below. -/
def sampleAlarm (version : Nat) (store : ValueStore) : Alarm :=
  { nodeId := 9, commandClassId := 0x71, version := version, getSupported := true,
    transmitOptions := 0x25, MsgQueue_Query := 5, RequestFlag_Static := 1,
    RequestFlag_Dynamic := 4, staticRequest := true, node := some store, sendQueue := [] }

/-! ## Bitmasks, as the spec counts their bits -/

/-- The bit positions of a bitmask that are set within its first `count` bytes,
in ascending order; position `index` is bit `index % 8` (low bit first) of byte
`index / 8`. -/
def maskBits (mask : List Nat) (count : Nat) : List Nat :=
  (List.range (8 * count)).filter (fun index => bitSet (mask.getD (index / 8) 0) (index % 8))

/-- A store with the three header slots and the slots 7 and 8 of instance 1. -/
def sampleStoreV2 : ValueStore :=
  [ ((1, 0), { value := 0, label := "Alarm Type" }),
    ((1, 1), { value := 0, label := "Alarm Level" }),
    ((1, 2), { value := 0, label := "SourceNodeId" }),
    ((1, 7), { value := 0, label := "Heat" }),
    ((1, 8), { value := 0, label := "Flood" }) ]

/-- A store with the header slots and three Burglar event slots of instance 1
(indices 114, 115 and 116 are events 6, 7 and 8 of Burglar). -/
def sampleStoreV3 : ValueStore :=
  [ ((1, 0), { value := 0, label := "Alarm Type" }),
    ((1, 1), { value := 0, label := "Alarm Level" }),
    ((1, 114), { value := 1, label := "Glass Breakage" }),
    ((1, 115), { value := 0, label := "Motion" }),
    ((1, 116), { value := 1, label := "Motion" }) ]

/-- A store after capability discovery on a version 2 device: the header slots
and the slots of the types General and Smoke, of instance 1. -/
def sampleStoreTypes : ValueStore :=
  [ ((1, 0), { value := 0, label := "Alarm Type" }),
    ((1, 1), { value := 0, label := "Alarm Level" }),
    ((1, 2), { value := 0, label := "SourceNodeId" }),
    ((1, 3), { value := 0, label := "General" }),
    ((1, 4), { value := 0, label := "Smoke" }) ]

/-- A store of a version 3 device with the header slots, the last Heat event slot
(24), the six Flood event slots (25..30) and the first Access Control event slot
(31), of instance 1, all event slots active. -/
def sampleStoreFlood : ValueStore :=
  [ ((1, 0), { value := 0, label := "Alarm Type" }),
    ((1, 1), { value := 0, label := "Alarm Level" }),
    ((1, 24), { value := 1, label := "Underheat" }),
    ((1, 25), { value := 1, label := "Flood Alarm Inactive" }),
    ((1, 26), { value := 1, label := "Flood" }),
    ((1, 27), { value := 1, label := "Flood" }),
    ((1, 28), { value := 1, label := "Water Level Dropped" }),
    ((1, 29), { value := 1, label := "Water Level Dropped" }),
    ((1, 30), { value := 1, label := "Replace Water Filter" }),
    ((1, 31), { value := 1, label := "Access Control Inactive" }) ]

/-- A store of instance 1 with the header slots, the slots 4 and 16 (index
`i + 3` for the notification types 1 and 13) and the slots 17 and 114. -/
def sampleStoreMixed : ValueStore :=
  [ ((1, 0), { value := 0, label := "Alarm Type" }),
    ((1, 1), { value := 0, label := "Alarm Level" }),
    ((1, 2), { value := 0, label := "SourceNodeId" }),
    ((1, 4), { value := 0, label := "Smoke" }),
    ((1, 16), { value := 0, label := "HomeHealth" }),
    ((1, 17), { value := 0, label := "Carbon Dioxide Replacement Required" }),
    ((1, 114), { value := 1, label := "Glass Breakage" }) ]

/-- The length byte of an outbound frame
`[nodeId, len, classId, command, qualifiers..., txOptions]` is consistent: `len`
is the number of bytes strictly between it and the trailing byte. -/
def lengthByteConsistent (bytes : List Nat) : Prop :=
  3 ≤ bytes.length ∧ bytes[1]? = some (bytes.length - 3)

/-! ## The value store -/

theorem ValueStore.find_refresh (vs : ValueStore) (k j : Nat × Nat) (b : Nat) :
    (vs.refresh k b).find j =
      if j = k then (vs.find j).map (fun v => { v with value := b }) else vs.find j := by
  induction vs with
  | nil => simp [ValueStore.refresh, ValueStore.find]
  | cons e rest ih =>
    obtain ⟨k', v⟩ := e
    by_cases h1 : k' = k
    · by_cases h2 : k' = j
      · subst h1; subst h2; simp [ValueStore.refresh, ValueStore.find]
      · have h3 : ¬ j = k := fun h => h2 (h1.trans h.symm)
        subst h1
        simp only [ValueStore.refresh, if_true, ValueStore.find, if_neg h2, if_neg h3]
        simpa [h3] using ih
    · by_cases h2 : k' = j
      · subst h2; simp [ValueStore.refresh, ValueStore.find, h1]
      · simp only [ValueStore.refresh, h1, if_false, ValueStore.find, h2]
        exact ih

theorem ValueStore.find_append_single (vs : ValueStore) (k j : Nat × Nat) (v : ValueByte) :
    ValueStore.find (vs ++ [(k, v)]) j =
      match vs.find j with
      | some w => some w
      | none => if k = j then some v else none := by
  induction vs with
  | nil => simp [ValueStore.find]
  | cons e rest ih =>
    obtain ⟨k', w⟩ := e
    by_cases h : k' = j
    · simp [ValueStore.find, h]
    · simp only [List.cons_append, ValueStore.find, h, if_false]
      exact ih

theorem ValueStore.find_create (vs : ValueStore) (k j : Nat × Nat) (l : String) :
    (vs.create k l).find j =
      match vs.find j with
      | some w => some w
      | none => if k = j then some { value := 0, label := l } else none := by
  unfold ValueStore.create
  cases hk : vs.find k with
  | some w =>
    simp only
    cases hj : vs.find j with
    | some w' => rfl
    | none =>
      have : k ≠ j := fun h => by rw [h, hj] at hk; exact Option.noConfusion hk
      simp [this]
  | none => simp only; exact ValueStore.find_append_single vs k j _

/-! ## Reads -/

theorem readByte_of_get (l : List Nat) (k b : Nat) (h : l[k]? = some b) :
    readByte l k = .ok b := by
  simp only [readByte, h]; rfl

theorem readByte_of_lt (l : List Nat) (k : Nat) (h : k < l.length) :
    readByte l k = .ok (l.get ⟨k, h⟩) :=
  readByte_of_get l k _ (by simp [List.getElem?_eq_getElem h])

theorem readByte_of_le (l : List Nat) (k : Nat) (h : l.length ≤ k) :
    readByte l k = .error (Fault.dataOutOfBounds k) := by
  simp only [readByte, List.getElem?_eq_none h]; rfl

theorem tableRead_of_get {α : Type} (table : List α) (i : Nat) (x : α) (h : table[i]? = some x) :
    tableRead table i = .ok x := by
  simp only [tableRead, h]; rfl

/-! ## The 8-bit index -/

theorem uint8_of_lt (n : Nat) (h : n < 256) : uint8 n = n :=
  Nat.mod_eq_of_lt h

theorem uint8_lt (n : Nat) : uint8 n < 256 :=
  Nat.mod_lt n (by decide)

/-! ## `GetValue` after each store operation -/

theorem GetValue_OnValueRefreshed (a : Alarm) (inst idx b inst' idx' : Nat) :
    GetValue (OnValueRefreshed a inst idx b) inst' idx' =
      if (inst', idx') = (inst, idx) then
        (GetValue a inst' idx').map (fun v => { v with value := b })
      else GetValue a inst' idx' := by
  unfold GetValue OnValueRefreshed
  cases h : a.node with
  | none => simp
  | some vs => simp only [Option.map_some']; exact ValueStore.find_refresh vs _ _ b

theorem GetValue_CreateValueByte (a : Alarm) (inst idx : Nat) (l : String)
    (inst' idx' : Nat) :
    GetValue (CreateValueByte a inst idx l) inst' idx' =
      match a.node, GetValue a inst' idx' with
      | none, _ => none
      | some _, some w => some w
      | some _, none =>
        if (inst, idx) = (inst', idx') then some { value := 0, label := l } else none := by
  unfold GetValue CreateValueByte
  cases h : a.node with
  | none => simp
  | some vs =>
    simp only [Option.map_some']
    rw [ValueStore.find_create]
    cases vs.find (inst', idx') <;> rfl

theorem OnValueRefreshed_of_none (a : Alarm) (inst idx b : Nat)
    (h : GetValue a inst idx = none) : OnValueRefreshed a inst idx b = a := by
  obtain ⟨n1, n2, n3, n4, n5, n6, n7, n8, n9, node, q⟩ := a
  cases node with
  | none => rfl
  | some vs =>
    simp only [GetValue] at h
    simp only [OnValueRefreshed, Option.map_some']
    congr 2
    induction vs with
    | nil => rfl
    | cons e rest ih =>
      obtain ⟨k, v⟩ := e
      simp only [ValueStore.find] at h
      by_cases hk : k = (inst, idx)
      · simp [hk] at h
      · simp only [hk, if_false] at h
        simp only [ValueStore.refresh, hk, if_false]
        congr 1
        exact ih h

/-- The refresh idiom with a byte that is read without fault. -/
theorem RefreshValue_ok (a : Alarm) (inst idx b : Nat) :
    RefreshValue a inst idx (.ok b) = .ok (OnValueRefreshed a inst idx b) := by
  unfold RefreshValue
  cases h : GetValue a inst idx with
  | none => simp only; rw [OnValueRefreshed_of_none a inst idx b h]; rfl
  | some v => rfl


theorem readByte_at0 (d0 : Nat) (l : List Nat) : readByte (d0 :: l) 0 = .ok d0 :=
  readByte_of_get _ _ _ (by simp)

theorem readByte_at1 (d0 d1 : Nat) (l : List Nat) : readByte (d0 :: d1 :: l) 1 = .ok d1 :=
  readByte_of_get _ _ _ (by simp)

theorem readByte_at2 (d0 d1 d2 : Nat) (l : List Nat) :
    readByte (d0 :: d1 :: d2 :: l) 2 = .ok d2 :=
  readByte_of_get _ _ _ (by simp)

theorem readByte_at3 (d0 d1 d2 d3 : Nat) (l : List Nat) :
    readByte (d0 :: d1 :: d2 :: d3 :: l) 3 = .ok d3 :=
  readByte_of_get _ _ _ (by simp)

theorem readByte_at4 (d0 d1 d2 d3 d4 : Nat) (l : List Nat) :
    readByte (d0 :: d1 :: d2 :: d3 :: d4 :: l) 4 = .ok d4 :=
  readByte_of_get _ _ _ (by simp)

theorem readByte_at5 (d0 d1 d2 d3 d4 d5 : Nat) (l : List Nat) :
    readByte (d0 :: d1 :: d2 :: d3 :: d4 :: d5 :: l) 5 = .ok d5 :=
  readByte_of_get _ _ _ (by simp)

theorem readByte_at6 (d0 d1 d2 d3 d4 d5 d6 : Nat) (l : List Nat) :
    readByte (d0 :: d1 :: d2 :: d3 :: d4 :: d5 :: d6 :: l) 6 = .ok d6 :=
  readByte_of_get _ _ _ (by simp)

/-! ## The offset table -/

/-- Each type's block of declared events ends where the next type's begins or
earlier: offsets are non-decreasing by at least the event count. -/
theorem offset_add_count_le :
    ∀ t1 < 14, ∀ t2 < 14, t1 < t2 →
      alarmPrefixCount.getD t1 0 + alarmCounts.getD t1 0 ≤ alarmPrefixCount.getD t2 0 := by
  decide

/-- Every block of declared events ends at or before 172, the total of the counts. -/
theorem offset_add_count_le_total :
    ∀ t < 14, alarmPrefixCount.getD t 0 + alarmCounts.getD t 0 ≤ 172 := by
  decide

/-- The index of a declared event is the same as an `int` and as a `uint8`. -/
theorem uint8_declared (t i : Nat) (ht : t < 14) (hi : i < alarmCounts.getD t 0) :
    uint8 (alarmPrefixCount.getD t 0 + i + 3) = alarmPrefixCount.getD t 0 + i + 3 := by
  have := offset_add_count_le_total t ht
  exact uint8_of_lt _ (by omega)

theorem alarmCounts_get_lt (t c : Nat) (h : alarmCounts[t]? = some c) : t < 14 := by
  have : t < alarmCounts.length := by
    by_contra hlt
    rw [List.getElem?_eq_none (Nat.le_of_not_lt hlt)] at h
    exact Option.noConfusion h
  simpa [alarmCounts] using this

theorem alarmPrefixCount_get (t : Nat) (ht : t < 14) :
    alarmPrefixCount[t]? = some (alarmPrefixCount.getD t 0) := by
  have : ∀ t < 14, alarmPrefixCount[t]? = some (alarmPrefixCount.getD t 0) := by decide
  exact this t ht

theorem alarmCounts_get (t : Nat) (ht : t < 14) :
    alarmCounts[t]? = some (alarmCounts.getD t 0) := by
  have : ∀ t < 14, alarmCounts[t]? = some (alarmCounts.getD t 0) := by decide
  exact this t ht

theorem slotIndex_of_lt (t e : Nat) (ht : t < 14) :
    slotIndex t e = .ok (alarmPrefixCount.getD t 0 + e + 3) := by
  unfold slotIndex
  rw [tableRead_of_get _ _ _ (alarmPrefixCount_get t ht)]
  rfl

theorem declared_index_eq (t1 t2 e1 e2 : Nat) (ht1 : t1 < 14) (ht2 : t2 < 14)
    (he1 : e1 < alarmCounts.getD t1 0) (he2 : e2 < alarmCounts.getD t2 0)
    (h : alarmPrefixCount.getD t1 0 + e1 + 3 = alarmPrefixCount.getD t2 0 + e2 + 3) :
    t1 = t2 ∧ e1 = e2 := by
  rcases Nat.lt_trichotomy t1 t2 with hlt | heq | hgt
  · have := offset_add_count_le t1 ht1 t2 ht2 hlt
    omega
  · subst heq
    exact ⟨rfl, by omega⟩
  · have := offset_add_count_le t2 ht2 t1 ht1 hgt
    omega

theorem alarmPrefixCount_getD_of_get (t p : Nat) (ht : t < 14)
    (h : alarmPrefixCount[t]? = some p) : alarmPrefixCount.getD t 0 = p := by
  have := alarmPrefixCount_get t ht
  rw [h] at this
  exact (Option.some.inj this).symm

theorem alarmCounts_getD_of_get (t c : Nat) (h : alarmCounts[t]? = some c) :
    alarmCounts.getD t 0 = c := by
  have := alarmCounts_get t (alarmCounts_get_lt t c h)
  rw [h] at this
  exact (Option.some.inj this).symm

/-- C8: for every notification type `t` of the fixed order General .. HomeHealth,
the entry `alarmPrefixCount[t]` exists and equals the sum of `alarmCounts[p]` over
the types `p` strictly before `t`. -/
theorem alarmPrefixCount_eq_sum_of_preceding_counts (t : Nat) (ht : t < Alarm_Count) :
    alarmPrefixCount[t]? = some ((alarmCounts.take t).sum) := by
  have : ∀ t < 14, alarmPrefixCount[t]? = some ((alarmCounts.take t).sum) := by decide
  exact this t ht

theorem alarmPrefixCount_eq_sum_of_preceding_counts_witness :
    Alarm_Burglar < Alarm_Count ∧
      alarmPrefixCount[Alarm_Burglar]? = some ((alarmCounts.take Alarm_Burglar).sum) :=
  ⟨by decide, alarmPrefixCount_eq_sum_of_preceding_counts Alarm_Burglar (by decide)⟩

/-- C9, as stated, fails: over all event codes 0..255 the index expression is not
injective. Event 5 of Smoke and event 0 of Carbon Monoxide are distinct pairs of
the domain and both give index 8. -/
theorem slotIndex_not_injective_on_full_domain :
    (Alarm_Smoke < Alarm_Count ∧ Alarm_CarbonMonoxide < Alarm_Count ∧ 5 < 256 ∧ 0 < 256) ∧
      slotIndex Alarm_Smoke 5 = .ok 8 ∧ slotIndex Alarm_CarbonMonoxide 0 = .ok 8 ∧
      slotIndex Alarm_Smoke 5 = slotIndex Alarm_CarbonMonoxide 0 ∧
      ¬ (Alarm_Smoke = Alarm_CarbonMonoxide ∧ 5 = 0) :=
  ⟨⟨by decide, by decide, by decide, by decide⟩, rfl, rfl, rfl, by decide⟩

/-- C9, amended: on the declared events of each type (event codes below the
type's entry of `alarmCounts`) the index expression `alarmPrefixCount[t]+e+3` is
injective; and for one fixed type of the table, whatever its count, it is
injective over all event codes, also after the conversion to the 8-bit index of
the registry for the event codes 0..255. -/
theorem slotIndex_injective_on_declared_events (t1 t2 e1 e2 c1 c2 : Nat)
    (h1 : alarmCounts[t1]? = some c1) (h2 : alarmCounts[t2]? = some c2) :
    (e1 < c1 → e2 < c2 → slotIndex t1 e1 = slotIndex t2 e2 → t1 = t2 ∧ e1 = e2) ∧
    (∀ e e' : Nat, slotIndex t1 e = slotIndex t1 e' → e = e') ∧
    (∀ e e' index index', e < 256 → e' < 256 → slotIndex t1 e = .ok index →
      slotIndex t1 e' = .ok index' → uint8 index = uint8 index' → e = e') := by
  have ht1 := alarmCounts_get_lt t1 c1 h1
  have ht2 := alarmCounts_get_lt t2 c2 h2
  have hc1 : alarmCounts.getD t1 0 = c1 := by
    have := alarmCounts_get t1 ht1; rw [h1] at this; exact (Option.some.inj this).symm
  have hc2 : alarmCounts.getD t2 0 = c2 := by
    have := alarmCounts_get t2 ht2; rw [h2] at this; exact (Option.some.inj this).symm
  refine ⟨fun he1 he2 h => ?_, fun e e' h => ?_, fun e e' index index' he he' h h' hu => ?_⟩
  · rw [slotIndex_of_lt t1 e1 ht1, slotIndex_of_lt t2 e2 ht2] at h
    have h' : alarmPrefixCount.getD t1 0 + e1 + 3 = alarmPrefixCount.getD t2 0 + e2 + 3 :=
      Except.ok.inj h
    rcases Nat.lt_trichotomy t1 t2 with hlt | heq | hgt
    · have := offset_add_count_le t1 ht1 t2 ht2 hlt
      omega
    · subst heq
      exact ⟨rfl, by omega⟩
    · have := offset_add_count_le t2 ht2 t1 ht1 hgt
      omega
  · rw [slotIndex_of_lt t1 e ht1, slotIndex_of_lt t1 e' ht1] at h
    have h' : alarmPrefixCount.getD t1 0 + e + 3 = alarmPrefixCount.getD t1 0 + e' + 3 :=
      Except.ok.inj h
    omega
  · rw [slotIndex_of_lt t1 e ht1] at h
    rw [slotIndex_of_lt t1 e' ht1] at h'
    have hi : alarmPrefixCount.getD t1 0 + e + 3 = index := Except.ok.inj h
    have hi' : alarmPrefixCount.getD t1 0 + e' + 3 = index' := Except.ok.inj h'
    rw [← hi, ← hi'] at hu
    simp only [uint8] at hu
    omega

theorem slotIndex_injective_on_declared_events_witness :
    (alarmCounts[Alarm_Burglar]? = some 9 ∧ alarmCounts[Alarm_Flood]? = some 6) ∧
      ((7 < 9 → 5 < 6 → slotIndex Alarm_Burglar 7 = slotIndex Alarm_Flood 5 →
          Alarm_Burglar = Alarm_Flood ∧ 7 = 5) ∧
        (∀ e e' : Nat, slotIndex Alarm_Burglar e = slotIndex Alarm_Burglar e' → e = e') ∧
        (∀ e e' index index', e < 256 → e' < 256 → slotIndex Alarm_Burglar e = .ok index →
          slotIndex Alarm_Burglar e' = .ok index' → uint8 index = uint8 index' → e = e')) :=
  ⟨⟨rfl, rfl⟩,
    slotIndex_injective_on_declared_events Alarm_Burglar Alarm_Flood 7 5 9 6 rfl rfl⟩

/-- The index expression, evaluated: the declared events (Burglar, 7) and
(Flood, 5) have the indices 115 and 30; General, which declares no event, has
the indices 3 to 258 for the event codes 0 to 255, and 258 is 2 as an 8-bit
index. -/
theorem slotIndex_injective_example :
    slotIndex Alarm_Burglar 7 = .ok 115 ∧ slotIndex Alarm_Flood 5 = .ok 30 ∧
    alarmCounts[Alarm_General]? = some 0 ∧
    slotIndex Alarm_General 0 = .ok 3 ∧ slotIndex Alarm_General 255 = .ok 258 ∧
    uint8 258 = 2 :=
  ⟨rfl, rfl, rfl, rfl, rfl, rfl⟩

/-! ## Reports -/

theorem c_alarmTypeName_get (t : Nat) (ht : t < Alarm_Count) :
    c_alarmTypeName[t]? = some (c_alarmTypeName.getD t "") := by
  have : ∀ t < 14, c_alarmTypeName[t]? = some (c_alarmTypeName.getD t "") := by decide
  exact this t ht

/-- The guarded lookup `( x < Alarm_Count ) ? c_alarmTypeName[x] : "Unknown type"`
stays inside the table. -/
theorem alarmTypeName_guarded (x : Nat) :
    ∃ s, (if x < Alarm_Count then tableRead c_alarmTypeName x
      else (pure "Unknown type" : Except Fault String)) = .ok s := by
  by_cases h : x < Alarm_Count
  · exact ⟨_, by rw [if_pos h]; exact tableRead_of_get _ _ _ (c_alarmTypeName_get x h)⟩
  · exact ⟨_, by rw [if_neg h]; rfl⟩

/-- C3: on a device of version 1, a frame `[0x05, type, level, ...]` is handled
without fault and with result `true`; the Type slot (index 0), if present, takes
the value `type`, the Level slot (index 1), if present, takes the value `level`,
every other slot of every instance (SourceNodeId and all indices from 3 on)
keeps its value and label, and nothing is sent. -/
theorem HandleMsg_report_version1 (a : Alarm) (_instance type level : Nat) (rest : List Nat)
    (hv : a.version = 1) :
    ∃ a', HandleMsg a (0x05 :: type :: level :: rest) _instance = .ok (true, a') ∧
      GetValue a' _instance AlarmIndex_Type =
        (GetValue a _instance AlarmIndex_Type).map (fun v => { v with value := type }) ∧
      GetValue a' _instance AlarmIndex_Level =
        (GetValue a _instance AlarmIndex_Level).map (fun v => { v with value := level }) ∧
      (∀ inst index, (inst, index) ≠ (_instance, AlarmIndex_Type) →
        (inst, index) ≠ (_instance, AlarmIndex_Level) →
        GetValue a' inst index = GetValue a inst index) ∧
      a'.sendQueue = a.sendQueue ∧ a'.staticRequest = a.staticRequest := by
  refine ⟨OnValueRefreshed (OnValueRefreshed a _instance AlarmIndex_Type type) _instance
    AlarmIndex_Level level, ?_, ?_, ?_, ?_, rfl, rfl⟩
  · simp [HandleMsg, HandleMsg.report, HandleMsg.reportV2,
      HandleMsg.reportV3, readByte_at0, readByte_at1, readByte_at2, RefreshValue_ok, hv,
      AlarmCmd_Report, OnValueRefreshed, bind, Except.bind, pure, Except.pure]
  · simp [GetValue_OnValueRefreshed, AlarmIndex_Type, AlarmIndex_Level]
  · simp [GetValue_OnValueRefreshed, AlarmIndex_Type, AlarmIndex_Level]
  · intro inst index h0 h1
    simp [GetValue_OnValueRefreshed, h0, h1]


theorem HandleMsg_report_version1_witness :
    (sampleAlarm 1 sampleStoreV2).version = 1 ∧
    ∃ a', HandleMsg (sampleAlarm 1 sampleStoreV2) (0x05 :: 0x02 :: 0x50 :: []) 1 = .ok (true, a') ∧
      GetValue a' 1 AlarmIndex_Type =
        (GetValue (sampleAlarm 1 sampleStoreV2) 1 AlarmIndex_Type).map
          (fun v => { v with value := 0x02 }) ∧
      GetValue a' 1 AlarmIndex_Level =
        (GetValue (sampleAlarm 1 sampleStoreV2) 1 AlarmIndex_Level).map
          (fun v => { v with value := 0x50 }) ∧
      (∀ inst index, (inst, index) ≠ (1, AlarmIndex_Type) →
        (inst, index) ≠ (1, AlarmIndex_Level) →
        GetValue a' inst index = GetValue (sampleAlarm 1 sampleStoreV2) inst index) ∧
      a'.sendQueue = (sampleAlarm 1 sampleStoreV2).sendQueue ∧
      a'.staticRequest = (sampleAlarm 1 sampleStoreV2).staticRequest :=
  ⟨rfl, HandleMsg_report_version1 (sampleAlarm 1 sampleStoreV2) 1 0x02 0x50 [] rfl⟩

/-- C4, as stated, fails: with the bytes named as in the claim,
`[0x05, t, l, src, nt, ev, status] = [5, 1, 2, 3, 4, 5, 6]`, on a version 2 device
whose store has the slots 0, 1, 2 and `nt+3 = 7`, the slot 7 keeps its value 0
instead of taking `ev = 5`; the slot written is the one at (byte 5) + 3 = 8, and
it takes byte 6. -/
theorem HandleMsg_report_version2_claimed_layout_fails :
    (GetValue (sampleAlarm 2 sampleStoreV2) 1 0).isSome = true ∧
    (GetValue (sampleAlarm 2 sampleStoreV2) 1 1).isSome = true ∧
    (GetValue (sampleAlarm 2 sampleStoreV2) 1 2).isSome = true ∧
    (GetValue (sampleAlarm 2 sampleStoreV2) 1 (4 + 3)).isSome = true ∧
    HandleMsg (sampleAlarm 2 sampleStoreV2) [0x05, 1, 2, 3, 4, 5, 6] 1 =
      .ok (true, sampleAlarm 2
        [ ((1, 0), { value := 1, label := "Alarm Type" }),
          ((1, 1), { value := 2, label := "Alarm Level" }),
          ((1, 2), { value := 3, label := "SourceNodeId" }),
          ((1, 7), { value := 0, label := "Heat" }),
          ((1, 8), { value := 6, label := "Flood" }) ]) ∧
    (HandleMsg (sampleAlarm 2 sampleStoreV2) [0x05, 1, 2, 3, 4, 5, 6] 1).map
        (fun r => (GetValue r.2 1 (4 + 3)).map (fun v => v.value)) = .ok (some 0) ∧
    (HandleMsg (sampleAlarm 2 sampleStoreV2) [0x05, 1, 2, 3, 4, 5, 6] 1).map
        (fun r => (GetValue r.2 1 (4 + 3)).map (fun v => v.value)) ≠ .ok (some 5) :=
  ⟨rfl, rfl, rfl, rfl, rfl, rfl, fun h => by
    have h' : (Except.ok (some 0) : Except Fault (Option Nat)) = .ok (some 5) := h
    exact absurd (Option.some.inj (Except.ok.inj h')) (by decide)⟩

/-- C4, amended: on a device of version 2, a frame
`[0x05, t, l, src, status, nt, ev, ...]` (status at offset 4, the notification type
at offset 5, the event at offset 6) whose index `nt+3` is an index of the registry
(below 256, as it is when the slot `nt+3` exists) is handled without fault and
with result `true`; Type takes `t`, Level takes `l`, SourceNodeId takes `src` and
the slot at index `nt+3` takes `ev` (each if present); every other slot is
unchanged. -/
theorem HandleMsg_report_version2 (a : Alarm) (_instance t l src status nt ev : Nat)
    (rest : List Nat) (hv : a.version = 2) (hnt : nt + 3 < 256) :
    ∃ a', HandleMsg a (0x05 :: t :: l :: src :: status :: nt :: ev :: rest) _instance
        = .ok (true, a') ∧
      GetValue a' _instance AlarmIndex_Type =
        (GetValue a _instance AlarmIndex_Type).map (fun v => { v with value := t }) ∧
      GetValue a' _instance AlarmIndex_Level =
        (GetValue a _instance AlarmIndex_Level).map (fun v => { v with value := l }) ∧
      GetValue a' _instance AlarmIndex_SourceNodeId =
        (GetValue a _instance AlarmIndex_SourceNodeId).map (fun v => { v with value := src }) ∧
      GetValue a' _instance (nt + 3) =
        (GetValue a _instance (nt + 3)).map (fun v => { v with value := ev }) ∧
      (∀ inst index, (inst = _instance → index ≠ AlarmIndex_Type ∧ index ≠ AlarmIndex_Level ∧
          index ≠ AlarmIndex_SourceNodeId ∧ index ≠ nt + 3) →
        GetValue a' inst index = GetValue a inst index) := by
  refine ⟨OnValueRefreshed (OnValueRefreshed (OnValueRefreshed (OnValueRefreshed a _instance
    AlarmIndex_Type t) _instance AlarmIndex_Level l) _instance AlarmIndex_SourceNodeId src)
    _instance (nt + 3) ev, ?_, ?_, ?_, ?_, ?_, ?_⟩
  · simp [HandleMsg, HandleMsg.report, HandleMsg.reportV2,
      HandleMsg.reportV3, readByte_at0, readByte_at1, readByte_at2, readByte_at3, readByte_at4,
      readByte_at5, readByte_at6, RefreshValue_ok, hv, AlarmCmd_Report, OnValueRefreshed, bind,
      Except.bind, pure, Except.pure, uint8_of_lt (nt + 3) hnt]
  · simp [GetValue_OnValueRefreshed, AlarmIndex_Type, AlarmIndex_Level, AlarmIndex_SourceNodeId]
  · simp [GetValue_OnValueRefreshed, AlarmIndex_Type, AlarmIndex_Level, AlarmIndex_SourceNodeId]
  · simp [GetValue_OnValueRefreshed, AlarmIndex_Type, AlarmIndex_Level, AlarmIndex_SourceNodeId]
  · simp [GetValue_OnValueRefreshed, AlarmIndex_Type, AlarmIndex_Level, AlarmIndex_SourceNodeId]
  · intro inst index h
    by_cases hi : inst = _instance
    · obtain ⟨h0, h1, h2, h3⟩ := h hi
      simp [GetValue_OnValueRefreshed, h0, h1, h2, h3]
    · simp [GetValue_OnValueRefreshed, hi]


theorem HandleMsg_report_version2_witness :
    ((sampleAlarm 2 sampleStoreV2).version = 2 ∧ 4 + 3 < 256) ∧
    ∃ a', HandleMsg (sampleAlarm 2 sampleStoreV2) (0x05 :: 1 :: 2 :: 3 :: 0xFF :: 4 :: 5 :: []) 1
        = .ok (true, a') ∧
      GetValue a' 1 AlarmIndex_Type =
        (GetValue (sampleAlarm 2 sampleStoreV2) 1 AlarmIndex_Type).map
          (fun v => { v with value := 1 }) ∧
      GetValue a' 1 AlarmIndex_Level =
        (GetValue (sampleAlarm 2 sampleStoreV2) 1 AlarmIndex_Level).map
          (fun v => { v with value := 2 }) ∧
      GetValue a' 1 AlarmIndex_SourceNodeId =
        (GetValue (sampleAlarm 2 sampleStoreV2) 1 AlarmIndex_SourceNodeId).map
          (fun v => { v with value := 3 }) ∧
      GetValue a' 1 (4 + 3) =
        (GetValue (sampleAlarm 2 sampleStoreV2) 1 (4 + 3)).map (fun v => { v with value := 5 }) ∧
      (∀ inst index, (inst = 1 → index ≠ AlarmIndex_Type ∧ index ≠ AlarmIndex_Level ∧
          index ≠ AlarmIndex_SourceNodeId ∧ index ≠ 4 + 3) →
        GetValue a' inst index = GetValue (sampleAlarm 2 sampleStoreV2) inst index) :=
  ⟨⟨rfl, by decide⟩,
    HandleMsg_report_version2 (sampleAlarm 2 sampleStoreV2) 1 1 2 3 0xFF 4 5 [] rfl (by decide)⟩

/-! ### Version 3 and later -/

theorem foldlM_eq_ok {σ β : Type} (f : σ → β → Except Fault σ) (g : σ → β → σ) (l : List β)
    (h : ∀ s, ∀ x ∈ l, f s x = .ok (g s x)) (s : σ) :
    l.foldlM f s = .ok (l.foldl g s) := by
  induction l generalizing s with
  | nil => rfl
  | cons x rest ih =>
    rw [List.foldlM_cons, h s x (List.mem_cons_self _ _)]
    exact ih (fun s y hy => h s y (List.mem_cons_of_mem _ hy)) (g s x)

theorem GetValue_foldl_refresh_hit (ks : List Nat) (f : Nat → Nat) (a : Alarm)
    (inst b x : Nat) (hx : ∃ i ∈ ks, f i = x) :
    GetValue (ks.foldl (fun a i => OnValueRefreshed a inst (f i) b) a) inst x =
      (GetValue a inst x).map (fun v => { v with value := b }) := by
  induction ks generalizing a with
  | nil => obtain ⟨i, hi, _⟩ := hx; cases hi
  | cons k rest ih =>
    simp only [List.foldl_cons]
    by_cases hr : ∃ i ∈ rest, f i = x
    · rw [ih _ hr, GetValue_OnValueRefreshed]
      split
      · cases GetValue a inst x <;> rfl
      · rfl
    · have hk : f k = x := by
        obtain ⟨i, hi, hfi⟩ := hx
        rcases List.mem_cons.mp hi with h | h
        · rw [← h]; exact hfi
        · exact absurd ⟨i, h, hfi⟩ hr
      have hmiss : ∀ (a : Alarm),
          GetValue (rest.foldl (fun a i => OnValueRefreshed a inst (f i) b) a) inst x =
            GetValue a inst x := by
        intro a
        clear ih hx
        induction rest generalizing a with
        | nil => rfl
        | cons j rest' ih' =>
          simp only [List.foldl_cons]
          have hj : f j ≠ x := fun h => hr ⟨j, List.mem_cons_self _ _, h⟩
          rw [ih' (fun ⟨i, hi, hfi⟩ => hr ⟨i, List.mem_cons_of_mem _ hi, hfi⟩),
            GetValue_OnValueRefreshed]
          simp [Ne.symm hj]
      rw [hmiss, GetValue_OnValueRefreshed]
      simp [hk]

theorem GetValue_foldl_refresh_miss (ks : List Nat) (f : Nat → Nat) (a : Alarm)
    (inst b inst' x : Nat) (hx : inst' = inst → ∀ i ∈ ks, f i ≠ x) :
    GetValue (ks.foldl (fun a i => OnValueRefreshed a inst (f i) b) a) inst' x =
      GetValue a inst' x := by
  induction ks generalizing a with
  | nil => rfl
  | cons k rest ih =>
    simp only [List.foldl_cons]
    rw [ih _ (fun hi i hmem => hx hi i (List.mem_cons_of_mem _ hmem)), GetValue_OnValueRefreshed]
    by_cases hi : inst' = inst
    · have := hx hi k (List.mem_cons_self _ _)
      simp [hi, Ne.symm this]
    · simp [hi]

theorem foldl_refresh_sendQueue (ks : List Nat) (f : Nat → Nat) (a : Alarm) (inst b : Nat) :
    (ks.foldl (fun a i => OnValueRefreshed a inst (f i) b) a).sendQueue = a.sendQueue ∧
    (ks.foldl (fun a i => OnValueRefreshed a inst (f i) b) a).staticRequest = a.staticRequest := by
  induction ks generalizing a with
  | nil => exact ⟨rfl, rfl⟩
  | cons k rest ih => simp only [List.foldl_cons]; exact ih _

/-- The clear-all loop on a known type: it refreshes to 0 the slots at
`offset + i + 3` for `i` below the type's count; these indices are below 256. -/
theorem clearEvents_of_lt (a : Alarm) (inst t : Nat) (ht : t < Alarm_Count) :
    HandleMsg.clearEvents a inst t =
      .ok ((List.range (alarmCounts.getD t 0)).foldl
        (fun a i => OnValueRefreshed a inst (alarmPrefixCount.getD t 0 + i + 3) 0) a) := by
  unfold HandleMsg.clearEvents
  rw [tableRead_of_get _ _ _ (alarmCounts_get t ht)]
  simp only [bind, Except.bind]
  apply foldlM_eq_ok
  intro s i hi
  simp only [slotIndex_of_lt t i ht, bind, Except.bind,
    uint8_declared t i ht (List.mem_range.mp hi)]
  exact RefreshValue_ok s inst _ 0

/-- The report branch on a device of version 3 or later, for a frame of at least
seven bytes and a notification type of the table. -/
theorem HandleMsg_report_version3 (a : Alarm) (_instance d1 d2 d3 status t e : Nat)
    (rest : List Nat) (hv : 3 ≤ a.version) (ht : t < Alarm_Count) :
    HandleMsg a (0x05 :: d1 :: d2 :: d3 :: status :: t :: e :: rest) _instance =
      .ok (true,
        if e = 0x00 ∨ e = 0xFE then
          (List.range (alarmCounts.getD t 0)).foldl
            (fun a i => OnValueRefreshed a _instance (alarmPrefixCount.getD t 0 + i + 3) 0)
            (OnValueRefreshed (OnValueRefreshed a _instance AlarmIndex_Type d1) _instance
              AlarmIndex_Level status)
        else
          OnValueRefreshed (OnValueRefreshed (OnValueRefreshed a _instance AlarmIndex_Type d1)
            _instance AlarmIndex_Level status) _instance
            (uint8 (alarmPrefixCount.getD t 0 + e + 3)) 1) := by
  have hv2 : ¬ a.version ≤ 2 := by omega
  have hv3 : a.version ≠ 2 := by omega
  have hversion : ∀ x, (OnValueRefreshed a _instance AlarmIndex_Type x).version = a.version :=
    fun _ => rfl
  simp only [HandleMsg, HandleMsg.report,
    HandleMsg.reportV2, HandleMsg.reportV3, readByte_at0, readByte_at1, readByte_at4,
    readByte_at5, readByte_at6, RefreshValue_ok, AlarmCmd_Report, bind, Except.bind, pure,
    Except.pure, hversion, hv2, hv3, if_true, if_false, false_and, ge_iff_le, hv]
  by_cases he : e = 0x00 ∨ e = 0xFE
  · simp only [if_pos he, clearEvents_of_lt _ _ t ht]
  · simp only [if_neg he, slotIndex_of_lt t e ht, RefreshValue_ok]

/-- The value of a slot after the three refreshes of an activation: the slot
the activation addresses takes 1, also when it is a header slot. -/
theorem GetValue_activation (a : Alarm) (inst d1 status k : Nat) :
    GetValue (OnValueRefreshed (OnValueRefreshed (OnValueRefreshed a inst AlarmIndex_Type d1)
        inst AlarmIndex_Level status) inst k 1) inst k =
      (GetValue a inst k).map (fun v => { v with value := 1 }) := by
  rw [GetValue_OnValueRefreshed, if_pos rfl, GetValue_OnValueRefreshed, GetValue_OnValueRefreshed]
  split <;> split <;> cases GetValue a inst k <;> rfl

/-- C1: on a device of version 3 or later, a report frame of at least seven bytes
whose type byte `t` (offset 5) is a notification type of the table and whose
event byte `e` (offset 6) is neither 0x00 nor 0xFE is handled without fault and
with result `true`; the slot addressed is the one at the 8-bit index
`uint8 (alarmPrefixCount[t]+e+3)`, which is `alarmPrefixCount[t]+e+3` itself
whenever that is an index of the registry (below 256): this slot, if present,
keeps its label and takes the value 1, and every other slot of index 3 or more,
of every instance, is unchanged. -/
theorem HandleMsg_report_activation (a : Alarm) (_instance d1 d2 d3 status t e : Nat)
    (rest : List Nat) (hv : 3 ≤ a.version) (ht : t < Alarm_Count) (he0 : e ≠ 0x00)
    (heFE : e ≠ 0xFE) :
    ∃ a' offset, alarmPrefixCount[t]? = some offset ∧
      slotIndex t e = .ok (offset + e + 3) ∧
      (offset + e + 3 < 256 → uint8 (offset + e + 3) = offset + e + 3) ∧
      HandleMsg a (0x05 :: d1 :: d2 :: d3 :: status :: t :: e :: rest) _instance
        = .ok (true, a') ∧
      GetValue a' _instance (uint8 (offset + e + 3)) =
        (GetValue a _instance (uint8 (offset + e + 3))).map (fun v => { v with value := 1 }) ∧
      (∀ inst index, 3 ≤ index → (inst, index) ≠ (_instance, uint8 (offset + e + 3)) →
        GetValue a' inst index = GetValue a inst index) ∧
      (offset + e + 3 < 256 →
        GetValue a' _instance (offset + e + 3) =
          (GetValue a _instance (offset + e + 3)).map (fun v => { v with value := 1 }) ∧
        (∀ inst index, 3 ≤ index → (inst, index) ≠ (_instance, offset + e + 3) →
          GetValue a' inst index = GetValue a inst index)) := by
  have he : ¬ (e = 0x00 ∨ e = 0xFE) := fun h => h.elim he0 heFE
  have hother : ∀ inst index, 3 ≤ index →
      (inst, index) ≠ (_instance, uint8 (alarmPrefixCount.getD t 0 + e + 3)) →
      GetValue (OnValueRefreshed (OnValueRefreshed (OnValueRefreshed a _instance AlarmIndex_Type
          d1) _instance AlarmIndex_Level status) _instance
          (uint8 (alarmPrefixCount.getD t 0 + e + 3)) 1) inst index = GetValue a inst index := by
    intro inst index h3 hne
    have h0 : index ≠ 0 := by omega
    have h1 : index ≠ 1 := by omega
    rw [GetValue_OnValueRefreshed, if_neg hne, GetValue_OnValueRefreshed,
      if_neg (by simp [AlarmIndex_Level, h1]), GetValue_OnValueRefreshed,
      if_neg (by simp [AlarmIndex_Type, h0])]
  refine ⟨OnValueRefreshed (OnValueRefreshed (OnValueRefreshed a _instance AlarmIndex_Type d1)
    _instance AlarmIndex_Level status) _instance (uint8 (alarmPrefixCount.getD t 0 + e + 3)) 1,
    alarmPrefixCount.getD t 0, alarmPrefixCount_get t ht, slotIndex_of_lt t e ht,
    uint8_of_lt _, ?_, GetValue_activation a _instance d1 status _, hother, ?_⟩
  · rw [HandleMsg_report_version3 a _instance d1 d2 d3 status t e rest hv ht, if_neg he]
  · intro hfit
    have hu := uint8_of_lt _ hfit
    refine ⟨?_, ?_⟩
    · have := GetValue_activation a _instance d1 status
        (uint8 (alarmPrefixCount.getD t 0 + e + 3))
      rw [hu] at this
      rw [hu]
      exact this
    · intro inst index h3 hne
      have := hother inst index h3 (by rw [hu]; exact hne)
      rw [hu] at this
      rw [hu]
      exact this

theorem HandleMsg_report_activation_witness :
    (3 ≤ (sampleAlarm 3 sampleStoreV3).version ∧ Alarm_Burglar < Alarm_Count ∧ 0x07 ≠ 0x00 ∧
      0x07 ≠ 0xFE) ∧
    ∃ a' offset, alarmPrefixCount[Alarm_Burglar]? = some offset ∧
      slotIndex Alarm_Burglar 0x07 = .ok (offset + 0x07 + 3) ∧
      (offset + 0x07 + 3 < 256 → uint8 (offset + 0x07 + 3) = offset + 0x07 + 3) ∧
      HandleMsg (sampleAlarm 3 sampleStoreV3)
          (0x05 :: 0 :: 0 :: 0 :: 0xFF :: Alarm_Burglar :: 0x07 :: []) 1
        = .ok (true, a') ∧
      GetValue a' 1 (uint8 (offset + 0x07 + 3)) =
        (GetValue (sampleAlarm 3 sampleStoreV3) 1 (uint8 (offset + 0x07 + 3))).map
          (fun v => { v with value := 1 }) ∧
      (∀ inst index, 3 ≤ index → (inst, index) ≠ (1, uint8 (offset + 0x07 + 3)) →
        GetValue a' inst index = GetValue (sampleAlarm 3 sampleStoreV3) inst index) ∧
      (offset + 0x07 + 3 < 256 →
        GetValue a' 1 (offset + 0x07 + 3) =
          (GetValue (sampleAlarm 3 sampleStoreV3) 1 (offset + 0x07 + 3)).map
            (fun v => { v with value := 1 }) ∧
        (∀ inst index, 3 ≤ index → (inst, index) ≠ (1, offset + 0x07 + 3) →
          GetValue a' inst index = GetValue (sampleAlarm 3 sampleStoreV3) inst index)) :=
  ⟨⟨by decide, by decide, by decide, by decide⟩,
    HandleMsg_report_activation (sampleAlarm 3 sampleStoreV3) 1 0 0 0 0xFF Alarm_Burglar 0x07 []
      (by decide) (by decide) (by decide) (by decide)⟩

/-- The Burglar activation of the spec, evaluated: event 7 refreshes exactly the
slot 115. -/
theorem HandleMsg_report_activation_burglar :
    slotIndex Alarm_Burglar 0x07 = .ok 115 ∧
    HandleMsg (sampleAlarm 3 sampleStoreV3) [0x05, 0, 0, 0, 0xFF, Alarm_Burglar, 0x07] 1 =
      .ok (true, sampleAlarm 3
        [ ((1, 0), { value := 0, label := "Alarm Type" }),
          ((1, 1), { value := 0xFF, label := "Alarm Level" }),
          ((1, 114), { value := 1, label := "Glass Breakage" }),
          ((1, 115), { value := 1, label := "Motion" }),
          ((1, 116), { value := 1, label := "Motion" }) ]) :=
  ⟨rfl, rfl⟩

/-- C2: on a device of version 3 or later, for a notification type `t` of the
table, the report frames with event 0x00 and with event 0xFE (and otherwise the
same bytes) are handled without fault, with result `true` and with the same
resulting state; in it every slot at `alarmPrefixCount[t]+i+3` with
`i < alarmCounts[t]`, if present, keeps its label and has the value 0. -/
theorem HandleMsg_report_clear_all (a : Alarm) (_instance d1 d2 d3 status t : Nat)
    (rest : List Nat) (hv : 3 ≤ a.version) (ht : t < Alarm_Count) :
    ∃ a' offset count, alarmPrefixCount[t]? = some offset ∧ alarmCounts[t]? = some count ∧
      HandleMsg a (0x05 :: d1 :: d2 :: d3 :: status :: t :: 0x00 :: rest) _instance
        = .ok (true, a') ∧
      HandleMsg a (0x05 :: d1 :: d2 :: d3 :: status :: t :: 0xFE :: rest) _instance
        = .ok (true, a') ∧
      (∀ i, i < count → slotIndex t i = .ok (offset + i + 3) ∧
        GetValue a' _instance (offset + i + 3) =
          (GetValue a _instance (offset + i + 3)).map (fun v => { v with value := 0 })) := by
  refine ⟨(List.range (alarmCounts.getD t 0)).foldl
      (fun a i => OnValueRefreshed a _instance (alarmPrefixCount.getD t 0 + i + 3) 0)
      (OnValueRefreshed (OnValueRefreshed a _instance AlarmIndex_Type d1) _instance
        AlarmIndex_Level status),
    alarmPrefixCount.getD t 0, alarmCounts.getD t 0, alarmPrefixCount_get t ht,
    alarmCounts_get t ht, ?_, ?_, ?_⟩
  · rw [HandleMsg_report_version3 a _instance d1 d2 d3 status t 0x00 rest hv ht,
      if_pos (Or.inl rfl)]
  · rw [HandleMsg_report_version3 a _instance d1 d2 d3 status t 0xFE rest hv ht,
      if_pos (Or.inr rfl)]
  · intro i hi
    refine ⟨slotIndex_of_lt t i ht, ?_⟩
    rw [GetValue_foldl_refresh_hit (List.range (alarmCounts.getD t 0))
      (fun i => alarmPrefixCount.getD t 0 + i + 3) _ _instance 0 _
      ⟨i, List.mem_range.mpr hi, rfl⟩]
    simp [GetValue_OnValueRefreshed, AlarmIndex_Type, AlarmIndex_Level]

theorem HandleMsg_report_clear_all_witness :
    (3 ≤ (sampleAlarm 3 sampleStoreV3).version ∧ Alarm_Burglar < Alarm_Count) ∧
    ∃ a' offset count, alarmPrefixCount[Alarm_Burglar]? = some offset ∧
      alarmCounts[Alarm_Burglar]? = some count ∧
      HandleMsg (sampleAlarm 3 sampleStoreV3)
          (0x05 :: 0 :: 0 :: 0 :: 0 :: Alarm_Burglar :: 0x00 :: []) 1
        = .ok (true, a') ∧
      HandleMsg (sampleAlarm 3 sampleStoreV3)
          (0x05 :: 0 :: 0 :: 0 :: 0 :: Alarm_Burglar :: 0xFE :: []) 1
        = .ok (true, a') ∧
      (∀ i, i < count → slotIndex Alarm_Burglar i = .ok (offset + i + 3) ∧
        GetValue a' 1 (offset + i + 3) =
          (GetValue (sampleAlarm 3 sampleStoreV3) 1 (offset + i + 3)).map
            (fun v => { v with value := 0 })) :=
  ⟨⟨by decide, by decide⟩,
    HandleMsg_report_clear_all (sampleAlarm 3 sampleStoreV3) 1 0 0 0 0 Alarm_Burglar []
      (by decide) (by decide)⟩

/-- The version 3 block on a frame of fewer than seven bytes: one of its reads of
`_data[4]`, `_data[5]`, `_data[6]` goes past the end of the frame. -/
theorem reportV3_short (a : Alarm) (_data : List Nat) (inst : Nat) (hv : 3 ≤ a.version)
    (hlen : _data.length < 7) :
    ∃ k, _data.length ≤ k ∧
      HandleMsg.reportV3 a _data inst = .error (Fault.dataOutOfBounds k) := by
  have hv' : a.version ≥ 3 := hv
  unfold HandleMsg.reportV3
  rw [if_pos hv']
  by_cases h4 : _data.length ≤ 4
  · exact ⟨4, h4, by simp only [readByte_of_le _ 4 h4, bind, Except.bind]⟩
  · by_cases h5 : _data.length ≤ 5
    · exact ⟨5, h5, by
        simp only [readByte_of_lt _data 4 (by omega), readByte_of_le _data 5 h5, bind,
          Except.bind]⟩
    · exact ⟨6, by omega, by
        simp only [readByte_of_lt _data 4 (by omega), readByte_of_lt _data 5 (by omega),
          readByte_of_le _data 6 (by omega), bind, Except.bind]⟩

/-- A report frame of fewer than seven bytes on a device of version 3 or more:
a read that the handler acts on goes past the end of the frame. -/
theorem HandleMsg_report_short_faults (a : Alarm) (_instance : Nat) (rest : List Nat)
    (hv : 3 ≤ a.version) (hlen : (0x05 :: rest).length < 7) :
    ∃ k, (0x05 :: rest).length ≤ k ∧
      HandleMsg a (0x05 :: rest) _instance = .error (Fault.dataOutOfBounds k) := by
  have hv2 : ¬ a.version ≤ 2 := by omega
  have hv3 : a.version ≠ 2 := by omega
  have hhead : HandleMsg a (0x05 :: rest) _instance =
      (RefreshValue a _instance AlarmIndex_Type (readByte (0x05 :: rest) 1) >>= fun a =>
        (do
          let a ← (if a.version ≤ 2 then
            RefreshValue a _instance AlarmIndex_Level (readByte (0x05 :: rest) 2) else pure a)
          let a ← HandleMsg.reportV2 a (0x05 :: rest) _instance
          let a ← HandleMsg.reportV3 a (0x05 :: rest) _instance
          pure (true, a))) := by
    simp [HandleMsg, HandleMsg.report, readByte_at0, AlarmCmd_Report, bind, Except.bind]
  have htail : ∀ s : Alarm, s.version = a.version → ∃ k, (0x05 :: rest).length ≤ k ∧
      (do
        let a ← (if s.version ≤ 2 then
          RefreshValue s _instance AlarmIndex_Level (readByte (0x05 :: rest) 2) else pure s)
        let a ← HandleMsg.reportV2 a (0x05 :: rest) _instance
        let a ← HandleMsg.reportV3 a (0x05 :: rest) _instance
        pure (true, a) : Except Fault (Bool × Alarm)) = .error (Fault.dataOutOfBounds k) := by
    intro s hs
    obtain ⟨k, hk, hfault⟩ := reportV3_short s (0x05 :: rest) _instance (by omega) hlen
    refine ⟨k, hk, ?_⟩
    simp only [hs, hv2, hv3, if_false, HandleMsg.reportV2, false_and, hfault, bind, Except.bind,
      pure, Except.pure]
  rw [hhead]
  unfold RefreshValue
  cases hg : GetValue a _instance AlarmIndex_Type with
  | none =>
    obtain ⟨k, hk, hfault⟩ := htail a rfl
    exact ⟨k, hk, hfault⟩
  | some w =>
    by_cases h1 : (0x05 :: rest).length ≤ 1
    · exact ⟨1, h1, by simp only [readByte_of_le _ 1 h1, bind, Except.bind]⟩
    · obtain ⟨k, hk, hfault⟩ := htail (OnValueRefreshed a _instance AlarmIndex_Type
        ((0x05 :: rest).get ⟨1, by omega⟩)) rfl
      refine ⟨k, hk, ?_⟩
      simp only [readByte_of_lt _ 1 (Nat.lt_of_not_le h1), bind, Except.bind, pure, Except.pure]
      exact hfault

/-- C10 (what the code does): on a device of version 3 or later, a frame with
first byte 0x05 and fewer than seven bytes is not handled with result `true`:
`HandleMsg` reads `_data[k]` at an offset `k` that is not below the frame length. -/
theorem HandleMsg_report_version3_truncated_reads_past_end (a : Alarm) (_instance : Nat)
    (rest : List Nat) (hv : 3 ≤ a.version) (hlen : (0x05 :: rest).length < 7) :
    ∃ k, (0x05 :: rest).length ≤ k ∧
      HandleMsg a (0x05 :: rest) _instance = .error (Fault.dataOutOfBounds k) :=
  HandleMsg_report_short_faults a _instance rest hv hlen

theorem HandleMsg_report_version3_truncated_reads_past_end_witness :
    (3 ≤ (sampleAlarm 3 sampleStoreV3).version ∧ (0x05 :: 0x07 :: 0x00 :: []).length < 7) ∧
    (∃ k, (0x05 :: 0x07 :: 0x00 :: []).length ≤ k ∧
      HandleMsg (sampleAlarm 3 sampleStoreV3) (0x05 :: 0x07 :: 0x00 :: []) 1
        = .error (Fault.dataOutOfBounds k)) ∧
    HandleMsg (sampleAlarm 3 sampleStoreV3) [0x05, 0x07, 0x00] 1
      = .error (Fault.dataOutOfBounds 4) :=
  ⟨⟨by decide, by decide⟩,
    HandleMsg_report_version3_truncated_reads_past_end (sampleAlarm 3 sampleStoreV3) 1
      [0x07, 0x00] (by decide) (by decide),
    rfl⟩


/-! ## Bitmask loops -/

theorem mem_maskBits (mask : List Nat) (count index : Nat) :
    index ∈ maskBits mask count ↔
      index / 8 < count ∧ bitSet (mask.getD (index / 8) 0) (index % 8) = true := by
  unfold maskBits
  rw [List.mem_filter, List.mem_range]
  constructor
  · rintro ⟨h1, h2⟩; exact ⟨by omega, h2⟩
  · rintro ⟨h1, h2⟩; exact ⟨by omega, h2⟩

theorem maskBits_ascending (mask : List Nat) (count : Nat) :
    (maskBits mask count).Pairwise (fun x y => x < y) :=
  List.Pairwise.filter _ (List.pairwise_lt_range _)

theorem maskBits_succ (mask : List Nat) (n : Nat) :
    maskBits mask (n + 1) =
      maskBits mask n ++
        ((List.range 8).filter (fun bit => bitSet (mask.getD n 0) bit)).map
          (fun bit => (n <<< 3) + bit) := by
  unfold maskBits
  rw [show 8 * (n + 1) = 8 * n + 8 by ring, List.range_add, List.filter_append, List.filter_map]
  congr 1
  have hf : List.filter ((fun index => bitSet (mask.getD (index / 8) 0) (index % 8)) ∘
      fun x => 8 * n + x) (List.range 8) =
      List.filter (fun bit => bitSet (mask.getD n 0) bit) (List.range 8) := by
    apply List.filter_congr
    intro x hx
    have hx8 : x < 8 := List.mem_range.mp hx
    simp only [Function.comp]
    rw [show (8 * n + x) / 8 = n by omega, show (8 * n + x) % 8 = x by omega]
  rw [hf]
  apply List.map_congr_left
  intro x _
  rw [Nat.shiftLeft_eq]
  ring

theorem foldl_cond_eq_filter_map {σ : Type} (l : List Nat) (p : Nat → Bool) (h : Nat → Nat)
    (act : σ → Nat → σ) (s : σ) :
    l.foldl (fun s x => if p x = true then act s (h x) else s) s =
      ((l.filter p).map h).foldl act s := by
  induction l generalizing s with
  | nil => rfl
  | cons x rest ih =>
    simp only [List.foldl_cons, List.filter_cons]
    by_cases hp : p x = true
    · simp only [hp, if_true, List.map_cons, List.foldl_cons]; exact ih _
    · simp only [hp, if_false]; exact ih _

/-- The two nested loops over the bytes and the bits of a bitmask visit the set
bit positions in the order of `maskBits`. -/
theorem bitLoops_eq_foldl {σ : Type} (mask : List Nat) (act : σ → Nat → σ) (n : Nat) (s : σ) :
    (List.range n).foldl (fun s i =>
        (List.range 8).foldl (fun s bit =>
          if bitSet (mask.getD i 0) bit = true then act s ((i <<< 3) + bit) else s) s) s =
      (maskBits mask n).foldl act s := by
  induction n with
  | zero => rfl
  | succ n ih =>
    rw [List.range_succ n, List.foldl_append, ih, maskBits_succ, List.foldl_append]
    simp only [List.foldl_cons, List.foldl_nil]
    exact foldl_cond_eq_filter_map (List.range 8) (fun bit => bitSet (mask.getD n 0) bit)
      (fun bit => (n <<< 3) + bit) act _


theorem foldl_congr_inv {σ β : Type} (I : σ → Prop) (f g : σ → β → σ) (l : List β)
    (hfg : ∀ s x, I s → f s x = g s x) (hI : ∀ s x, I s → I (g s x)) (s : σ) (hs : I s) :
    l.foldl f s = l.foldl g s := by
  induction l generalizing s with
  | nil => rfl
  | cons x rest ih =>
    simp only [List.foldl_cons]
    rw [hfg s x hs]
    exact ih _ (hI s x hs)

theorem readByte_mask2 (d0 d1 : Nat) (mask : List Nat) (i : Nat) (h : i < mask.length) :
    readByte (d0 :: d1 :: mask) (i + 2) = .ok (mask.getD i 0) := by
  apply readByte_of_get
  simp [List.getD_eq_getElem?_getD, List.getElem?_eq_getElem h]

theorem readByte_mask3 (d0 d1 d2 : Nat) (mask : List Nat) (i : Nat) (h : i < mask.length) :
    readByte (d0 :: d1 :: d2 :: mask) (3 + i) = .ok (mask.getD i 0) := by
  apply readByte_of_get
  rw [Nat.add_comm]
  simp [List.getD_eq_getElem?_getD, List.getElem?_eq_getElem h]

/-! ## Slot creation -/

theorem GetValue_Create_of_some (a : Alarm) (inst idx : Nat) (l : String)
    (inst' idx' : Nat) (w : ValueByte) (h : GetValue a inst' idx' = some w) :
    GetValue (CreateValueByte a inst idx l) inst' idx' = some w := by
  rw [GetValue_CreateValueByte, h]
  cases hn : a.node with
  | none => simp [GetValue, hn] at h
  | some vs => rfl

theorem GetValue_Create_of_ne (a : Alarm) (inst idx : Nat) (l : String)
    (inst' idx' : Nat) (h : (inst, idx) ≠ (inst', idx')) :
    GetValue (CreateValueByte a inst idx l) inst' idx' = GetValue a inst' idx' := by
  rw [GetValue_CreateValueByte]
  cases hn : a.node with
  | none => simp [GetValue, hn]
  | some vs =>
    cases hg : GetValue a inst' idx' with
    | none => simp [h]
    | some w => rfl

theorem GetValue_Create_new (a : Alarm) (inst idx : Nat) (l : String)
    (hn : a.node.isSome = true) (h : GetValue a inst idx = none) :
    GetValue (CreateValueByte a inst idx l) inst idx = some { value := 0, label := l } := by
  rw [GetValue_CreateValueByte, h]
  cases hnode : a.node with
  | none => simp [hnode] at hn
  | some vs => simp

theorem GetValue_Create_isSome (a : Alarm) (inst idx : Nat) (l : String)
    (hn : a.node.isSome = true) :
    (GetValue (CreateValueByte a inst idx l) inst idx).isSome = true := by
  cases h : GetValue a inst idx with
  | none => rw [GetValue_Create_new a inst idx l hn h]; rfl
  | some w => rw [GetValue_Create_of_some a inst idx l inst idx w h]; rfl

theorem foldl_create_fields (idxs : List Nat) (key : Nat → Nat) (lab : Nat → String)
    (a : Alarm) (inst : Nat) :
    (idxs.foldl (fun s i => CreateValueByte s inst (key i) (lab i)) a).sendQueue = a.sendQueue ∧
    (idxs.foldl (fun s i => CreateValueByte s inst (key i) (lab i)) a).staticRequest
      = a.staticRequest ∧
    (idxs.foldl (fun s i => CreateValueByte s inst (key i) (lab i)) a).version = a.version ∧
    (idxs.foldl (fun s i => CreateValueByte s inst (key i) (lab i)) a).node.isSome
      = a.node.isSome := by
  induction idxs generalizing a with
  | nil => exact ⟨rfl, rfl, rfl, rfl⟩
  | cons i rest ih =>
    simp only [List.foldl_cons]
    obtain ⟨h1, h2, h3, h4⟩ := ih (CreateValueByte a inst (key i) (lab i))
    refine ⟨h1, h2, h3, ?_⟩
    rw [h4]
    cases hn : a.node <;> simp [CreateValueByte, hn]

theorem GetValue_foldl_create_of_some (idxs : List Nat) (key : Nat → Nat)
    (lab : Nat → String) (a : Alarm) (inst inst' x : Nat) (w : ValueByte)
    (h : GetValue a inst' x = some w) :
    GetValue (idxs.foldl (fun s i => CreateValueByte s inst (key i) (lab i)) a) inst' x
      = some w := by
  induction idxs generalizing a with
  | nil => exact h
  | cons i rest ih =>
    simp only [List.foldl_cons]
    exact ih _ (GetValue_Create_of_some a inst (key i) (lab i) inst' x w h)

theorem GetValue_foldl_create_miss (idxs : List Nat) (key : Nat → Nat)
    (lab : Nat → String) (a : Alarm) (inst inst' x : Nat)
    (h : inst' = inst → ∀ i ∈ idxs, key i ≠ x) :
    GetValue (idxs.foldl (fun s i => CreateValueByte s inst (key i) (lab i)) a) inst' x
      = GetValue a inst' x := by
  induction idxs generalizing a with
  | nil => rfl
  | cons i rest ih =>
    simp only [List.foldl_cons]
    rw [ih _ (fun hi j hj => h hi j (List.mem_cons_of_mem _ hj))]
    apply GetValue_Create_of_ne
    intro heq
    have h1 : inst = inst' := (Prod.mk.inj heq).1
    exact h h1.symm i (List.mem_cons_self _ _) (Prod.mk.inj heq).2

theorem GetValue_foldl_create_new (idxs : List Nat) (key : Nat → Nat)
    (lab : Nat → String) (hinj : ∀ i j, key i = key j → i = j) (a : Alarm)
    (inst i : Nat) (hi : i ∈ idxs) (hn : a.node.isSome = true)
    (h : GetValue a inst (key i) = none) :
    GetValue (idxs.foldl (fun s i => CreateValueByte s inst (key i) (lab i)) a) inst (key i)
      = some { value := 0, label := lab i } := by
  induction idxs generalizing a with
  | nil => cases hi
  | cons j rest ih =>
    simp only [List.foldl_cons]
    by_cases hj : key j = key i
    · have hji : j = i := hinj j i hj
      subst hji
      exact GetValue_foldl_create_of_some rest key lab _ inst inst (key j) _
        (GetValue_Create_new a inst (key j) (lab j) hn h)
    · have hmem : i ∈ rest := by
        rcases List.mem_cons.mp hi with h' | h'
        · exact absurd (by rw [h']) hj
        · exact h'
      apply ih _ hmem
      · cases hnode : a.node <;> simp [CreateValueByte, hnode] at hn ⊢
      · rw [GetValue_Create_of_ne a inst (key j) (lab j) inst (key i)
          (fun heq => hj (Prod.mk.inj heq).2)]
        exact h

theorem foldl_send_eq (idxs : List Nat) (a : Alarm) (inst : Nat) :
    idxs.foldl (fun s index => SendMsg s (HandleMsg.supportedEventGet s inst index)) a =
      { a with sendQueue := a.sendQueue ++ idxs.map (HandleMsg.supportedEventGet a inst) } := by
  induction idxs generalizing a with
  | nil => simp
  | cons i rest ih =>
    simp only [List.foldl_cons]
    rw [ih]
    simp [SendMsg, HandleMsg.supportedEventGet]


/-! ## Supported-types report -/

/-- One pass of the body of the supported-types loops, with the byte in bounds. -/
theorem supportedBit_ok (d0 d1 : Nat) (mask : List Nat) (inst i : Nat) (hi : i < mask.length)
    (s : Alarm) (bit : Nat) :
    HandleMsg.supportedBit (d0 :: d1 :: mask) inst i s bit =
      .ok (if bitSet (mask.getD i 0) bit = true then
          if (i <<< 3) + bit < Alarm_Count then
            if s.version ≤ 2 then
              CreateValueByte s inst ((i <<< 3) + bit + 3)
                (c_alarmTypeName.getD ((i <<< 3) + bit) "")
            else SendMsg s (HandleMsg.supportedEventGet s inst ((i <<< 3) + bit))
          else s
        else s) := by
  unfold HandleMsg.supportedBit
  rw [readByte_mask2 d0 d1 mask i hi]
  simp only [bind, Except.bind]
  by_cases hb : bitSet (mask.getD i 0) bit = true
  · simp only [hb, if_true]
    by_cases hidx : (i <<< 3) + bit < Alarm_Count
    · simp only [hidx, if_true]
      by_cases hv : s.version ≤ 2
      · have hu : uint8 ((i <<< 3) + bit + 3) = (i <<< 3) + bit + 3 :=
          uint8_of_lt _ (by simp only [Alarm_Count] at hidx; omega)
        simp only [hv, if_true, tableRead_of_get _ _ _ (c_alarmTypeName_get _ hidx), hu]
        rfl
      · have hv3 : s.version ≥ 3 := by omega
        simp only [hv, if_false, hv3, if_true]
        rfl
    · simp only [hidx, if_false]; rfl
  · simp only [hb]; rfl

/-- The supported-types branch on a frame whose bitmask has the announced number
of bytes, when the node is there: the SourceNodeId slot is created, the set bit
positions are visited in ascending order, and the static request is cleared. -/
theorem HandleMsg_supportedReport_eq (a : Alarm) (inst n : Nat) (mask : List Nat)
    (hnode : a.node.isSome = true) (hlen : n ≤ mask.length) :
    HandleMsg a (0x08 :: n :: mask) inst =
      .ok (true, ClearStaticRequest ((maskBits mask n).foldl
        (fun s index =>
          if index < Alarm_Count then
            if s.version ≤ 2 then
              CreateValueByte s inst (index + 3) (c_alarmTypeName.getD index "")
            else SendMsg s (HandleMsg.supportedEventGet s inst index)
          else s)
        (CreateValueByte a inst AlarmIndex_SourceNodeId "SourceNodeId"))) := by
  have hloops : ∀ s : Alarm,
      (List.range n).foldlM (fun a i =>
        (List.range 8).foldlM (HandleMsg.supportedBit (0x08 :: n :: mask) inst i) a) s =
      .ok ((List.range n).foldl (fun s i =>
        (List.range 8).foldl (fun s bit =>
          if bitSet (mask.getD i 0) bit = true then
            if (i <<< 3) + bit < Alarm_Count then
              if s.version ≤ 2 then
                CreateValueByte s inst ((i <<< 3) + bit + 3)
                  (c_alarmTypeName.getD ((i <<< 3) + bit) "")
              else SendMsg s (HandleMsg.supportedEventGet s inst ((i <<< 3) + bit))
            else s
          else s) s) s) := by
    intro s
    apply foldlM_eq_ok
    intro s i hi
    have hi' : i < mask.length := Nat.lt_of_lt_of_le (List.mem_range.mp hi) hlen
    apply foldlM_eq_ok
    intro s bit _
    exact supportedBit_ok 0x08 n mask inst i hi' s bit
  have hb := bitLoops_eq_foldl mask
    (fun (s : Alarm) index =>
      if index < Alarm_Count then
        if s.version ≤ 2 then
          CreateValueByte s inst (index + 3) (c_alarmTypeName.getD index "")
        else SendMsg s (HandleMsg.supportedEventGet s inst index)
      else s) n (CreateValueByte a inst AlarmIndex_SourceNodeId "SourceNodeId")
  cases hn : a.node with
  | none => simp [hn] at hnode
  | some vs =>
    simp only [HandleMsg, HandleMsg.supportedReport, readByte_at0, readByte_at1, hn,
      AlarmCmd_Report, AlarmCmd_SupportedReport, bind, Except.bind, pure, Except.pure]
    rw [hloops, hb]
    rfl

/-- The supported-types loops on a device of version 2 or less create one slot
per set bit position below `Alarm_Count`. -/
theorem supportedReport_fold_le2 (idxs : List Nat) (inst : Nat) (a : Alarm)
    (hv : a.version ≤ 2) :
    idxs.foldl
      (fun s index =>
        if index < Alarm_Count then
          if s.version ≤ 2 then
            CreateValueByte s inst (index + 3) (c_alarmTypeName.getD index "")
          else SendMsg s (HandleMsg.supportedEventGet s inst index)
        else s) a =
    (idxs.filter (fun index => decide (index < Alarm_Count))).foldl
      (fun s index => CreateValueByte s inst (index + 3) (c_alarmTypeName.getD index ""))
      a := by
  rw [foldl_congr_inv (fun s : Alarm => s.version ≤ 2) _
    (fun s index => if decide (index < Alarm_Count) = true then
      (fun s index =>
        CreateValueByte s inst (index + 3) (c_alarmTypeName.getD index "")) s (id index)
      else s) idxs _ _ a hv]
  · have h := foldl_cond_eq_filter_map idxs (fun index => decide (index < Alarm_Count)) id
      (fun s index =>
        CreateValueByte s inst (index + 3) (c_alarmTypeName.getD index "")) a
    rw [List.map_id] at h
    exact h
  · intro s index hs
    by_cases h : index < Alarm_Count
    · simp only [h, if_true, hs, decide_True, id]
    · simp only [h, if_false, decide_False]
      rfl
  · intro s index hs
    by_cases h : index < Alarm_Count
    · simp only [h, decide_True, if_true]; exact hs
    · simp only [h, decide_False]; exact hs

/-- The supported-types loops on a device of version 3 or more send one message
per set bit position below `Alarm_Count`. -/
theorem supportedReport_fold_ge3 (idxs : List Nat) (inst : Nat) (a : Alarm)
    (hv : 3 ≤ a.version) :
    idxs.foldl
      (fun s index =>
        if index < Alarm_Count then
          if s.version ≤ 2 then
            CreateValueByte s inst (index + 3) (c_alarmTypeName.getD index "")
          else SendMsg s (HandleMsg.supportedEventGet s inst index)
        else s) a =
    { a with sendQueue := (a.sendQueue ++
        (idxs.filter (fun index => decide (index < Alarm_Count))).map
          (HandleMsg.supportedEventGet a inst)) } := by
  rw [foldl_congr_inv (fun s : Alarm => 3 ≤ s.version) _
    (fun s index => if decide (index < Alarm_Count) = true then
      (fun s index => SendMsg s (HandleMsg.supportedEventGet s inst index)) s (id index)
      else s) idxs _ _ a hv]
  · have h := foldl_cond_eq_filter_map idxs (fun index => decide (index < Alarm_Count)) id
      (fun s index => SendMsg s (HandleMsg.supportedEventGet s inst index)) a
    rw [List.map_id, foldl_send_eq] at h
    exact h
  · intro s index hs
    have hs' : ¬ s.version ≤ 2 := by omega
    by_cases h : index < Alarm_Count
    · simp only [h, if_true, hs', if_false, decide_True, id]
    · simp only [h, if_false, decide_False]
      rfl
  · intro s index hs
    by_cases h : index < Alarm_Count
    · simp only [h, decide_True, if_true]; exact hs
    · simp only [h, decide_False]; exact hs


theorem GetValue_ClearStaticRequest (a : Alarm) (inst x : Nat) :
    GetValue (ClearStaticRequest a) inst x = GetValue a inst x := rfl

/-- C6: on a device of version 2 or less whose node is there, a supported-types
frame `[0x08, byteCount, bitmask...]` whose bitmask has the `byteCount` bytes is
handled without fault and with result `true`. Afterwards the SourceNodeId slot
exists; for every set bit position `index < 14` of the first `byteCount` bytes a
slot exists at `index+3`, and if there was none before it is the new slot with
value 0 labelled `c_alarmTypeName[index]`; a key without a slot before has one
afterwards only if it is SourceNodeId or such an `index+3` (so clear bits and
set bits from 14 on create nothing); existing slots are untouched; nothing is
sent. -/
theorem HandleMsg_supportedReport_version2 (a : Alarm) (_instance byteCount : Nat)
    (mask : List Nat) (hv : a.version ≤ 2) (hnode : a.node.isSome = true)
    (hlen : byteCount ≤ mask.length) :
    ∃ a', HandleMsg a (0x08 :: byteCount :: mask) _instance = .ok (true, a') ∧
      (GetValue a' _instance AlarmIndex_SourceNodeId).isSome = true ∧
      (∀ index ∈ maskBits mask byteCount, index < Alarm_Count →
        ∃ name v, c_alarmTypeName[index]? = some name ∧
          GetValue a' _instance (index + 3) = some v ∧
          (GetValue a _instance (index + 3) = none → v = { value := 0, label := name })) ∧
      (∀ inst x, GetValue a inst x = none →
        (inst = _instance → x ≠ AlarmIndex_SourceNodeId ∧
          ∀ index ∈ maskBits mask byteCount, index < Alarm_Count → x ≠ index + 3) →
        GetValue a' inst x = none) ∧
      (∀ inst x w, GetValue a inst x = some w → GetValue a' inst x = some w) ∧
      a'.sendQueue = a.sendQueue := by
  have hnode0 : (CreateValueByte a _instance AlarmIndex_SourceNodeId
      "SourceNodeId").node.isSome = true := by
    cases hn : a.node <;> simp [CreateValueByte, hn] at hnode ⊢
  refine ⟨ClearStaticRequest
    (((maskBits mask byteCount).filter (fun index => decide (index < Alarm_Count))).foldl
      (fun s index => CreateValueByte s _instance (index + 3)
        (c_alarmTypeName.getD index ""))
      (CreateValueByte a _instance AlarmIndex_SourceNodeId "SourceNodeId")),
    ?_, ?_, ?_, ?_, ?_, ?_⟩
  · rw [HandleMsg_supportedReport_eq a _instance byteCount mask hnode hlen,
      supportedReport_fold_le2 _ _ _ (show (CreateValueByte a _instance AlarmIndex_SourceNodeId
        "SourceNodeId").version ≤ 2 from hv)]
  · rw [GetValue_ClearStaticRequest]
    have h2 := GetValue_Create_isSome a _instance AlarmIndex_SourceNodeId "SourceNodeId"
      hnode
    obtain ⟨w, hw⟩ := Option.isSome_iff_exists.mp h2
    rw [GetValue_foldl_create_of_some _ (fun index => index + 3) _ _ _ _ _ w hw]
    rfl
  · intro index hmem hidx
    refine ⟨c_alarmTypeName.getD index "", ?_⟩
    rw [GetValue_ClearStaticRequest]
    cases hold : GetValue a _instance (index + 3) with
    | some w =>
      refine ⟨w, c_alarmTypeName_get index hidx, ?_, fun h => Option.noConfusion h⟩
      exact GetValue_foldl_create_of_some _ (fun index => index + 3) _ _ _ _ _ w
        (GetValue_Create_of_some a _ _ _ _ _ w hold)
    | none =>
      refine ⟨_, c_alarmTypeName_get index hidx, ?_, fun _ => rfl⟩
      apply GetValue_foldl_create_new _ (fun index => index + 3)
        (fun index => c_alarmTypeName.getD index "") (fun i j h => Nat.add_right_cancel h)
        _ _ index
      · exact List.mem_filter.mpr ⟨hmem, by simpa using hidx⟩
      · exact hnode0
      · rw [GetValue_Create_of_ne a _ _ _ _ _ (fun heq => by
          have := (Prod.mk.inj heq).2
          simp only [AlarmIndex_SourceNodeId] at this
          omega)]
        exact hold
  · intro inst x hold hx
    rw [GetValue_ClearStaticRequest,
      GetValue_foldl_create_miss _ (fun index => index + 3) _ _ _ _ _ (fun hi index hmem => by
        have hmem' := List.mem_filter.mp hmem
        exact Ne.symm ((hx hi).2 index hmem'.1 (by simpa using hmem'.2))),
      GetValue_Create_of_ne a _ _ _ _ _ (fun heq => by
        have h1 := (Prod.mk.inj heq).1
        exact (hx h1.symm).1 (Prod.mk.inj heq).2.symm)]
    exact hold
  · intro inst x w hold
    rw [GetValue_ClearStaticRequest]
    exact GetValue_foldl_create_of_some _ (fun index => index + 3) _ _ _ _ _ w
      (GetValue_Create_of_some a _ _ _ _ _ w hold)
  · exact (foldl_create_fields _ (fun index => index + 3) _ _ _).1

theorem HandleMsg_supportedReport_version2_witness :
    ((sampleAlarm 2 []).version ≤ 2 ∧ (sampleAlarm 2 []).node.isSome = true ∧
      1 ≤ [0b00000011].length) ∧
    ∃ a', HandleMsg (sampleAlarm 2 []) (0x08 :: 1 :: [0b00000011]) 1 = .ok (true, a') ∧
      (GetValue a' 1 AlarmIndex_SourceNodeId).isSome = true ∧
      (∀ index ∈ maskBits [0b00000011] 1, index < Alarm_Count →
        ∃ name v, c_alarmTypeName[index]? = some name ∧
          GetValue a' 1 (index + 3) = some v ∧
          (GetValue (sampleAlarm 2 []) 1 (index + 3) = none →
            v = { value := 0, label := name })) ∧
      (∀ inst x, GetValue (sampleAlarm 2 []) inst x = none →
        (inst = 1 → x ≠ AlarmIndex_SourceNodeId ∧
          ∀ index ∈ maskBits [0b00000011] 1, index < Alarm_Count → x ≠ index + 3) →
        GetValue a' inst x = none) ∧
      (∀ inst x w, GetValue (sampleAlarm 2 []) inst x = some w → GetValue a' inst x = some w) ∧
      a'.sendQueue = (sampleAlarm 2 []).sendQueue :=
  ⟨⟨by decide, rfl, by decide⟩,
    HandleMsg_supportedReport_version2 (sampleAlarm 2 []) 1 1 [0b00000011] (by decide) rfl
      (by decide)⟩

/-- The supported-types report of the spec, evaluated: the bitmask byte
0b00000011 on a version 2 device with an empty store creates SourceNodeId, slot 3
"General" and slot 4 "Smoke", and sends nothing. -/
theorem HandleMsg_supportedReport_version2_example :
    maskBits [0b00000011] 1 = [0, 1] ∧
    HandleMsg (sampleAlarm 2 []) [0x08, 1, 0b00000011] 1 =
      .ok (true, { sampleAlarm 2
        [ ((1, 2), { value := 0, label := "SourceNodeId" }),
          ((1, 3), { value := 0, label := "General" }),
          ((1, 4), { value := 0, label := "Smoke" }) ] with staticRequest := false }) :=
  ⟨by decide, rfl⟩

/-- C7: on a device of version 3 or more whose node is there, a supported-types
frame `[0x08, byteCount, bitmask...]` whose bitmask has the `byteCount` bytes is
handled without fault and with result `true`. The send queue grows by exactly
one message `[nodeId, 3, classId, 0x01, index, txOptions]` for each set bit
position `index < 14` of the first `byteCount` bytes, in ascending order of
`index` (none for a set position from 14 on); the SourceNodeId slot exists
afterwards and every other key of the store is as before. -/
theorem HandleMsg_supportedReport_version3 (a : Alarm) (_instance byteCount : Nat)
    (mask : List Nat) (hv : 3 ≤ a.version) (hnode : a.node.isSome = true)
    (hlen : byteCount ≤ mask.length) :
    ∃ a', HandleMsg a (0x08 :: byteCount :: mask) _instance = .ok (true, a') ∧
      a'.sendQueue = a.sendQueue ++
        ((maskBits mask byteCount).filter (fun index => decide (index < Alarm_Count))).map
          (HandleMsg.supportedEventGet a _instance) ∧
      (∀ index, (HandleMsg.supportedEventGet a _instance index).bytes =
        [a.nodeId, 3, a.commandClassId, 0x01, index, a.transmitOptions]) ∧
      ((maskBits mask byteCount).filter (fun index => decide (index < Alarm_Count))).Pairwise
        (fun x y => x < y) ∧
      (GetValue a' _instance AlarmIndex_SourceNodeId).isSome = true ∧
      (∀ inst x, (inst, x) ≠ (_instance, AlarmIndex_SourceNodeId) →
        GetValue a' inst x = GetValue a inst x) ∧
      (∀ w, GetValue a _instance AlarmIndex_SourceNodeId = some w →
        GetValue a' _instance AlarmIndex_SourceNodeId = some w) := by
  refine ⟨ClearStaticRequest
    { CreateValueByte a _instance AlarmIndex_SourceNodeId "SourceNodeId" with
      sendQueue := (a.sendQueue ++
        ((maskBits mask byteCount).filter (fun index => decide (index < Alarm_Count))).map
          (HandleMsg.supportedEventGet a _instance)) },
    ?_, ?_, fun _ => rfl, ?_, ?_, ?_, ?_⟩
  · rw [HandleMsg_supportedReport_eq a _instance byteCount mask hnode hlen,
      supportedReport_fold_ge3 _ _ _ (show 3 ≤ (CreateValueByte a _instance
        AlarmIndex_SourceNodeId "SourceNodeId").version from hv)]
    rfl
  · rfl
  · exact List.Pairwise.filter _ (maskBits_ascending mask byteCount)
  · exact GetValue_Create_isSome a _instance AlarmIndex_SourceNodeId "SourceNodeId" hnode
  · intro inst x hne
    exact GetValue_Create_of_ne a _ _ _ _ _ (fun h => hne h.symm)
  · intro w hw
    exact GetValue_Create_of_some a _ _ _ _ _ w hw

theorem HandleMsg_supportedReport_version3_witness :
    (3 ≤ (sampleAlarm 3 []).version ∧ (sampleAlarm 3 []).node.isSome = true ∧
      2 ≤ [0b10000010, 0xFF].length) ∧
    ∃ a', HandleMsg (sampleAlarm 3 []) (0x08 :: 2 :: [0b10000010, 0xFF]) 1 = .ok (true, a') ∧
      a'.sendQueue = (sampleAlarm 3 []).sendQueue ++
        ((maskBits [0b10000010, 0xFF] 2).filter (fun index => decide (index < Alarm_Count))).map
          (HandleMsg.supportedEventGet (sampleAlarm 3 []) 1) ∧
      (∀ index, (HandleMsg.supportedEventGet (sampleAlarm 3 []) 1 index).bytes =
        [(sampleAlarm 3 []).nodeId, 3, (sampleAlarm 3 []).commandClassId, 0x01, index,
          (sampleAlarm 3 []).transmitOptions]) ∧
      ((maskBits [0b10000010, 0xFF] 2).filter
        (fun index => decide (index < Alarm_Count))).Pairwise (fun x y => x < y) ∧
      (GetValue a' 1 AlarmIndex_SourceNodeId).isSome = true ∧
      (∀ inst x, (inst, x) ≠ (1, AlarmIndex_SourceNodeId) →
        GetValue a' inst x = GetValue (sampleAlarm 3 []) inst x) ∧
      (∀ w, GetValue (sampleAlarm 3 []) 1 AlarmIndex_SourceNodeId = some w →
        GetValue a' 1 AlarmIndex_SourceNodeId = some w) :=
  ⟨⟨by decide, rfl, by decide⟩,
    HandleMsg_supportedReport_version3 (sampleAlarm 3 []) 1 2 [0b10000010, 0xFF] (by decide) rfl
      (by decide)⟩

/-- A supported-types report on a version 3 device, evaluated: of the set
positions 1, 7, 8..15 the ones below 14 get one query each, in ascending order,
and only SourceNodeId is created. -/
theorem HandleMsg_supportedReport_version3_example :
    (maskBits [0b10000010, 0xFF] 2).filter (fun index => decide (index < Alarm_Count))
      = [1, 7, 8, 9, 10, 11, 12, 13] ∧
    (HandleMsg (sampleAlarm 3 []) [0x08, 2, 0b10000010, 0xFF] 1).map
        (fun r => (r.1, r.2.sendQueue.map Msg.bytes, r.2.node)) =
      .ok (true,
        [ [9, 3, 0x71, 0x01, 1, 0x25], [9, 3, 0x71, 0x01, 7, 0x25], [9, 3, 0x71, 0x01, 8, 0x25],
          [9, 3, 0x71, 0x01, 9, 0x25], [9, 3, 0x71, 0x01, 10, 0x25],
          [9, 3, 0x71, 0x01, 11, 0x25], [9, 3, 0x71, 0x01, 12, 0x25],
          [9, 3, 0x71, 0x01, 13, 0x25] ],
        some [ ((1, 2), { value := 0, label := "SourceNodeId" }) ]) :=
  ⟨by decide, rfl⟩


/-! ## Labelled event codes -/

theorem assocFind_mem {β : Type} (l : List (Nat × β)) (k : Nat) (v : β)
    (h : assocFind l k = some v) : (k, v) ∈ l := by
  induction l with
  | nil => cases h
  | cons e rest ih =>
    obtain ⟨k', v'⟩ := e
    simp only [assocFind] at h
    by_cases hk : k' = k
    · simp only [hk, if_true] at h
      rw [hk, Option.some.inj h]
      exact List.mem_cons_self _ _
    · simp only [hk, if_false] at h
      exact List.mem_cons_of_mem _ (ih h)

theorem table_keys_le : ∀ p ∈ m_EventTypeName, ∀ q ∈ p.2, q.1 ≤ 0xFE := by
  decide

/-- A labelled event code is a key of the table, so at most 0xFE. -/
theorem eventTypeName_isSome_le (t e : Nat) (h : (eventTypeName t e).isSome = true) :
    e ≤ 0xFE := by
  obtain ⟨v, hv⟩ := Option.isSome_iff_exists.mp h
  unfold eventTypeName at hv
  cases hevents : assocFind m_EventTypeName t with
  | none => rw [hevents] at hv; cases hv
  | some events =>
    rw [hevents] at hv
    exact table_keys_le (t, events) (assocFind_mem _ _ _ hevents) (e, v)
      (assocFind_mem _ _ _ hv)

set_option maxRecDepth 1000000 in
theorem label_below_count_bounded :
    ∀ t < 14, ∀ e < 254,
      ((eventTypeName t e).isSome = true → e < alarmCounts.getD t 0) ∧
      (t ≠ Alarm_Access_Control → e < alarmCounts.getD t 0 →
        (eventTypeName t e).isSome = true) := by
  decide

set_option maxRecDepth 1000000 in
theorem Access_Control_labels_bounded :
    ∀ e < 254, ((eventTypeName Alarm_Access_Control e).isSome = true ↔
      (e ≤ 0x17 ∨ (0x40 ≤ e ∧ e ≤ 0x4C))) := by
  decide

theorem alarmCounts_le : ∀ t < 14, alarmCounts.getD t 0 ≤ 77 := by
  decide

theorem shiftLeft3 (i : Nat) : i <<< 3 = 8 * i := by
  rw [Nat.shiftLeft_eq]
  ring

/-- A labelled bit position of a bitmask (a position below 254) is a declared
event, so its index is the same as an `int` and as a `uint8`. -/
theorem uint8_labelled (t index : Nat) (ht : t < 14) (hidx : index < 254)
    (hlab : (eventTypeName t index).isSome = true) :
    uint8 (alarmPrefixCount.getD t 0 + index + 3) = alarmPrefixCount.getD t 0 + index + 3 :=
  uint8_declared t index ht ((label_below_count_bounded t ht index hidx).1 hlab)

/-- The bit positions of a bitmask of at most 31 bytes are below 248. -/
theorem maskBits_lt (mask : List Nat) (n index : Nat) (hn : n ≤ 31)
    (h : index ∈ maskBits mask n) : index < 248 := by
  have := ((mem_maskBits mask n index).mp h).1
  omega

theorem and_1F_le (countByte : Nat) : countByte &&& 0x1F ≤ 31 :=
  Nat.and_le_right

/-! ## Loops that can throw -/

theorem foldlM_ok_or_error {σ β : Type} (f : σ → β → Except Fault σ) (e : Fault) (l : List β)
    (hall : ∀ s, ∀ x ∈ l, (∃ s', f s x = .ok s') ∨ f s x = .error e) (s : σ) :
    (∃ s', l.foldlM f s = .ok s') ∨ l.foldlM f s = .error e := by
  induction l generalizing s with
  | nil => exact Or.inl ⟨s, rfl⟩
  | cons x rest ih =>
    rw [List.foldlM_cons]
    rcases hall s x (List.mem_cons_self _ _) with ⟨s', hs'⟩ | herr
    · rw [hs']
      exact ih (fun s y hy => hall s y (List.mem_cons_of_mem _ hy)) s'
    · rw [herr]
      exact Or.inr rfl

theorem foldlM_error_of_mem {σ β : Type} (f : σ → β → Except Fault σ) (e : Fault) (l : List β)
    (hall : ∀ s, ∀ x ∈ l, (∃ s', f s x = .ok s') ∨ f s x = .error e)
    (hbad : ∃ x ∈ l, ∀ s, f s x = .error e) (s : σ) :
    l.foldlM f s = .error e := by
  induction l generalizing s with
  | nil => obtain ⟨x, hx, _⟩ := hbad; cases hx
  | cons x rest ih =>
    rw [List.foldlM_cons]
    rcases hall s x (List.mem_cons_self _ _) with ⟨s', hs'⟩ | herr
    · obtain ⟨y, hy, hyerr⟩ := hbad
      rcases List.mem_cons.mp hy with h | h
      · rw [h] at hyerr
        rw [hyerr s] at hs'
        cases hs'
      · rw [hs']
        exact ih (fun s z hz => hall s z (List.mem_cons_of_mem _ hz)) ⟨y, h, hyerr⟩ s'
    · rw [herr]
      rfl

/-! ## Supported-events report -/

/-- One pass of the body of the supported-events loops, with the byte in bounds
and a notification type of the table. -/
theorem supportedEventBit_eq (d0 t d2 : Nat) (mask : List Nat) (inst i : Nat)
    (hi : i < mask.length) (ht : t < Alarm_Count) (s : Alarm) (bit : Nat) :
    HandleMsg.supportedEventBit (d0 :: t :: d2 :: mask) inst i s bit =
      if bitSet (mask.getD i 0) bit = true then
        match eventTypeName t ((i <<< 3) + bit) with
        | none => .error Fault.nullLabel
        | some label =>
          .ok (CreateValueByte s inst
            (uint8 (alarmPrefixCount.getD t 0 + ((i <<< 3) + bit) + 3)) label)
      else .ok s := by
  unfold HandleMsg.supportedEventBit
  rw [readByte_mask3 d0 t d2 mask i hi]
  simp only [bind, Except.bind]
  by_cases hb : bitSet (mask.getD i 0) bit = true
  · simp only [hb, if_true, readByte_at1, slotIndex_of_lt t _ ht]
    cases eventTypeName t ((i <<< 3) + bit) <;> rfl
  · simp only [hb]; rfl

/-- One pass of the body for a bit position that is clear or has a label. -/
theorem supportedEventBit_ok (d0 t d2 : Nat) (mask : List Nat) (inst i : Nat)
    (hi : i < mask.length) (ht : t < Alarm_Count) (s : Alarm) (bit : Nat)
    (hidx : (i <<< 3) + bit < 254)
    (hlab : bitSet (mask.getD i 0) bit = true →
      (eventTypeName t ((i <<< 3) + bit)).isSome = true) :
    HandleMsg.supportedEventBit (d0 :: t :: d2 :: mask) inst i s bit =
      .ok (if bitSet (mask.getD i 0) bit = true then
          CreateValueByte s inst (alarmPrefixCount.getD t 0 + ((i <<< 3) + bit) + 3)
            ((eventTypeName t ((i <<< 3) + bit)).getD "")
        else s) := by
  rw [supportedEventBit_eq d0 t d2 mask inst i hi ht s bit]
  by_cases hb : bitSet (mask.getD i 0) bit = true
  · rw [if_pos hb, if_pos hb, uint8_labelled t _ ht hidx (hlab hb)]
    obtain ⟨l, hl⟩ := Option.isSome_iff_exists.mp (hlab hb)
    rw [hl]
    rfl
  · rw [if_neg hb, if_neg hb]

/-- The supported-events branch on a frame whose bitmask has the announced
number of bytes, for a notification type of the table, when the node is there
and every set bit position has a label. -/
theorem HandleMsg_supportedEventReport_eq (a : Alarm) (inst t countByte : Nat)
    (mask : List Nat) (hnode : a.node.isSome = true) (ht : t < Alarm_Count)
    (hlen : countByte &&& 0x1F ≤ mask.length)
    (hlab : ∀ index ∈ maskBits mask (countByte &&& 0x1F), (eventTypeName t index).isSome = true) :
    HandleMsg a (0x02 :: t :: countByte :: mask) inst =
      .ok (true, (maskBits mask (countByte &&& 0x1F)).foldl
        (fun s index =>
          CreateValueByte s inst (alarmPrefixCount.getD t 0 + index + 3)
            ((eventTypeName t index).getD ""))
        a) := by
  have hloops : ∀ s : Alarm,
      (List.range (countByte &&& 0x1F)).foldlM (fun a i =>
        (List.range 8).foldlM
          (HandleMsg.supportedEventBit (0x02 :: t :: countByte :: mask) inst i) a) s =
      .ok ((List.range (countByte &&& 0x1F)).foldl (fun s i =>
        (List.range 8).foldl (fun s bit =>
          if bitSet (mask.getD i 0) bit = true then
            CreateValueByte s inst (alarmPrefixCount.getD t 0 + ((i <<< 3) + bit) + 3)
              ((eventTypeName t ((i <<< 3) + bit)).getD "")
          else s) s) s) := by
    intro s
    apply foldlM_eq_ok
    intro s i hi
    have hin : i < countByte &&& 0x1F := List.mem_range.mp hi
    have hi' : i < mask.length := Nat.lt_of_lt_of_le hin hlen
    have h31 := and_1F_le countByte
    apply foldlM_eq_ok
    intro s bit hbit
    have hbit8 : bit < 8 := List.mem_range.mp hbit
    have hidx8 : (i <<< 3) + bit = 8 * i + bit := by rw [shiftLeft3]
    refine supportedEventBit_ok 0x02 t countByte mask inst i hi' ht s bit (by omega) ?_
    intro hb
    apply hlab
    rw [mem_maskBits, hidx8, show (8 * i + bit) / 8 = i by omega,
      show (8 * i + bit) % 8 = bit by omega]
    exact ⟨hin, hb⟩
  have hb := bitLoops_eq_foldl mask
    (fun (s : Alarm) index =>
      CreateValueByte s inst (alarmPrefixCount.getD t 0 + index + 3)
        ((eventTypeName t index).getD ""))
    (countByte &&& 0x1F) a
  cases hn : a.node with
  | none => simp [hn] at hnode
  | some vs =>
    simp only [HandleMsg, HandleMsg.supportedEventReport, readByte_at0, readByte_at1,
      readByte_at2, hn, AlarmCmd_Report, AlarmCmd_SupportedReport,
      AlarmCmd_SupportedEventReport, tableRead_of_get _ _ _ (c_alarmTypeName_get t ht), bind,
      Except.bind, pure, Except.pure]
    rw [hloops, hb]
    rfl

/-- The supported-events branch on a frame with a set bit position that has no
label: the construction of the label `string` throws, and the call has no result. -/
theorem HandleMsg_supportedEventReport_null (a : Alarm) (inst t countByte : Nat)
    (mask : List Nat) (hnode : a.node.isSome = true) (ht : t < Alarm_Count)
    (hlen : countByte &&& 0x1F ≤ mask.length)
    (hbad : ∃ index ∈ maskBits mask (countByte &&& 0x1F), eventTypeName t index = none) :
    HandleMsg a (0x02 :: t :: countByte :: mask) inst = .error Fault.nullLabel := by
  obtain ⟨index, hmem, hnone⟩ := hbad
  obtain ⟨hbyte, hset⟩ := (mem_maskBits mask _ index).mp hmem
  have hstep : ∀ i, i < mask.length → ∀ s : Alarm, ∀ bit ∈ List.range 8,
      (∃ s', HandleMsg.supportedEventBit (0x02 :: t :: countByte :: mask) inst i s bit = .ok s') ∨
      HandleMsg.supportedEventBit (0x02 :: t :: countByte :: mask) inst i s bit
        = .error Fault.nullLabel := by
    intro i hi s bit _
    rw [supportedEventBit_eq 0x02 t countByte mask inst i hi ht s bit]
    by_cases hb : bitSet (mask.getD i 0) bit = true
    · rw [if_pos hb]
      cases eventTypeName t ((i <<< 3) + bit) with
      | none => exact Or.inr rfl
      | some l => exact Or.inl ⟨_, rfl⟩
    · rw [if_neg hb]
      exact Or.inl ⟨_, rfl⟩
  have hinner : ∀ s : Alarm, ∀ i ∈ List.range (countByte &&& 0x1F),
      (∃ s', (List.range 8).foldlM
        (HandleMsg.supportedEventBit (0x02 :: t :: countByte :: mask) inst i) s = .ok s') ∨
      (List.range 8).foldlM
        (HandleMsg.supportedEventBit (0x02 :: t :: countByte :: mask) inst i) s
        = .error Fault.nullLabel := by
    intro s i hi
    exact foldlM_ok_or_error _ _ _
      (hstep i (Nat.lt_of_lt_of_le (List.mem_range.mp hi) hlen)) s
  have hbadbit : ∀ s : Alarm,
      HandleMsg.supportedEventBit (0x02 :: t :: countByte :: mask) inst (index / 8) s (index % 8)
        = .error Fault.nullLabel := by
    intro s
    rw [supportedEventBit_eq 0x02 t countByte mask inst (index / 8)
      (Nat.lt_of_lt_of_le hbyte hlen) ht s (index % 8), if_pos hset, shiftLeft3,
      show 8 * (index / 8) + index % 8 = index by omega, hnone]
  have hbadbyte : ∀ s : Alarm, (List.range 8).foldlM
      (HandleMsg.supportedEventBit (0x02 :: t :: countByte :: mask) inst (index / 8)) s
        = .error Fault.nullLabel := by
    intro s
    exact foldlM_error_of_mem _ _ _ (hstep (index / 8) (Nat.lt_of_lt_of_le hbyte hlen))
      ⟨index % 8, List.mem_range.mpr (Nat.mod_lt _ (by decide)), hbadbit⟩ s
  have hloops : ∀ s : Alarm,
      (List.range (countByte &&& 0x1F)).foldlM (fun a i =>
        (List.range 8).foldlM
          (HandleMsg.supportedEventBit (0x02 :: t :: countByte :: mask) inst i) a) s =
      .error Fault.nullLabel := by
    intro s
    exact foldlM_error_of_mem _ _ _ hinner ⟨index / 8, List.mem_range.mpr hbyte, hbadbyte⟩ s
  cases hn : a.node with
  | none => simp [hn] at hnode
  | some vs =>
    simp only [HandleMsg, HandleMsg.supportedEventReport, readByte_at0, readByte_at1,
      readByte_at2, hn, AlarmCmd_Report, AlarmCmd_SupportedReport,
      AlarmCmd_SupportedEventReport, tableRead_of_get _ _ _ (c_alarmTypeName_get t ht), bind,
      Except.bind, pure, Except.pure]
    rw [hloops]
    rfl

/-- C5 (what the code does): for a notification type `t` of the table and a
supported-events frame `[0x02, t, countByte, bitmask...]` whose bitmask has the
`countByte & 0x1F` bytes, on a node that is there. When every set bit position
of those bytes has a label in `m_EventTypeName[t]`, the frame is handled without
fault and with result `true`; afterwards, for every set bit position `i`, a slot
exists at `alarmPrefixCount[t]+i+3` (an index below 256), and if there was none
before it is the new slot with value 0 and the label of `(t, i)`; a key without a
slot before has one afterwards only if it is such an index (clear bits and later
bytes create nothing); existing slots are untouched and nothing is sent. When
some set bit position has no label, the null `char const*` is handed to the
`string` label parameter of `CreateValueByte`, the construction throws, and the
call has no result. -/
theorem HandleMsg_supportedEventReport (a : Alarm) (_instance t countByte : Nat)
    (mask : List Nat) (ht : t < Alarm_Count) (hnode : a.node.isSome = true)
    (hlen : countByte &&& 0x1F ≤ mask.length) :
    ((∀ i ∈ maskBits mask (countByte &&& 0x1F), (eventTypeName t i).isSome = true) →
      ∃ a' offset, alarmPrefixCount[t]? = some offset ∧
        HandleMsg a (0x02 :: t :: countByte :: mask) _instance = .ok (true, a') ∧
        (∀ i ∈ maskBits mask (countByte &&& 0x1F),
          slotIndex t i = .ok (offset + i + 3) ∧ uint8 (offset + i + 3) = offset + i + 3 ∧
          ∃ v, GetValue a' _instance (offset + i + 3) = some v ∧
            (GetValue a _instance (offset + i + 3) = none →
              ∃ l, eventTypeName t i = some l ∧ v = { value := 0, label := l })) ∧
        (∀ inst x, GetValue a inst x = none →
          (inst = _instance → ∀ i ∈ maskBits mask (countByte &&& 0x1F), x ≠ offset + i + 3) →
          GetValue a' inst x = none) ∧
        (∀ inst x w, GetValue a inst x = some w → GetValue a' inst x = some w) ∧
        a'.sendQueue = a.sendQueue ∧ a'.staticRequest = a.staticRequest) ∧
    ((∃ i ∈ maskBits mask (countByte &&& 0x1F), eventTypeName t i = none) →
      HandleMsg a (0x02 :: t :: countByte :: mask) _instance = .error Fault.nullLabel) := by
  refine ⟨fun hlab => ?_,
    HandleMsg_supportedEventReport_null a _instance t countByte mask hnode ht hlen⟩
  refine ⟨(maskBits mask (countByte &&& 0x1F)).foldl
      (fun s index => CreateValueByte s _instance (alarmPrefixCount.getD t 0 + index + 3)
        ((eventTypeName t index).getD "")) a,
    alarmPrefixCount.getD t 0, alarmPrefixCount_get t ht,
    HandleMsg_supportedEventReport_eq a _instance t countByte mask hnode ht hlen hlab,
    ?_, ?_, ?_, ?_, ?_⟩
  · intro i hmem
    have hi254 : i < 254 := by
      have := maskBits_lt mask _ i (and_1F_le countByte) hmem
      omega
    refine ⟨slotIndex_of_lt t i ht, uint8_labelled t i ht hi254 (hlab i hmem), ?_⟩
    cases hold : GetValue a _instance (alarmPrefixCount.getD t 0 + i + 3) with
    | some w =>
      exact ⟨w, GetValue_foldl_create_of_some _
        (fun index => alarmPrefixCount.getD t 0 + index + 3) _ _ _ _ _ w hold,
        fun h => Option.noConfusion h⟩
    | none =>
      obtain ⟨l, hl⟩ := Option.isSome_iff_exists.mp (hlab i hmem)
      refine ⟨{ value := 0, label := (eventTypeName t i).getD "" }, ?_, fun _ => ⟨l, hl, ?_⟩⟩
      · exact GetValue_foldl_create_new _ (fun index => alarmPrefixCount.getD t 0 + index + 3)
          (fun index => (eventTypeName t index).getD "") (fun i j h => by simp only at h; omega)
          a _instance i hmem hnode hold
      · rw [hl]
        rfl
  · intro inst x hold hx
    rw [GetValue_foldl_create_miss _ (fun index => alarmPrefixCount.getD t 0 + index + 3) _ _ _
      _ _ (fun hi index hmem => Ne.symm (hx hi index hmem))]
    exact hold
  · intro inst x w hold
    exact GetValue_foldl_create_of_some _ (fun index => alarmPrefixCount.getD t 0 + index + 3)
      _ _ _ _ _ w hold
  · exact (foldl_create_fields _ (fun index => alarmPrefixCount.getD t 0 + index + 3) _ _ _).1
  · exact (foldl_create_fields _ (fun index => alarmPrefixCount.getD t 0 + index + 3) _ _ _).2.1

theorem HandleMsg_supportedEventReport_witness :
    (Alarm_Smoke < Alarm_Count ∧ (sampleAlarm 3 []).node.isSome = true ∧
      1 &&& 0x1F ≤ [0b00010011].length) ∧
    (((∀ i ∈ maskBits [0b00010011] (1 &&& 0x1F), (eventTypeName Alarm_Smoke i).isSome = true) →
      ∃ a' offset, alarmPrefixCount[Alarm_Smoke]? = some offset ∧
        HandleMsg (sampleAlarm 3 []) (0x02 :: Alarm_Smoke :: 1 :: [0b00010011]) 1
          = .ok (true, a') ∧
        (∀ i ∈ maskBits [0b00010011] (1 &&& 0x1F),
          slotIndex Alarm_Smoke i = .ok (offset + i + 3) ∧
          uint8 (offset + i + 3) = offset + i + 3 ∧
          ∃ v, GetValue a' 1 (offset + i + 3) = some v ∧
            (GetValue (sampleAlarm 3 []) 1 (offset + i + 3) = none →
              ∃ l, eventTypeName Alarm_Smoke i = some l ∧ v = { value := 0, label := l })) ∧
        (∀ inst x, GetValue (sampleAlarm 3 []) inst x = none →
          (inst = 1 → ∀ i ∈ maskBits [0b00010011] (1 &&& 0x1F), x ≠ offset + i + 3) →
          GetValue a' inst x = none) ∧
        (∀ inst x w, GetValue (sampleAlarm 3 []) inst x = some w →
          GetValue a' inst x = some w) ∧
        a'.sendQueue = (sampleAlarm 3 []).sendQueue ∧
        a'.staticRequest = (sampleAlarm 3 []).staticRequest) ∧
    ((∃ i ∈ maskBits [0b00010011] (1 &&& 0x1F), eventTypeName Alarm_Smoke i = none) →
      HandleMsg (sampleAlarm 3 []) (0x02 :: Alarm_Smoke :: 1 :: [0b00010011]) 1
        = .error Fault.nullLabel)) :=
  ⟨⟨by decide, rfl, by decide⟩,
    HandleMsg_supportedEventReport (sampleAlarm 3 []) 1 Alarm_Smoke 1 [0b00010011] (by decide)
      rfl (by decide)⟩

/-- The supported-events report of the spec, evaluated: Smoke with the bits
0, 1 and 4 creates the slots 3, 4 and 7 with their labels. And the same report
with bit 5 set as well, a position without label: the call has no result. -/
theorem HandleMsg_supportedEventReport_smoke :
    maskBits [0b00010011] (1 &&& 0x1F) = [0, 1, 4] ∧
    HandleMsg (sampleAlarm 3 []) [0x02, Alarm_Smoke, 1, 0b00010011] 1 =
      .ok (true, sampleAlarm 3
        [ ((1, 3), { value := 0, label := "Smoke Alarm Inactive" }),
          ((1, 4), { value := 0, label := "Smoke" }),
          ((1, 7), { value := 0, label := "Smoke Replacement Required" }) ]) ∧
    maskBits [0b00110011] (1 &&& 0x1F) = [0, 1, 4, 5] ∧
    eventTypeName Alarm_Smoke 5 = none ∧
    HandleMsg (sampleAlarm 3 []) [0x02, Alarm_Smoke, 1, 0b00110011] 1 =
      .error Fault.nullLabel :=
  ⟨by decide, rfl, by decide, rfl, rfl⟩


/-! ## Frames of another kind -/

/-- C11: a frame whose first byte is none of 0x05, 0x08 and 0x02 is handled
without fault, the result is `false`, and the whole state (value store, static
request flag, send queue) is as before, whatever the version and the state. -/
theorem HandleMsg_unhandled_kind (a : Alarm) (d0 : Nat) (rest : List Nat) (_instance : Nat)
    (h5 : d0 ≠ 0x05) (h8 : d0 ≠ 0x08) (h2 : d0 ≠ 0x02) :
    HandleMsg a (d0 :: rest) _instance = .ok (false, a) := by
  simp only [HandleMsg, readByte_at0, bind, Except.bind, AlarmCmd_Report,
    AlarmCmd_SupportedReport, AlarmCmd_SupportedEventReport, if_neg h5, if_neg h8, if_neg h2]
  rfl

theorem HandleMsg_unhandled_kind_witness :
    (0x04 ≠ 0x05 ∧ 0x04 ≠ 0x08 ∧ 0x04 ≠ 0x02) ∧
    HandleMsg (sampleAlarm 3 sampleStoreV3) (0x04 :: [0x01, 0x02]) 1
      = .ok (false, sampleAlarm 3 sampleStoreV3) :=
  ⟨⟨by decide, by decide, by decide⟩,
    HandleMsg_unhandled_kind (sampleAlarm 3 sampleStoreV3) 0x04 [0x01, 0x02] 1 (by decide)
      (by decide) (by decide)⟩

/-! ## `RequestValue` and `RequestState` -/

theorem RequestValue_fold (idxs : List Nat) (inst q : Nat) (b : Bool) (a : Alarm) :
    idxs.foldl (RequestValue.step inst q) (b, a) =
      (b || !(idxs.filter (fun i => (GetValue a inst (uint8 (i + 3))).isSome)).isEmpty,
        { a with sendQueue := (a.sendQueue ++
          (idxs.filter (fun i => (GetValue a inst (uint8 (i + 3))).isSome)).map
            (RequestValue.typedGet a inst q)) }) := by
  induction idxs generalizing b a with
  | nil => simp
  | cons i rest ih =>
    simp only [List.foldl_cons, List.filter_cons]
    cases h : GetValue a inst (uint8 (i + 3)) with
    | none =>
      have hstep : RequestValue.step inst q (b, a) i = (b, a) := by
        simp only [RequestValue.step, h]
      rw [hstep, ih]
      simp
    | some w =>
      have hstep : RequestValue.step inst q (b, a) i =
          (true, SendMsg a (RequestValue.typedGet a inst q i)) := by
        simp only [RequestValue.step, h]
      rw [hstep, ih]
      have hg : ∀ j, GetValue (SendMsg a (RequestValue.typedGet a inst q i)) inst j
          = GetValue a inst j := fun _ => rfl
      have ht : RequestValue.typedGet (SendMsg a (RequestValue.typedGet a inst q i)) inst q
          = RequestValue.typedGet a inst q := rfl
      simp only [hg, ht]
      simp [SendMsg]

/-- `RequestValue` on a device that supports Get and whose version is not 1: one
typed GET per notification type `i` with a slot at `i + 3`, in ascending order. -/
theorem RequestValue_eq (a : Alarm) (f d inst q : Nat) (hget : a.getSupported = true)
    (hv : a.version ≠ 1) :
    RequestValue a f d inst q =
      (!((List.range Alarm_Count).filter (fun i => (GetValue a inst (i + 3)).isSome)).isEmpty,
        { a with sendQueue := (a.sendQueue ++
          ((List.range Alarm_Count).filter (fun i => (GetValue a inst (i + 3)).isSome)).map
            (RequestValue.typedGet a inst q)) }) := by
  have hfilter : (List.range Alarm_Count).filter
      (fun i => (GetValue a inst (uint8 (i + 3))).isSome) =
      (List.range Alarm_Count).filter (fun i => (GetValue a inst (i + 3)).isSome) := by
    apply List.filter_congr
    intro i hi
    have hi' : i < 14 := List.mem_range.mp hi
    rw [uint8_of_lt (i + 3) (by omega)]
  unfold RequestValue
  rw [if_pos hget, if_neg hv, RequestValue_fold, hfilter]
  simp

/-- Every message `RequestValue` queues is an `AlarmCmd_Get`. -/
theorem RequestValue_sends_gets (a : Alarm) (f d inst q : Nat) :
    ∃ new, (RequestValue a f d inst q).2.sendQueue = a.sendQueue ++ new ∧
      ∀ m ∈ new, m.name = "AlarmCmd_Get" ∧ m.bytes[3]? = some AlarmCmd_Get := by
  by_cases hget : a.getSupported = true
  · by_cases hv : a.version = 1
    · refine ⟨[{ name := "AlarmCmd_Get"
                 targetNodeId := a.nodeId
                 targetInstance := inst
                 bytes := [a.nodeId, 2, a.commandClassId, AlarmCmd_Get, a.transmitOptions]
                 queue := q }], ?_, ?_⟩
      · simp only [RequestValue, if_pos hget, if_pos hv, SendMsg]
      · intro m hm
        rw [List.mem_singleton.mp hm]
        exact ⟨rfl, rfl⟩
    · refine ⟨((List.range Alarm_Count).filter (fun i => (GetValue a inst (i + 3)).isSome)).map
          (RequestValue.typedGet a inst q), ?_, ?_⟩
      · rw [RequestValue_eq a f d inst q hget hv]
      · intro m hm
        obtain ⟨i, _, hi⟩ := List.mem_map.mp hm
        rw [← hi]
        exact ⟨rfl, rfl⟩
  · refine ⟨[], ?_, fun m hm => by cases hm⟩
    simp [RequestValue, hget]

/-- C14: a call of `RequestState` whose flags include Static. While the static
request is pending and the version is above 1, the result is `true` and exactly
one message is queued, the supported-types query
`[nodeId, 2, classId, 0x07, txOptions]`; nothing else changes. When the version
is 1 (or below) or the static request is no longer pending, whatever is queued
is an `AlarmCmd_Get` (command byte 0x04), so no supported-types query. -/
theorem RequestState_static (a : Alarm) (_requestFlags _instance _queue : Nat)
    (hs : _requestFlags &&& a.RequestFlag_Static ≠ 0) :
    (a.staticRequest = true → a.version > 1 →
      RequestState a _requestFlags _instance _queue =
        (true, { a with sendQueue := (a.sendQueue ++
          [{ name := "AlarmCmd_SupportedGet", targetNodeId := a.nodeId,
             targetInstance := _instance,
             bytes := [a.nodeId, 2, a.commandClassId, 0x07, a.transmitOptions],
             queue := _queue }]) })) ∧
    (a.version ≤ 1 ∨ a.staticRequest = false →
      ∃ new, (RequestState a _requestFlags _instance _queue).2.sendQueue = a.sendQueue ++ new ∧
        ∀ m ∈ new, m.name = "AlarmCmd_Get" ∧ m.bytes[3]? = some AlarmCmd_Get ∧
          m.bytes ≠ [a.nodeId, 2, a.commandClassId, 0x07, a.transmitOptions]) := by
  constructor
  · intro hp hv
    unfold RequestState
    rw [if_pos ⟨⟨hs, hp⟩, hv⟩]
    rfl
  · intro h
    have hnot : ¬ ((_requestFlags &&& a.RequestFlag_Static ≠ 0 ∧ a.staticRequest = true) ∧
        a.version > 1) := by
      rintro ⟨⟨_, hp⟩, hv⟩
      rcases h with h | h
      · omega
      · rw [hp] at h; exact Bool.noConfusion h
    have hne : ∀ m : Msg, m.bytes[3]? = some AlarmCmd_Get →
        m.bytes ≠ [a.nodeId, 2, a.commandClassId, 0x07, a.transmitOptions] := by
      intro m hm heq
      rw [heq] at hm
      simp [AlarmCmd_Get] at hm
    unfold RequestState
    rw [if_neg hnot]
    by_cases hd : _requestFlags &&& a.RequestFlag_Dynamic ≠ 0
    · rw [if_pos hd]
      obtain ⟨new, hq, hall⟩ := RequestValue_sends_gets a _requestFlags 0 _instance _queue
      exact ⟨new, hq, fun m hm => ⟨(hall m hm).1, (hall m hm).2, hne m (hall m hm).2⟩⟩
    · rw [if_neg hd]
      exact ⟨[], by simp, fun m hm => by cases hm⟩

theorem RequestState_static_witness :
    (1 &&& (sampleAlarm 2 sampleStoreTypes).RequestFlag_Static ≠ 0) ∧
    ((sampleAlarm 2 sampleStoreTypes).staticRequest = true →
      (sampleAlarm 2 sampleStoreTypes).version > 1 →
      RequestState (sampleAlarm 2 sampleStoreTypes) 1 1 5 =
        (true, { sampleAlarm 2 sampleStoreTypes with
          sendQueue := ((sampleAlarm 2 sampleStoreTypes).sendQueue ++
          [{ name := "AlarmCmd_SupportedGet",
             targetNodeId := (sampleAlarm 2 sampleStoreTypes).nodeId,
             targetInstance := 1,
             bytes := [(sampleAlarm 2 sampleStoreTypes).nodeId, 2,
               (sampleAlarm 2 sampleStoreTypes).commandClassId, 0x07,
               (sampleAlarm 2 sampleStoreTypes).transmitOptions],
             queue := 5 }]) })) ∧
    ((sampleAlarm 2 sampleStoreTypes).version ≤ 1 ∨
        (sampleAlarm 2 sampleStoreTypes).staticRequest = false →
      ∃ new, (RequestState (sampleAlarm 2 sampleStoreTypes) 1 1 5).2.sendQueue
          = (sampleAlarm 2 sampleStoreTypes).sendQueue ++ new ∧
        ∀ m ∈ new, m.name = "AlarmCmd_Get" ∧ m.bytes[3]? = some AlarmCmd_Get ∧
          m.bytes ≠ [(sampleAlarm 2 sampleStoreTypes).nodeId, 2,
            (sampleAlarm 2 sampleStoreTypes).commandClassId, 0x07,
            (sampleAlarm 2 sampleStoreTypes).transmitOptions]) :=
  ⟨by decide, RequestState_static (sampleAlarm 2 sampleStoreTypes) 1 1 5 (by decide)⟩

/-- The static request of the spec, evaluated: on a version 2 device the
supported-types query is the one message queued; on a version 1 device with
only the Static flag nothing is queued and the result is `false`. -/
theorem RequestState_static_example :
    (RequestState (sampleAlarm 2 sampleStoreTypes) 1 1 5).1 = true ∧
    (RequestState (sampleAlarm 2 sampleStoreTypes) 1 1 5).2.sendQueue.map Msg.bytes
      = [[9, 2, 0x71, 0x07, 0x25]] ∧
    RequestState (sampleAlarm 1 sampleStoreTypes) 1 1 5
      = (false, sampleAlarm 1 sampleStoreTypes) :=
  ⟨rfl, rfl, rfl⟩


/-- C15: on a device of version 1 that supports Get, `RequestValue` returns `true`
and queues exactly one message, `[nodeId, 2, classId, 0x04, txOptions]`, which has
no notification-type byte; nothing else changes, whatever slots exist. -/
theorem RequestValue_version1 (a : Alarm) (_requestFlags _dummy1 _instance _queue : Nat)
    (hv : a.version = 1) (hget : a.getSupported = true) :
    RequestValue a _requestFlags _dummy1 _instance _queue =
      (true, { a with sendQueue := (a.sendQueue ++
        [{ name := "AlarmCmd_Get", targetNodeId := a.nodeId, targetInstance := _instance,
           bytes := [a.nodeId, 2, a.commandClassId, 0x04, a.transmitOptions],
           queue := _queue }]) }) := by
  unfold RequestValue
  rw [if_pos hget, if_pos hv]
  rfl

theorem RequestValue_version1_witness :
    ((sampleAlarm 1 sampleStoreTypes).version = 1 ∧
      (sampleAlarm 1 sampleStoreTypes).getSupported = true) ∧
    RequestValue (sampleAlarm 1 sampleStoreTypes) 4 0 1 5 =
      (true, { sampleAlarm 1 sampleStoreTypes with
        sendQueue := ((sampleAlarm 1 sampleStoreTypes).sendQueue ++
        [{ name := "AlarmCmd_Get", targetNodeId := (sampleAlarm 1 sampleStoreTypes).nodeId,
           targetInstance := 1,
           bytes := [(sampleAlarm 1 sampleStoreTypes).nodeId, 2,
             (sampleAlarm 1 sampleStoreTypes).commandClassId, 0x04,
             (sampleAlarm 1 sampleStoreTypes).transmitOptions],
           queue := 5 }]) }) :=
  ⟨⟨rfl, rfl⟩, RequestValue_version1 (sampleAlarm 1 sampleStoreTypes) 4 0 1 5 rfl rfl⟩

/-- C16 (what the code does): on every version other than 1, `RequestValue`
tests `GetValue( _instance, i + 3 )` for the notification types `i < 14`, the
index scheme of the type slots of version 2. On a device of version 3 the slots
are event slots at `alarmPrefixCount[t]+event+3`, so the test does not find the
registered slots: with the Burglar event slots 114, 115 and 116 registered,
nothing is queued and the result is `false`; and after a supported-events
report has created the Smoke event slots 3, 4 and 7, the GETs queued are those
of the types 0 (General), 1 (Smoke) and 4 (Heat), three frames for three slots
of one type. -/
theorem RequestValue_version3_tests_type_slots :
    (2 ≤ (sampleAlarm 3 sampleStoreV3).version ∧
      (sampleAlarm 3 sampleStoreV3).getSupported = true) ∧
    (sampleStoreV3.filter (fun e => decide (e.1.1 = 1 ∧ 3 ≤ e.1.2))).map (fun e => e.1.2)
      = [114, 115, 116] ∧
    slotIndex Alarm_Burglar 6 = .ok 114 ∧ slotIndex Alarm_Burglar 7 = .ok 115 ∧
    slotIndex Alarm_Burglar 8 = .ok 116 ∧
    RequestValue (sampleAlarm 3 sampleStoreV3) 4 0 1 5 = (false, sampleAlarm 3 sampleStoreV3) ∧
    (RequestValue (sampleAlarm 3 sampleStoreV3) 4 0 1 5).2.sendQueue.length = 0 ∧
    HandleMsg (sampleAlarm 3 []) [0x02, Alarm_Smoke, 1, 0b00010011] 1 =
      .ok (true, sampleAlarm 3
        [ ((1, 3), { value := 0, label := "Smoke Alarm Inactive" }),
          ((1, 4), { value := 0, label := "Smoke" }),
          ((1, 7), { value := 0, label := "Smoke Replacement Required" }) ]) ∧
    (RequestValue (sampleAlarm 3
        [ ((1, 3), { value := 0, label := "Smoke Alarm Inactive" }),
          ((1, 4), { value := 0, label := "Smoke" }),
          ((1, 7), { value := 0, label := "Smoke Replacement Required" }) ]) 4 0 1 5).1 = true ∧
    (RequestValue (sampleAlarm 3
        [ ((1, 3), { value := 0, label := "Smoke Alarm Inactive" }),
          ((1, 4), { value := 0, label := "Smoke" }),
          ((1, 7), { value := 0, label := "Smoke Replacement Required" }) ]) 4 0 1
        5).2.sendQueue.map Msg.bytes =
      [ [9, 5, 0x71, 0x04, 0x00, Alarm_General, 0x01, 0x25],
        [9, 5, 0x71, 0x04, 0x00, Alarm_Smoke, 0x01, 0x25],
        [9, 5, 0x71, 0x04, 0x00, Alarm_Heat, 0x01, 0x25] ] :=
  ⟨⟨by decide, rfl⟩, rfl, rfl, rfl, rfl, rfl, rfl, rfl, rfl, rfl⟩

/-- `RequestValue`, evaluated on stores with the slots 3 and 4: two typed GETs
on version 2, and the same with the 0x01 qualifier on version 3. -/
theorem RequestValue_typed_example :
    (RequestValue (sampleAlarm 2 sampleStoreTypes) 4 0 1 5).1 = true ∧
    (RequestValue (sampleAlarm 2 sampleStoreTypes) 4 0 1 5).2.sendQueue.map Msg.bytes
      = [[9, 4, 0x71, 0x04, 0x00, 0, 0x25], [9, 4, 0x71, 0x04, 0x00, 1, 0x25]] ∧
    (RequestValue (sampleAlarm 3 sampleStoreTypes) 4 0 1 5).2.sendQueue.map Msg.bytes
      = [[9, 5, 0x71, 0x04, 0x00, 0, 0x01, 0x25], [9, 5, 0x71, 0x04, 0x00, 1, 0x01, 0x25]] :=
  ⟨rfl, rfl, rfl⟩

/-- C17: on a device of version 2 or more whose store has no slot of index 3 or
more for the instance (only header slots, or none at all), `RequestValue`
returns `false` and the state, the send queue included, is as before. -/
theorem RequestValue_before_discovery (a : Alarm)
    (_requestFlags _dummy1 _instance _queue : Nat) (hv : 2 ≤ a.version)
    (hnone : ∀ index, 3 ≤ index → GetValue a _instance index = none) :
    RequestValue a _requestFlags _dummy1 _instance _queue = (false, a) := by
  by_cases hget : a.getSupported = true
  · have hv1 : a.version ≠ 1 := by omega
    have hfilter : (List.range Alarm_Count).filter
        (fun i => (GetValue a _instance (i + 3)).isSome) = [] := by
      apply List.filter_eq_nil_iff.mpr
      intro i _
      rw [hnone (i + 3) (by omega)]
      simp
    rw [RequestValue_eq a _ _ _ _ hget hv1, hfilter]
    simp
  · simp [RequestValue, hget]

theorem RequestValue_before_discovery_witness :
    (2 ≤ (sampleAlarm 2 [((1, 0), { value := 0, label := "Alarm Type" }),
        ((1, 1), { value := 0, label := "Alarm Level" })]).version ∧
      ∀ index, 3 ≤ index →
        GetValue (sampleAlarm 2 [((1, 0), { value := 0, label := "Alarm Type" }),
          ((1, 1), { value := 0, label := "Alarm Level" })]) 1 index = none) ∧
    RequestValue (sampleAlarm 2 [((1, 0), { value := 0, label := "Alarm Type" }),
        ((1, 1), { value := 0, label := "Alarm Level" })]) 4 0 1 5 =
      (false, sampleAlarm 2 [((1, 0), { value := 0, label := "Alarm Type" }),
        ((1, 1), { value := 0, label := "Alarm Level" })]) :=
  have hnone : ∀ index, 3 ≤ index →
      GetValue (sampleAlarm 2 [((1, 0), { value := 0, label := "Alarm Type" }),
        ((1, 1), { value := 0, label := "Alarm Level" })]) 1 index = none := by
    intro index h
    have h0 : ¬ ((1, 0) : Nat × Nat) = (1, index) := by
      intro h'; have := (Prod.mk.inj h').2; omega
    have h1 : ¬ ((1, 1) : Nat × Nat) = (1, index) := by
      intro h'; have := (Prod.mk.inj h').2; omega
    simp only [GetValue, sampleAlarm, ValueStore.find, if_neg h0, if_neg h1]
  ⟨⟨by decide, hnone⟩, RequestValue_before_discovery _ 4 0 1 5 (by decide) hnone⟩


/-! ## `CreateVars` -/

/-- Creating at a key that has a slot changes nothing. -/
theorem CreateValueByte_of_some (a : Alarm) (inst idx : Nat) (l : String)
    (w : ValueByte) (h : GetValue a inst idx = some w) : CreateValueByte a inst idx l = a := by
  obtain ⟨n1, n2, n3, n4, n5, n6, n7, n8, n9, node, q⟩ := a
  cases node with
  | none => simp [GetValue] at h
  | some vs =>
    simp only [GetValue] at h
    simp only [CreateValueByte, Option.map_some', ValueStore.create, h]

/-- With a node, `CreateVars` amounts to creating the Type slot and the Level
slot: the second creation of the Level slot on version 3 or more finds it there. -/
theorem CreateVars_eq (a : Alarm) (inst : Nat) (hnode : a.node.isSome = true) :
    CreateVars a inst =
      CreateValueByte (CreateValueByte a inst AlarmIndex_Type "Alarm Type") inst
        AlarmIndex_Level "Alarm Level" := by
  have hnode0 : (CreateValueByte a inst AlarmIndex_Type "Alarm Type").node.isSome
      = true := by
    cases hn : a.node <;> simp [CreateValueByte, hn] at hnode ⊢
  cases hn : a.node with
  | none => simp [hn] at hnode
  | some vs =>
    simp only [CreateVars, hn]
    split
    · obtain ⟨w, hw⟩ := Option.isSome_iff_exists.mp
        (GetValue_Create_isSome (CreateValueByte a inst AlarmIndex_Type "Alarm Type")
          inst AlarmIndex_Level "Alarm Level" hnode0)
      exact CreateValueByte_of_some _ _ _ _ w hw
    · rfl

/-- C13, as stated, fails: after `CreateVars` on a device (of version 1, 2 or 3)
whose store is empty, the store holds the Type slot and the Level slot only; there
is no SourceNodeId slot at index 2. -/
theorem CreateVars_leaves_SourceNodeId_out :
    CreateVars (sampleAlarm 1 []) 1 = sampleAlarm 1
      [ ((1, 0), { value := 0, label := "Alarm Type" }),
        ((1, 1), { value := 0, label := "Alarm Level" }) ] ∧
    CreateVars (sampleAlarm 2 []) 1 = sampleAlarm 2
      [ ((1, 0), { value := 0, label := "Alarm Type" }),
        ((1, 1), { value := 0, label := "Alarm Level" }) ] ∧
    CreateVars (sampleAlarm 3 []) 1 = sampleAlarm 3
      [ ((1, 0), { value := 0, label := "Alarm Type" }),
        ((1, 1), { value := 0, label := "Alarm Level" }) ] ∧
    GetValue (CreateVars (sampleAlarm 1 []) 1) 1 AlarmIndex_SourceNodeId = none ∧
    GetValue (CreateVars (sampleAlarm 2 []) 1) 1 AlarmIndex_SourceNodeId = none ∧
    GetValue (CreateVars (sampleAlarm 3 []) 1) 1 AlarmIndex_SourceNodeId = none :=
  ⟨rfl, rfl, rfl, rfl, rfl, rfl⟩

/-- C13, amended: for every version and instance, after `CreateVars` on a node
that is there the store contains the Type slot at index 0 and the Level slot at
index 1 (new ones have value 0 and the labels "Alarm Type" and "Alarm Level"), and
every slot that was there before is untouched. -/
theorem CreateVars_creates_Type_and_Level (a : Alarm) (_instance : Nat)
    (hnode : a.node.isSome = true) :
    (∃ v, GetValue (CreateVars a _instance) _instance AlarmIndex_Type = some v ∧
      (GetValue a _instance AlarmIndex_Type = none →
        v = { value := 0, label := "Alarm Type" })) ∧
    (∃ v, GetValue (CreateVars a _instance) _instance AlarmIndex_Level = some v ∧
      (GetValue a _instance AlarmIndex_Level = none →
        v = { value := 0, label := "Alarm Level" })) ∧
    (∀ inst index w, GetValue a inst index = some w →
      GetValue (CreateVars a _instance) inst index = some w) := by
  have hnode0 : (CreateValueByte a _instance AlarmIndex_Type "Alarm Type").node.isSome
      = true := by
    cases hn : a.node <;> simp [CreateValueByte, hn] at hnode ⊢
  have hne : (_instance, AlarmIndex_Type) ≠ (_instance, AlarmIndex_Level) := by
    intro h; exact absurd (Prod.mk.inj h).2 (by decide)
  rw [CreateVars_eq a _instance hnode]
  refine ⟨?_, ?_, ?_⟩
  · cases hold : GetValue a _instance AlarmIndex_Type with
    | some w =>
      exact ⟨w, GetValue_Create_of_some _ _ _ _ _ _ w
        (GetValue_Create_of_some a _ _ _ _ _ w hold), fun h => Option.noConfusion h⟩
    | none =>
      exact ⟨_, GetValue_Create_of_some _ _ _ _ _ _ _
        (GetValue_Create_new a _ _ _ hnode hold), fun _ => rfl⟩
  · cases hold : GetValue a _instance AlarmIndex_Level with
    | some w =>
      exact ⟨w, GetValue_Create_of_some _ _ _ _ _ _ w
        (GetValue_Create_of_some a _ _ _ _ _ w hold), fun h => Option.noConfusion h⟩
    | none =>
      refine ⟨_, GetValue_Create_new _ _ _ _ hnode0 ?_, fun _ => rfl⟩
      rw [GetValue_Create_of_ne a _ _ _ _ _ hne]
      exact hold
  · intro inst index w hold
    exact GetValue_Create_of_some _ _ _ _ _ _ w (GetValue_Create_of_some a _ _ _ _ _ w hold)

theorem CreateVars_creates_Type_and_Level_witness :
    ((sampleAlarm 3 []).node.isSome = true) ∧
    ((∃ v, GetValue (CreateVars (sampleAlarm 3 []) 1) 1 AlarmIndex_Type = some v ∧
      (GetValue (sampleAlarm 3 []) 1 AlarmIndex_Type = none →
        v = { value := 0, label := "Alarm Type" })) ∧
    (∃ v, GetValue (CreateVars (sampleAlarm 3 []) 1) 1 AlarmIndex_Level = some v ∧
      (GetValue (sampleAlarm 3 []) 1 AlarmIndex_Level = none →
        v = { value := 0, label := "Alarm Level" })) ∧
    (∀ inst index w, GetValue (sampleAlarm 3 []) inst index = some w →
      GetValue (CreateVars (sampleAlarm 3 []) 1) inst index = some w)) :=
  ⟨rfl, CreateVars_creates_Type_and_Level (sampleAlarm 3 []) 1 rfl⟩

/-! ## Labels of events without table entry -/

/-- C18 (what the code does): the lookup `m_EventTypeName[t][i]` for an event code
without entry yields a null pointer, not "Unknown". Event 5 of Smoke has no entry,
General has no entry at all, and the only code of Smoke that maps to "Unknown" is
0xFE; a supported-events report for Smoke with bit 5 set hands the null pointer to
the `string` label parameter of `CreateValueByte`, and the call has no result. -/
theorem eventTypeName_unlabelled_is_null :
    eventTypeName Alarm_Smoke 5 = none ∧
    eventTypeName Alarm_Smoke 5 ≠ some "Unknown" ∧
    eventTypeName Alarm_General 0 = none ∧
    eventTypeName Alarm_Smoke 0xFE = some "Unknown" ∧
    HandleMsg (sampleAlarm 3 []) [0x02, Alarm_Smoke, 1, 0b00100000] 1 =
      .error Fault.nullLabel :=
  ⟨rfl, by decide, rfl, rfl, rfl⟩


/-! ## Reports never create slots -/

theorem OnlyRefreshed_refl (a : Alarm) : OnlyRefreshed a a :=
  ⟨fun _ _ => rfl, rfl, rfl, fun _ => rfl⟩

theorem OnlyRefreshed_trans {a b c : Alarm} (h1 : OnlyRefreshed a b) (h2 : OnlyRefreshed b c) :
    OnlyRefreshed a c := by
  obtain ⟨hl1, hq1, hs1, he1⟩ := h1
  obtain ⟨hl2, hq2, hs2, he2⟩ := h2
  refine ⟨fun inst index => (hl2 inst index).trans (hl1 inst index), hq2.trans hq1,
    hs2.trans hs1, fun hempty => ?_⟩
  have hb : b = a := he1 hempty
  rw [hb] at he2
  exact he2 hempty

theorem OnlyRefreshed_refresh (a : Alarm) (inst index b : Nat) :
    OnlyRefreshed a (OnValueRefreshed a inst index b) := by
  refine ⟨fun inst' index' => ?_, rfl, rfl, fun hempty => ?_⟩
  · rw [GetValue_OnValueRefreshed]
    split
    · cases GetValue a inst' index' <;> rfl
    · rfl
  · exact OnValueRefreshed_of_none a inst index b (hempty inst index)

theorem OnlyRefreshed_foldl (ks : List Nat) (f : Nat → Nat) (a : Alarm) (inst b : Nat) :
    OnlyRefreshed a (ks.foldl (fun a i => OnValueRefreshed a inst (f i) b) a) := by
  induction ks generalizing a with
  | nil => exact OnlyRefreshed_refl a
  | cons k rest ih =>
    simp only [List.foldl_cons]
    exact OnlyRefreshed_trans (OnlyRefreshed_refresh a inst (f k) b) (ih _)

theorem HandleMsg_report_eq_version1 (a : Alarm) (inst d1 d2 : Nat) (rest : List Nat)
    (hv : a.version = 1) :
    HandleMsg a (0x05 :: d1 :: d2 :: rest) inst =
      .ok (true, OnValueRefreshed (OnValueRefreshed a inst AlarmIndex_Type d1) inst
        AlarmIndex_Level d2) := by
  simp [HandleMsg, HandleMsg.report, HandleMsg.reportV2,
    HandleMsg.reportV3, readByte_at0, readByte_at1, readByte_at2, RefreshValue_ok, hv,
    AlarmCmd_Report, OnValueRefreshed, bind, Except.bind, pure, Except.pure]

theorem HandleMsg_report_eq_version2 (a : Alarm) (inst d1 d2 d3 d4 d5 d6 : Nat)
    (rest : List Nat) (hv : a.version = 2) :
    HandleMsg a (0x05 :: d1 :: d2 :: d3 :: d4 :: d5 :: d6 :: rest) inst =
      .ok (true, OnValueRefreshed (OnValueRefreshed (OnValueRefreshed (OnValueRefreshed a inst
        AlarmIndex_Type d1) inst AlarmIndex_Level d2) inst AlarmIndex_SourceNodeId d3) inst
        (uint8 (d5 + 3)) d6) := by
  have hv1 : a.version ≠ 1 := by omega
  simp [HandleMsg, HandleMsg.report, HandleMsg.reportV2,
    HandleMsg.reportV3, readByte_at0, readByte_at1, readByte_at2, readByte_at3, readByte_at4,
    readByte_at5, readByte_at6, RefreshValue_ok, hv, AlarmCmd_Report, OnValueRefreshed, bind,
    Except.bind, pure, Except.pure]

theorem HandleMsg_report_eq_version0 (a : Alarm) (inst d1 d2 d3 d4 d5 d6 : Nat)
    (rest : List Nat) (hv : a.version = 0) :
    HandleMsg a (0x05 :: d1 :: d2 :: d3 :: d4 :: d5 :: d6 :: rest) inst =
      .ok (true, OnValueRefreshed (OnValueRefreshed a inst AlarmIndex_Type d1) inst
        AlarmIndex_Level d2) := by
  have hv1 : a.version ≠ 1 := by omega
  simp [HandleMsg, HandleMsg.report, HandleMsg.reportV2,
    HandleMsg.reportV3, readByte_at0, readByte_at1, readByte_at2, readByte_at3, readByte_at4,
    readByte_at5, readByte_at6, RefreshValue_ok, hv, AlarmCmd_Report, OnValueRefreshed, bind,
    Except.bind, pure, Except.pure]

/-- A well-formed report frame only refreshes values. -/
theorem HandleMsg_report_onlyRefreshed (a : Alarm) (_data : List Nat) (inst : Nat)
    (hkind : _data[0]? = some 0x05) (hlen : 3 ≤ _data.length)
    (hlong : a.version ≠ 1 → 7 ≤ _data.length)
    (htype : 3 ≤ a.version → ∃ t, _data[5]? = some t ∧ t < Alarm_Count) :
    ∃ a', HandleMsg a _data inst = .ok (true, a') ∧ OnlyRefreshed a a' := by
  rcases _data with _ | ⟨d0, _ | ⟨d1, _ | ⟨d2, rest⟩⟩⟩ <;>
    simp only [List.length_cons, List.length_nil] at hlen <;> try omega
  have hd0 : d0 = 0x05 := by simpa using hkind
  subst hd0
  by_cases hv1 : a.version = 1
  · exact ⟨_, HandleMsg_report_eq_version1 a inst d1 d2 rest hv1,
      OnlyRefreshed_trans (OnlyRefreshed_refresh _ _ _ _) (OnlyRefreshed_refresh _ _ _ _)⟩
  · have h7 := hlong hv1
    rcases rest with _ | ⟨d3, _ | ⟨d4, _ | ⟨d5, _ | ⟨d6, rest⟩⟩⟩⟩ <;>
      simp only [List.length_cons, List.length_nil] at h7 <;> try omega
    by_cases hv0 : a.version = 0
    · exact ⟨_, HandleMsg_report_eq_version0 a inst d1 d2 d3 d4 d5 d6 rest hv0,
        OnlyRefreshed_trans (OnlyRefreshed_refresh _ _ _ _) (OnlyRefreshed_refresh _ _ _ _)⟩
    · by_cases hv2 : a.version = 2
      · exact ⟨_, HandleMsg_report_eq_version2 a inst d1 d2 d3 d4 d5 d6 rest hv2,
          OnlyRefreshed_trans (OnlyRefreshed_trans (OnlyRefreshed_trans
            (OnlyRefreshed_refresh _ _ _ _) (OnlyRefreshed_refresh _ _ _ _))
            (OnlyRefreshed_refresh _ _ _ _)) (OnlyRefreshed_refresh _ _ _ _)⟩
      · have hv3 : 3 ≤ a.version := by omega
        obtain ⟨t, ht5, ht⟩ := htype hv3
        have hd5 : d5 = t := by simpa using ht5
        subst hd5
        refine ⟨_, HandleMsg_report_version3 a inst d1 d2 d3 d4 d5 d6 rest hv3 ht, ?_⟩
        have h01 : OnlyRefreshed a (OnValueRefreshed (OnValueRefreshed a inst AlarmIndex_Type d1)
            inst AlarmIndex_Level d4) :=
          OnlyRefreshed_trans (OnlyRefreshed_refresh _ _ _ _) (OnlyRefreshed_refresh _ _ _ _)
        split
        · exact OnlyRefreshed_trans h01
            (OnlyRefreshed_foldl _ (fun i => alarmPrefixCount.getD d5 0 + i + 3) _ inst 0)
        · exact OnlyRefreshed_trans h01 (OnlyRefreshed_refresh _ _ _ _)

/-- C12: a well-formed report frame (first byte 0x05; at least three bytes; at
least seven bytes unless the version is 1; on version 3 or more a type byte of
the table) is handled without fault and with result `true`, whatever the
version. It creates no slot and sends nothing: the store has the same slots with
the same labels before and after, the send queue and the static request flag are
as before, and when the store has no slot the whole state is unchanged. -/
theorem HandleMsg_report_creates_no_slot (a : Alarm) (_data : List Nat) (_instance : Nat)
    (hkind : _data[0]? = some 0x05) (hlen : 3 ≤ _data.length)
    (hlong : a.version ≠ 1 → 7 ≤ _data.length)
    (htype : 3 ≤ a.version → ∃ t, _data[5]? = some t ∧ t < Alarm_Count) :
    ∃ a', HandleMsg a _data _instance = .ok (true, a') ∧
      (∀ inst index, (GetValue a' inst index).map (fun v => v.label)
        = (GetValue a inst index).map (fun v => v.label)) ∧
      a'.sendQueue = a.sendQueue ∧ a'.staticRequest = a.staticRequest ∧
      ((∀ inst index, GetValue a inst index = none) → a' = a) :=
  HandleMsg_report_onlyRefreshed a _data _instance hkind hlen hlong htype

theorem HandleMsg_report_creates_no_slot_witness :
    (([0x05, 0, 0, 0, 0xFF, Alarm_Burglar, 0x07] : List Nat)[0]? = some 0x05 ∧
      3 ≤ ([0x05, 0, 0, 0, 0xFF, Alarm_Burglar, 0x07] : List Nat).length ∧
      ((sampleAlarm 3 []).version ≠ 1 →
        7 ≤ ([0x05, 0, 0, 0, 0xFF, Alarm_Burglar, 0x07] : List Nat).length) ∧
      (3 ≤ (sampleAlarm 3 []).version →
        ∃ t, ([0x05, 0, 0, 0, 0xFF, Alarm_Burglar, 0x07] : List Nat)[5]? = some t ∧
          t < Alarm_Count)) ∧
    ∃ a', HandleMsg (sampleAlarm 3 []) [0x05, 0, 0, 0, 0xFF, Alarm_Burglar, 0x07] 1
        = .ok (true, a') ∧
      (∀ inst index, (GetValue a' inst index).map (fun v => v.label)
        = (GetValue (sampleAlarm 3 []) inst index).map (fun v => v.label)) ∧
      a'.sendQueue = (sampleAlarm 3 []).sendQueue ∧
      a'.staticRequest = (sampleAlarm 3 []).staticRequest ∧
      ((∀ inst index, GetValue (sampleAlarm 3 []) inst index = none) →
        a' = sampleAlarm 3 []) :=
  ⟨⟨rfl, by decide, fun _ => by decide, fun _ => ⟨Alarm_Burglar, rfl, by decide⟩⟩,
    HandleMsg_report_creates_no_slot (sampleAlarm 3 []) [0x05, 0, 0, 0, 0xFF, Alarm_Burglar, 0x07]
      1 rfl (by decide) (fun _ => by decide) (fun _ => ⟨Alarm_Burglar, rfl, by decide⟩)⟩

/-- A report on a store without slots, evaluated for the versions 1, 2 and 3:
the state is the one before. -/
theorem HandleMsg_report_on_empty_store :
    HandleMsg (sampleAlarm 1 []) [0x05, 0x02, 0x50] 1 = .ok (true, sampleAlarm 1 []) ∧
    HandleMsg (sampleAlarm 2 []) [0x05, 1, 2, 3, 0xFF, 4, 5] 1 = .ok (true, sampleAlarm 2 []) ∧
    HandleMsg (sampleAlarm 3 []) [0x05, 0, 0, 0, 0xFF, Alarm_Burglar, 0x07] 1
      = .ok (true, sampleAlarm 3 []) ∧
    HandleMsg (sampleAlarm 3 []) [0x05, 0, 0, 0, 0xFF, Alarm_Burglar, 0x00] 1
      = .ok (true, sampleAlarm 3 []) :=
  ⟨rfl, rfl, rfl, rfl⟩


/-! ## Handling a supported-types report twice -/

theorem GetValue_foldl_create_isSome (idxs : List Nat) (key : Nat → Nat)
    (lab : Nat → String) (hinj : ∀ i j, key i = key j → i = j) (a : Alarm)
    (inst i : Nat) (hi : i ∈ idxs) (hn : a.node.isSome = true) :
    ∃ w, GetValue (idxs.foldl (fun s i => CreateValueByte s inst (key i) (lab i)) a) inst
      (key i) = some w := by
  cases hold : GetValue a inst (key i) with
  | some w => exact ⟨w, GetValue_foldl_create_of_some idxs key lab a inst inst (key i) w hold⟩
  | none => exact ⟨_, GetValue_foldl_create_new idxs key lab hinj a inst i hi hn hold⟩

theorem foldl_create_of_all_some (idxs : List Nat) (key : Nat → Nat)
    (lab : Nat → String) (a : Alarm) (inst : Nat)
    (h : ∀ i ∈ idxs, ∃ w, GetValue a inst (key i) = some w) :
    idxs.foldl (fun s i => CreateValueByte s inst (key i) (lab i)) a = a := by
  induction idxs with
  | nil => rfl
  | cons i rest ih =>
    simp only [List.foldl_cons]
    obtain ⟨w, hw⟩ := h i (List.mem_cons_self _ _)
    rw [CreateValueByte_of_some a inst (key i) (lab i) w hw]
    exact ih (fun j hj => h j (List.mem_cons_of_mem _ hj))

theorem HandleMsg_supportedReport_no_node (a : Alarm) (inst : Nat) (rest : List Nat)
    (hnode : a.node = none) :
    HandleMsg a (0x08 :: rest) inst = .ok (true, ClearStaticRequest a) := by
  simp [HandleMsg, HandleMsg.supportedReport, readByte_at0, hnode, AlarmCmd_Report,
    AlarmCmd_SupportedReport, bind, Except.bind, pure, Except.pure]

/-- A supported-types frame on a version 2 (or less) device whose store already
has SourceNodeId and a slot for every announced type: only the static request
flag is cleared. -/
theorem HandleMsg_supportedReport_again_le2 (s : Alarm) (inst n : Nat) (mask : List Nat)
    (hlen : n ≤ mask.length) (hnode : s.node.isSome = true) (hv : s.version ≤ 2)
    (h2 : ∃ w, GetValue s inst AlarmIndex_SourceNodeId = some w)
    (hall : ∀ i ∈ (maskBits mask n).filter (fun index => decide (index < Alarm_Count)),
      ∃ w, GetValue s inst (i + 3) = some w) :
    HandleMsg s (0x08 :: n :: mask) inst = .ok (true, ClearStaticRequest s) := by
  obtain ⟨w2, hw2⟩ := h2
  have hc : CreateValueByte s inst AlarmIndex_SourceNodeId "SourceNodeId" = s :=
    CreateValueByte_of_some s _ _ _ w2 hw2
  rw [HandleMsg_supportedReport_eq s inst n mask hnode hlen, hc,
    supportedReport_fold_le2 _ _ _ hv,
    foldl_create_of_all_some _ (fun index => index + 3) _ _ _ hall]

/-- A supported-types frame on a version 3 (or more) device whose store already
has SourceNodeId: the store stays as it is. -/
theorem HandleMsg_supportedReport_again_ge3 (s : Alarm) (inst n : Nat) (mask : List Nat)
    (hlen : n ≤ mask.length) (hnode : s.node.isSome = true) (hv : 3 ≤ s.version)
    (h2 : ∃ w, GetValue s inst AlarmIndex_SourceNodeId = some w) :
    ∃ a2, HandleMsg s (0x08 :: n :: mask) inst = .ok (true, a2) ∧ a2.node = s.node := by
  obtain ⟨w2, hw2⟩ := h2
  have hc : CreateValueByte s inst AlarmIndex_SourceNodeId "SourceNodeId" = s :=
    CreateValueByte_of_some s _ _ _ w2 hw2
  refine ⟨ClearStaticRequest { s with sendQueue := (s.sendQueue ++
      ((maskBits mask n).filter (fun index => decide (index < Alarm_Count))).map
        (HandleMsg.supportedEventGet s inst)) }, ?_, rfl⟩
  rw [HandleMsg_supportedReport_eq s inst n mask hnode hlen, hc,
    supportedReport_fold_ge3 _ _ _ hv]

/-- C19: for every version and state, a supported-types frame
`[0x08, byteCount, bitmask...]` whose bitmask has the `byteCount` bytes is
handled twice in a row without fault, and the second handling leaves the value
store exactly as the first one left it: no further slot, no slot with another
label. -/
theorem HandleMsg_supportedReport_twice (a : Alarm) (_instance byteCount : Nat)
    (mask : List Nat) (hlen : byteCount ≤ mask.length) :
    ∃ a1 a2, HandleMsg a (0x08 :: byteCount :: mask) _instance = .ok (true, a1) ∧
      HandleMsg a1 (0x08 :: byteCount :: mask) _instance = .ok (true, a2) ∧
      a2.node = a1.node ∧
      (∀ inst index, GetValue a2 inst index = GetValue a1 inst index) := by
  have hget : ∀ a1 a2 : Alarm, a2.node = a1.node →
      ∀ inst index, GetValue a2 inst index = GetValue a1 inst index := by
    intro a1 a2 h inst index
    simp only [GetValue, h]
  cases hn : a.node with
  | none =>
    exact ⟨ClearStaticRequest a, ClearStaticRequest (ClearStaticRequest a),
      HandleMsg_supportedReport_no_node a _ _ hn,
      HandleMsg_supportedReport_no_node (ClearStaticRequest a) _ _ hn, rfl, fun _ _ => rfl⟩
  | some vs =>
    have hnode : a.node.isSome = true := by rw [hn]; rfl
    have hnode0 : (CreateValueByte a _instance AlarmIndex_SourceNodeId
        "SourceNodeId").node.isSome = true := by
      simp [CreateValueByte, hn]
    obtain ⟨w2, hw2⟩ := Option.isSome_iff_exists.mp
      (GetValue_Create_isSome a _instance AlarmIndex_SourceNodeId "SourceNodeId" hnode)
    by_cases hv : a.version ≤ 2
    · have h1 := HandleMsg_supportedReport_eq a _instance byteCount mask hnode hlen
      rw [supportedReport_fold_le2 _ _ _ (show (CreateValueByte a _instance
        AlarmIndex_SourceNodeId "SourceNodeId").version ≤ 2 from hv)] at h1
      have hfields := foldl_create_fields
        ((maskBits mask byteCount).filter (fun index => decide (index < Alarm_Count)))
        (fun index => index + 3) (fun index => c_alarmTypeName.getD index "")
        (CreateValueByte a _instance AlarmIndex_SourceNodeId "SourceNodeId") _instance
      refine ⟨_, _, h1, ?_, rfl, fun _ _ => rfl⟩
      apply HandleMsg_supportedReport_again_le2 _ _instance byteCount mask hlen
      · exact hfields.2.2.2.trans hnode0
      · exact le_of_eq_of_le hfields.2.2.1 hv
      · exact ⟨w2, GetValue_foldl_create_of_some _ (fun index => index + 3) _ _ _ _ _ w2 hw2⟩
      · intro i hi
        exact GetValue_foldl_create_isSome _ (fun index => index + 3) _
          (fun i j h => Nat.add_right_cancel h) _ _instance i hi hnode0
    · have hv3 : 3 ≤ a.version := by omega
      have h1 := HandleMsg_supportedReport_eq a _instance byteCount mask hnode hlen
      rw [supportedReport_fold_ge3 _ _ _ (show 3 ≤ (CreateValueByte a _instance
        AlarmIndex_SourceNodeId "SourceNodeId").version from hv3)] at h1
      obtain ⟨a2, ha2, hnode2⟩ := HandleMsg_supportedReport_again_ge3
        (ClearStaticRequest { CreateValueByte a _instance AlarmIndex_SourceNodeId
            "SourceNodeId" with
          sendQueue := ((CreateValueByte a _instance AlarmIndex_SourceNodeId
            "SourceNodeId").sendQueue ++
            ((maskBits mask byteCount).filter (fun index => decide (index < Alarm_Count))).map
              (HandleMsg.supportedEventGet (CreateValueByte a _instance
                AlarmIndex_SourceNodeId "SourceNodeId") _instance)) })
        _instance byteCount mask hlen hnode0 hv3 ⟨w2, hw2⟩
      exact ⟨_, a2, h1, ha2, hnode2, hget _ _ hnode2⟩

theorem HandleMsg_supportedReport_twice_witness :
    (1 ≤ [0b00000011].length) ∧
    ∃ a1 a2, HandleMsg (sampleAlarm 2 []) (0x08 :: 1 :: [0b00000011]) 1 = .ok (true, a1) ∧
      HandleMsg a1 (0x08 :: 1 :: [0b00000011]) 1 = .ok (true, a2) ∧
      a2.node = a1.node ∧
      (∀ inst index, GetValue a2 inst index = GetValue a1 inst index) :=
  ⟨by decide, HandleMsg_supportedReport_twice (sampleAlarm 2 []) 1 1 [0b00000011] (by decide)⟩

/-- The same supported-types report handled twice, evaluated on version 2 and on
version 3: the store after the second handling is the store after the first. -/
theorem HandleMsg_supportedReport_twice_example :
    ((HandleMsg (sampleAlarm 2 []) [0x08, 1, 0b00000011] 1).bind
        (fun r => HandleMsg r.2 [0x08, 1, 0b00000011] 1)).map (fun r => r.2.node) =
      (HandleMsg (sampleAlarm 2 []) [0x08, 1, 0b00000011] 1).map (fun r => r.2.node) ∧
    ((HandleMsg (sampleAlarm 3 []) [0x08, 1, 0b00000011] 1).bind
        (fun r => HandleMsg r.2 [0x08, 1, 0b00000011] 1)).map (fun r => r.2.node) =
      .ok (some [ ((1, 2), { value := 0, label := "SourceNodeId" }) ]) :=
  ⟨rfl, rfl⟩


/-! ## Slots are never removed -/

theorem SlotsKept_refl (a : Alarm) : SlotsKept a a :=
  fun _ _ w h => ⟨w, h, rfl⟩

theorem SlotsKept_trans {a b c : Alarm} (h1 : SlotsKept a b) (h2 : SlotsKept b c) :
    SlotsKept a c := by
  intro inst index w h
  obtain ⟨w1, hw1, hl1⟩ := h1 inst index w h
  obtain ⟨w2, hw2, hl2⟩ := h2 inst index w1 hw1
  exact ⟨w2, hw2, hl2.trans hl1⟩

theorem SlotsKept_of_node_eq {a b : Alarm} (h : b.node = a.node) : SlotsKept a b := by
  intro inst index w hw
  refine ⟨w, ?_, rfl⟩
  simp only [GetValue, h] at hw ⊢
  exact hw

theorem SlotsKept_refresh (a : Alarm) (inst index b : Nat) :
    SlotsKept a (OnValueRefreshed a inst index b) := by
  intro inst' index' w hw
  rw [GetValue_OnValueRefreshed, hw]
  split
  · exact ⟨_, rfl, rfl⟩
  · exact ⟨w, rfl, rfl⟩

theorem SlotsKept_create (a : Alarm) (inst index : Nat) (l : String) :
    SlotsKept a (CreateValueByte a inst index l) :=
  fun inst' index' w hw => ⟨w, GetValue_Create_of_some a inst index l inst' index' w hw, rfl⟩

theorem KeepsSlots_pure {γ : Type} (π : γ → Alarm) (a : Alarm) (r : γ)
    (h : SlotsKept a (π r)) : KeepsSlots π a (pure r) := by
  intro r' hr
  have : r = r' := Except.ok.inj hr
  rw [← this]
  exact h

theorem KeepsSlots_bind_val {β γ : Type} (π : γ → Alarm) (a : Alarm) (x : Except Fault β)
    (f : β → Except Fault γ) (h : ∀ v, KeepsSlots π a (f v)) : KeepsSlots π a (x >>= f) := by
  intro r hr
  cases x with
  | error e => cases hr
  | ok v => exact h v r hr

theorem KeepsSlots_bind_state {γ : Type} (π : γ → Alarm) (a : Alarm) (x : Except Fault Alarm)
    (f : Alarm → Except Fault γ) (hx : KeepsSlots id a x) (hf : ∀ s, KeepsSlots π s (f s)) :
    KeepsSlots π a (x >>= f) := by
  intro r hr
  cases x with
  | error e => cases hr
  | ok s => exact SlotsKept_trans (hx s rfl) (hf s r hr)

theorem KeepsSlots_ite {γ : Type} (π : γ → Alarm) (a : Alarm) (c : Prop) [Decidable c]
    (x y : Except Fault γ) (hx : KeepsSlots π a x) (hy : KeepsSlots π a y) :
    KeepsSlots π a (if c then x else y) := by
  split
  · exact hx
  · exact hy

theorem KeepsSlots_foldlM {β : Type} (f : Alarm → β → Except Fault Alarm) (l : List β)
    (hf : ∀ s i, KeepsSlots id s (f s i)) (a : Alarm) : KeepsSlots id a (l.foldlM f a) := by
  induction l generalizing a with
  | nil => exact KeepsSlots_pure id a a (SlotsKept_refl a)
  | cons i rest ih =>
    rw [List.foldlM_cons]
    exact KeepsSlots_bind_state id a _ _ (hf a i) ih

theorem KeepsSlots_refreshValue (a : Alarm) (inst index : Nat) (byte : Except Fault Nat) :
    KeepsSlots id a (RefreshValue a inst index byte) := by
  unfold RefreshValue
  split
  · exact KeepsSlots_pure id a a (SlotsKept_refl a)
  · exact KeepsSlots_bind_val id a _ _
      (fun b => KeepsSlots_pure id a _ (SlotsKept_refresh a inst index b))

theorem KeepsSlots_reportV2 (a : Alarm) (_data : List Nat) (inst : Nat) :
    KeepsSlots id a (HandleMsg.reportV2 a _data inst) := by
  unfold HandleMsg.reportV2
  apply KeepsSlots_ite
  · apply KeepsSlots_bind_state _ _ _ _ (KeepsSlots_refreshValue _ _ _ _)
    intro s
    apply KeepsSlots_bind_val
    intro d5
    exact KeepsSlots_refreshValue _ _ _ _
  · exact KeepsSlots_pure id a a (SlotsKept_refl a)

theorem KeepsSlots_clearEvents (a : Alarm) (inst t : Nat) :
    KeepsSlots id a (HandleMsg.clearEvents a inst t) := by
  unfold HandleMsg.clearEvents
  apply KeepsSlots_bind_val
  intro count
  apply KeepsSlots_foldlM
  intro s i
  apply KeepsSlots_bind_val
  intro index
  exact KeepsSlots_refreshValue _ _ _ _

theorem KeepsSlots_reportV3 (a : Alarm) (_data : List Nat) (inst : Nat) :
    KeepsSlots id a (HandleMsg.reportV3 a _data inst) := by
  unfold HandleMsg.reportV3
  apply KeepsSlots_ite
  · apply KeepsSlots_bind_val
    intro status
    apply KeepsSlots_bind_val
    intro t
    apply KeepsSlots_bind_val
    intro e
    apply KeepsSlots_bind_state _ _ _ _ (KeepsSlots_refreshValue _ _ _ _)
    intro s
    apply KeepsSlots_ite
    · exact KeepsSlots_clearEvents _ _ _
    · apply KeepsSlots_bind_val
      intro index
      exact KeepsSlots_refreshValue _ _ _ _
  · exact KeepsSlots_pure id a a (SlotsKept_refl a)

theorem KeepsSlots_report (a : Alarm) (_data : List Nat) (inst : Nat) :
    KeepsSlots (fun r : Bool × Alarm => r.2) a (HandleMsg.report a _data inst) := by
  unfold HandleMsg.report
  apply KeepsSlots_bind_state _ _ _ _ (KeepsSlots_refreshValue _ _ _ _)
  intro s1
  apply KeepsSlots_bind_state
  · apply KeepsSlots_ite
    · exact KeepsSlots_refreshValue _ _ _ _
    · exact KeepsSlots_pure id s1 s1 (SlotsKept_refl s1)
  · intro s2
    apply KeepsSlots_bind_state _ _ _ _ (KeepsSlots_reportV2 _ _ _)
    intro s3
    apply KeepsSlots_bind_state _ _ _ _ (KeepsSlots_reportV3 _ _ _)
    intro s4
    exact KeepsSlots_pure _ s4 (true, s4) (SlotsKept_refl s4)


theorem KeepsSlots_supportedBit (_data : List Nat) (inst i : Nat) (a : Alarm) (bit : Nat) :
    KeepsSlots id a (HandleMsg.supportedBit _data inst i a bit) := by
  unfold HandleMsg.supportedBit
  apply KeepsSlots_bind_val
  intro b
  apply KeepsSlots_ite
  · apply KeepsSlots_ite
    · apply KeepsSlots_ite
      · apply KeepsSlots_bind_val
        intro name
        exact KeepsSlots_pure id a _ (SlotsKept_create a _ _ _)
      · apply KeepsSlots_ite
        · exact KeepsSlots_pure id a _ (SlotsKept_of_node_eq rfl)
        · exact KeepsSlots_pure id a a (SlotsKept_refl a)
    · exact KeepsSlots_pure id a a (SlotsKept_refl a)
  · exact KeepsSlots_pure id a a (SlotsKept_refl a)

theorem KeepsSlots_supportedReport (a : Alarm) (_data : List Nat) (inst : Nat) :
    KeepsSlots (fun r : Bool × Alarm => r.2) a (HandleMsg.supportedReport a _data inst) := by
  unfold HandleMsg.supportedReport
  apply KeepsSlots_bind_state
  · split
    · exact KeepsSlots_pure id a a (SlotsKept_refl a)
    · intro r hr
      refine SlotsKept_trans (SlotsKept_create a inst AlarmIndex_SourceNodeId
        "SourceNodeId") ?_
      revert r hr
      apply KeepsSlots_bind_val
      intro numBytes
      apply KeepsSlots_foldlM
      intro s i
      apply KeepsSlots_foldlM
      intro s bit
      exact KeepsSlots_supportedBit _ _ _ _ _
  · intro s
    exact KeepsSlots_pure _ s (true, ClearStaticRequest s) (SlotsKept_of_node_eq rfl)

theorem KeepsSlots_supportedEventBit (_data : List Nat) (inst i : Nat) (a : Alarm) (bit : Nat) :
    KeepsSlots id a (HandleMsg.supportedEventBit _data inst i a bit) := by
  unfold HandleMsg.supportedEventBit
  apply KeepsSlots_bind_val
  intro b
  apply KeepsSlots_ite
  · apply KeepsSlots_bind_val
    intro d1
    apply KeepsSlots_bind_val
    intro slot
    split
    · intro r hr
      cases hr
    · exact KeepsSlots_pure id a _ (SlotsKept_create a _ _ _)
  · exact KeepsSlots_pure id a a (SlotsKept_refl a)

theorem KeepsSlots_supportedEventReport (a : Alarm) (_data : List Nat) (inst : Nat) :
    KeepsSlots (fun r : Bool × Alarm => r.2) a
      (HandleMsg.supportedEventReport a _data inst) := by
  unfold HandleMsg.supportedEventReport
  apply KeepsSlots_bind_state
  · split
    · exact KeepsSlots_pure id a a (SlotsKept_refl a)
    · apply KeepsSlots_bind_val
      intro d2
      apply KeepsSlots_bind_val
      intro d1
      apply KeepsSlots_bind_val
      intro _
      apply KeepsSlots_foldlM
      intro s i
      apply KeepsSlots_foldlM
      intro s bit
      exact KeepsSlots_supportedEventBit _ _ _ _ _
  · intro s
    exact KeepsSlots_pure _ s (true, s) (SlotsKept_refl s)

theorem KeepsSlots_HandleMsg (a : Alarm) (_data : List Nat) (inst : Nat) :
    KeepsSlots (fun r : Bool × Alarm => r.2) a (HandleMsg a _data inst) := by
  unfold OpenZWave.HandleMsg
  apply KeepsSlots_bind_val
  intro d0
  apply KeepsSlots_ite
  · exact KeepsSlots_report a _data inst
  · apply KeepsSlots_ite
    · exact KeepsSlots_supportedReport a _data inst
    · apply KeepsSlots_ite
      · exact KeepsSlots_supportedEventReport a _data inst
      · exact KeepsSlots_pure _ a (false, a) (SlotsKept_refl a)

theorem RequestValue_node (a : Alarm) (f d inst q : Nat) :
    (RequestValue a f d inst q).2.node = a.node := by
  by_cases hget : a.getSupported = true
  · by_cases hv : a.version = 1
    · simp only [RequestValue, if_pos hget, if_pos hv, SendMsg]
    · rw [RequestValue_eq a f d inst q hget hv]
  · simp [RequestValue, hget]

theorem RequestState_node (a : Alarm) (f inst q : Nat) :
    (RequestState a f inst q).2.node = a.node := by
  unfold RequestState
  split
  · rfl
  · split
    · exact RequestValue_node a f 0 inst q
    · rfl

theorem SlotsKept_createVars (a : Alarm) (inst : Nat) : SlotsKept a (CreateVars a inst) := by
  cases hn : a.node with
  | none =>
    have : CreateVars a inst = a := by simp only [CreateVars, hn]
    rw [this]
    exact SlotsKept_refl a
  | some vs =>
    rw [CreateVars_eq a inst (by rw [hn]; rfl)]
    exact SlotsKept_trans (SlotsKept_create a _ _ _) (SlotsKept_create _ _ _ _)

theorem KeepsSlots_call (a : Alarm) (c : Call) : KeepsSlots id a (Call.run a c) := by
  cases c with
  | handleMsg _data inst =>
    intro r hr
    simp only [Call.run] at hr
    cases h : OpenZWave.HandleMsg a _data inst with
    | error e => rw [h] at hr; cases hr
    | ok p =>
      rw [h] at hr
      have hp : p.2 = r := Except.ok.inj hr
      rw [← hp]
      exact KeepsSlots_HandleMsg a _data inst p h
  | requestState f inst q =>
    exact KeepsSlots_pure id a _ (SlotsKept_of_node_eq (RequestState_node a f inst q))
  | requestValue f d inst q =>
    exact KeepsSlots_pure id a _ (SlotsKept_of_node_eq (RequestValue_node a f d inst q))
  | createVars inst =>
    exact KeepsSlots_pure id a _ (SlotsKept_createVars a inst)


theorem KeepsSlots_runCalls (a : Alarm) (calls : List Call) :
    KeepsSlots id a (runCalls a calls) :=
  KeepsSlots_foldlM Call.run calls KeepsSlots_call a

/-- C20: whatever the version, the state and the inbound frame, when `HandleMsg`
ends without fault every slot that was in the store before is in it afterwards,
with its label; and the same holds from the first state to the last one of any
sequence of `HandleMsg`, `RequestState`, `RequestValue` and `CreateVars` calls
that ends without fault. -/
theorem slots_never_removed (a : Alarm) (_data : List Nat) (_instance : Nat) (r : Bool)
    (a1 : Alarm) (calls : List Call) (a2 : Alarm)
    (h1 : HandleMsg a _data _instance = .ok (r, a1)) (h2 : runCalls a calls = .ok a2) :
    (∀ inst index w, GetValue a inst index = some w →
      ∃ w', GetValue a1 inst index = some w' ∧ w'.label = w.label) ∧
    (∀ inst index w, GetValue a inst index = some w →
      ∃ w', GetValue a2 inst index = some w' ∧ w'.label = w.label) :=
  ⟨KeepsSlots_HandleMsg a _data _instance (r, a1) h1, KeepsSlots_runCalls a calls a2 h2⟩

theorem slots_never_removed_witness :
    (HandleMsg (sampleAlarm 3 sampleStoreV3) [0x02, Alarm_Smoke, 1, 0b00010011] 1 =
      .ok (true, sampleAlarm 3 (sampleStoreV3 ++
        [ ((1, 3), { value := 0, label := "Smoke Alarm Inactive" }),
          ((1, 4), { value := 0, label := "Smoke" }),
          ((1, 7), { value := 0, label := "Smoke Replacement Required" }) ])) ∧
      runCalls (sampleAlarm 3 sampleStoreV3)
        [Call.createVars 1, Call.handleMsg [0x08, 1, 0b10000010] 1,
          Call.requestValue 4 0 1 5] =
      .ok { sampleAlarm 3 (sampleStoreV3 ++
          [ ((1, 2), { value := 0, label := "SourceNodeId" }) ]) with
        staticRequest := false
        sendQueue :=
          [ HandleMsg.supportedEventGet (sampleAlarm 3 sampleStoreV3) 1 1,
            HandleMsg.supportedEventGet (sampleAlarm 3 sampleStoreV3) 1 7 ] }) ∧
    ((∀ inst index w, GetValue (sampleAlarm 3 sampleStoreV3) inst index = some w →
      ∃ w', GetValue (sampleAlarm 3 (sampleStoreV3 ++
        [ ((1, 3), { value := 0, label := "Smoke Alarm Inactive" }),
          ((1, 4), { value := 0, label := "Smoke" }),
          ((1, 7), { value := 0, label := "Smoke Replacement Required" }) ]))
        inst index = some w' ∧ w'.label = w.label) ∧
    (∀ inst index w, GetValue (sampleAlarm 3 sampleStoreV3) inst index = some w →
      ∃ w', GetValue { sampleAlarm 3 (sampleStoreV3 ++
          [ ((1, 2), { value := 0, label := "SourceNodeId" }) ]) with
        staticRequest := false
        sendQueue :=
          [ HandleMsg.supportedEventGet (sampleAlarm 3 sampleStoreV3) 1 1,
            HandleMsg.supportedEventGet (sampleAlarm 3 sampleStoreV3) 1 7 ] }
        inst index = some w' ∧ w'.label = w.label)) :=
  ⟨⟨rfl, rfl⟩,
    slots_never_removed (sampleAlarm 3 sampleStoreV3) [0x02, Alarm_Smoke, 1, 0b00010011] 1 true
      _ [Call.createVars 1, Call.handleMsg [0x08, 1, 0b10000010] 1, Call.requestValue 4 0 1 5]
      _ rfl rfl⟩


/-! ## The static request flag after a supported-types report -/

/-- C21: for every version and state, a supported-types frame
`[0x08, byteCount, bitmask...]` whose bitmask has the `byteCount` bytes is handled
without fault, the result is `true` and the static request flag is cleared
afterwards, whatever the bitmask holds; without a node the same holds for every
frame with first byte 0x08. -/
theorem HandleMsg_supportedReport_clears_static (a : Alarm) (_instance byteCount : Nat)
    (mask : List Nat) (hlen : byteCount ≤ mask.length) :
    (∃ a', HandleMsg a (0x08 :: byteCount :: mask) _instance = .ok (true, a') ∧
      a'.staticRequest = false) ∧
    (a.node = none → ∀ rest, ∃ a', HandleMsg a (0x08 :: rest) _instance = .ok (true, a') ∧
      a'.staticRequest = false) := by
  constructor
  · cases hn : a.node with
    | none => exact ⟨_, HandleMsg_supportedReport_no_node a _ _ hn, rfl⟩
    | some vs =>
      exact ⟨_, HandleMsg_supportedReport_eq a _instance byteCount mask (by rw [hn]; rfl) hlen,
        rfl⟩
  · intro hn rest
    exact ⟨_, HandleMsg_supportedReport_no_node a _ rest hn, rfl⟩

theorem HandleMsg_supportedReport_clears_static_witness :
    (2 ≤ [0b10000010, 0xFF].length) ∧
    ((∃ a', HandleMsg (sampleAlarm 3 []) (0x08 :: 2 :: [0b10000010, 0xFF]) 1 = .ok (true, a') ∧
      a'.staticRequest = false) ∧
    ((sampleAlarm 3 []).node = none →
      ∀ rest, ∃ a', HandleMsg (sampleAlarm 3 []) (0x08 :: rest) 1 = .ok (true, a') ∧
        a'.staticRequest = false)) :=
  ⟨by decide,
    HandleMsg_supportedReport_clears_static (sampleAlarm 3 []) 1 2 [0b10000010, 0xFF]
      (by decide)⟩

/-- The flag before and after, evaluated on the versions 1, 2 and 3. -/
theorem HandleMsg_supportedReport_clears_static_example :
    (sampleAlarm 1 []).staticRequest = true ∧
    (HandleMsg (sampleAlarm 1 []) [0x08, 1, 0b00000011] 1).map
      (fun r => (r.1, r.2.staticRequest)) = .ok (true, false) ∧
    (HandleMsg (sampleAlarm 2 []) [0x08, 1, 0b00000011] 1).map
      (fun r => (r.1, r.2.staticRequest)) = .ok (true, false) ∧
    (HandleMsg (sampleAlarm 3 []) [0x08, 0] 1).map
      (fun r => (r.1, r.2.staticRequest)) = .ok (true, false) :=
  ⟨rfl, rfl, rfl, rfl⟩

/-! ## The clear-all of a version 3 report -/

/-- The state after a clear-all report: the slots of the type's block, the Type
slot and the Level slot apart, nothing changes. -/
theorem HandleMsg_report_clear_frame (a : Alarm) (inst d1 status t : Nat) (inst' index : Nat)
    (h3 : 3 ≤ index)
    (hout : inst' = inst → index < alarmPrefixCount.getD t 0 + 3 ∨
      alarmPrefixCount.getD t 0 + 3 + alarmCounts.getD t 0 ≤ index) :
    GetValue ((List.range (alarmCounts.getD t 0)).foldl
        (fun a i => OnValueRefreshed a inst (alarmPrefixCount.getD t 0 + i + 3) 0)
        (OnValueRefreshed (OnValueRefreshed a inst AlarmIndex_Type d1) inst
          AlarmIndex_Level status)) inst' index = GetValue a inst' index := by
  rw [GetValue_foldl_refresh_miss (List.range (alarmCounts.getD t 0))
    (fun i => alarmPrefixCount.getD t 0 + i + 3) _ inst 0 inst' index (fun hi i hmem => by
      have hlt := List.mem_range.mp hmem
      have := hout hi
      show alarmPrefixCount.getD t 0 + i + 3 ≠ index
      omega)]
  rw [GetValue_OnValueRefreshed, if_neg (fun h => by
      have := (Prod.mk.inj h).2
      simp only [AlarmIndex_Level] at this
      omega),
    GetValue_OnValueRefreshed, if_neg (fun h => by
      have := (Prod.mk.inj h).2
      simp only [AlarmIndex_Type] at this
      omega)]

theorem GetValue_header_refreshed (a : Alarm) (inst d1 status : Nat) :
    GetValue (OnValueRefreshed (OnValueRefreshed a inst AlarmIndex_Type d1) inst
        AlarmIndex_Level status) inst AlarmIndex_Type =
      (GetValue a inst AlarmIndex_Type).map (fun v => { v with value := d1 }) ∧
    GetValue (OnValueRefreshed (OnValueRefreshed a inst AlarmIndex_Type d1) inst
        AlarmIndex_Level status) inst AlarmIndex_Level =
      (GetValue a inst AlarmIndex_Level).map (fun v => { v with value := status }) := by
  constructor <;> simp [GetValue_OnValueRefreshed, AlarmIndex_Type, AlarmIndex_Level]


/-- C22, as stated, fails: the entry of `alarmCounts` for Flood is 6, not 5, and a
version 3 report with event 0x00 for Flood, on a store that holds every Flood
slot, refreshes to 0 the six slots 25..30, the one of event 5 ("Replace Water
Filter", slot 30) included. -/
theorem Flood_count_is_not_five :
    alarmCounts[Alarm_Flood]? = some 6 ∧ alarmCounts[Alarm_Flood]? ≠ some 5 ∧
    slotIndex Alarm_Flood 5 = .ok 30 ∧
    GetValue (sampleAlarm 3 sampleStoreFlood) 1 30
      = some { value := 1, label := "Replace Water Filter" } ∧
    HandleMsg (sampleAlarm 3 sampleStoreFlood) [0x05, 0, 0, 0, 0, Alarm_Flood, 0x00] 1 =
      .ok (true, sampleAlarm 3
        [ ((1, 0), { value := 0, label := "Alarm Type" }),
          ((1, 1), { value := 0, label := "Alarm Level" }),
          ((1, 24), { value := 1, label := "Underheat" }),
          ((1, 25), { value := 0, label := "Flood Alarm Inactive" }),
          ((1, 26), { value := 0, label := "Flood" }),
          ((1, 27), { value := 0, label := "Flood" }),
          ((1, 28), { value := 0, label := "Water Level Dropped" }),
          ((1, 29), { value := 0, label := "Water Level Dropped" }),
          ((1, 30), { value := 0, label := "Replace Water Filter" }),
          ((1, 31), { value := 1, label := "Access Control Inactive" }) ]) :=
  ⟨rfl, by decide, rfl, rfl, rfl⟩

/-- C22, amended: Flood declares 6 events (`alarmCounts[Alarm_Flood] = 6`), so on a
device of version 3 or more a report with event 0x00 for Flood refreshes to 0
exactly the six slots at `slotIndex(Flood, i) = 25 + i`, `i = 0..5` (each if
present), and no other slot of index 3 or more. -/
theorem HandleMsg_report_clear_Flood (a : Alarm) (_instance d1 d2 d3 status : Nat)
    (rest : List Nat) (hv : 3 ≤ a.version) :
    alarmCounts[Alarm_Flood]? = some 6 ∧
    ∃ a', HandleMsg a (0x05 :: d1 :: d2 :: d3 :: status :: Alarm_Flood :: 0x00 :: rest) _instance
        = .ok (true, a') ∧
      (∀ i, i < 6 → slotIndex Alarm_Flood i = .ok (25 + i) ∧
        GetValue a' _instance (25 + i) =
          (GetValue a _instance (25 + i)).map (fun v => { v with value := 0 })) ∧
      (∀ inst index, 3 ≤ index → (inst = _instance → index < 25 ∨ 31 ≤ index) →
        GetValue a' inst index = GetValue a inst index) := by
  have ht : Alarm_Flood < Alarm_Count := by decide
  have hoff : alarmPrefixCount.getD Alarm_Flood 0 = 22 := rfl
  have hcnt : alarmCounts.getD Alarm_Flood 0 = 6 := rfl
  refine ⟨rfl, (List.range (alarmCounts.getD Alarm_Flood 0)).foldl
      (fun a i => OnValueRefreshed a _instance (alarmPrefixCount.getD Alarm_Flood 0 + i + 3) 0)
      (OnValueRefreshed (OnValueRefreshed a _instance AlarmIndex_Type d1) _instance
        AlarmIndex_Level status), ?_, ?_, ?_⟩
  · rw [HandleMsg_report_version3 a _instance d1 d2 d3 status Alarm_Flood 0x00 rest hv ht,
      if_pos (Or.inl rfl)]
  · intro i hi
    refine ⟨by rw [slotIndex_of_lt Alarm_Flood i ht, hoff, show 22 + i + 3 = 25 + i by omega],
      ?_⟩
    rw [GetValue_foldl_refresh_hit (List.range (alarmCounts.getD Alarm_Flood 0))
      (fun i => alarmPrefixCount.getD Alarm_Flood 0 + i + 3) _ _instance 0 (25 + i)
      ⟨i, List.mem_range.mpr (by rw [hcnt]; exact hi), by
        show alarmPrefixCount.getD Alarm_Flood 0 + i + 3 = 25 + i
        rw [hoff]; omega⟩]
    rw [GetValue_OnValueRefreshed, if_neg (fun h => by
        have := (Prod.mk.inj h).2
        simp only [AlarmIndex_Level] at this
        omega),
      GetValue_OnValueRefreshed, if_neg (fun h => by
        have := (Prod.mk.inj h).2
        simp only [AlarmIndex_Type] at this
        omega)]
  · intro inst index h3 hout
    exact HandleMsg_report_clear_frame a _instance d1 status Alarm_Flood inst index h3
      (fun hi => by rw [hoff, hcnt]; have := hout hi; omega)

theorem HandleMsg_report_clear_Flood_witness :
    (3 ≤ (sampleAlarm 3 sampleStoreFlood).version) ∧
    (alarmCounts[Alarm_Flood]? = some 6 ∧
    ∃ a', HandleMsg (sampleAlarm 3 sampleStoreFlood)
        (0x05 :: 0 :: 0 :: 0 :: 0 :: Alarm_Flood :: 0x00 :: []) 1 = .ok (true, a') ∧
      (∀ i, i < 6 → slotIndex Alarm_Flood i = .ok (25 + i) ∧
        GetValue a' 1 (25 + i) =
          (GetValue (sampleAlarm 3 sampleStoreFlood) 1 (25 + i)).map
            (fun v => { v with value := 0 })) ∧
      (∀ inst index, 3 ≤ index → (inst = 1 → index < 25 ∨ 31 ≤ index) →
        GetValue a' inst index = GetValue (sampleAlarm 3 sampleStoreFlood) inst index)) :=
  ⟨by decide, HandleMsg_report_clear_Flood (sampleAlarm 3 sampleStoreFlood) 1 0 0 0 0 []
    (by decide)⟩

/-- C23, as stated, fails: a version 3 report with event 0x00 for Flood also
refreshes the Type slot (index 0, with byte 1) and the Level slot (index 1, with
the status byte), two slots outside the block 25..30 of Flood. -/
theorem HandleMsg_report_clear_all_refreshes_header :
    slotIndex Alarm_Flood 0 = .ok 25 ∧ alarmCounts[Alarm_Flood]? = some 6 ∧
    GetValue (sampleAlarm 3 sampleStoreFlood) 1 0
      = some { value := 0, label := "Alarm Type" } ∧
    GetValue (sampleAlarm 3 sampleStoreFlood) 1 1
      = some { value := 0, label := "Alarm Level" } ∧
    (HandleMsg (sampleAlarm 3 sampleStoreFlood) [0x05, 7, 0, 0, 0xFF, Alarm_Flood, 0x00] 1).map
        (fun r => (r.1, GetValue r.2 1 0, GetValue r.2 1 1)) =
      .ok (true, some { value := 7, label := "Alarm Type" },
        some { value := 0xFF, label := "Alarm Level" }) :=
  ⟨rfl, rfl, rfl, rfl, rfl⟩

/-- C23, amended: on a device of version 3 or more, for a notification type `t`
of the table, a report with event 0x00 is handled without fault and with result
`true`, and every slot of index 3 or more outside the block
`[alarmPrefixCount[t]+3, alarmPrefixCount[t]+3+alarmCounts[t])` of `t` keeps its
value and label; of the header slots, Type takes byte 1 and Level the status
byte. -/
theorem HandleMsg_report_clear_all_frame (a : Alarm) (_instance d1 d2 d3 status t : Nat)
    (rest : List Nat) (hv : 3 ≤ a.version) (ht : t < Alarm_Count) :
    ∃ a' offset count, alarmPrefixCount[t]? = some offset ∧ alarmCounts[t]? = some count ∧
      slotIndex t 0 = .ok (offset + 3) ∧
      HandleMsg a (0x05 :: d1 :: d2 :: d3 :: status :: t :: 0x00 :: rest) _instance
        = .ok (true, a') ∧
      (∀ inst index, 3 ≤ index →
        (inst = _instance → index < offset + 3 ∨ offset + 3 + count ≤ index) →
        GetValue a' inst index = GetValue a inst index) ∧
      GetValue a' _instance AlarmIndex_Type =
        (GetValue a _instance AlarmIndex_Type).map (fun v => { v with value := d1 }) ∧
      GetValue a' _instance AlarmIndex_Level =
        (GetValue a _instance AlarmIndex_Level).map (fun v => { v with value := status }) := by
  refine ⟨(List.range (alarmCounts.getD t 0)).foldl
      (fun a i => OnValueRefreshed a _instance (alarmPrefixCount.getD t 0 + i + 3) 0)
      (OnValueRefreshed (OnValueRefreshed a _instance AlarmIndex_Type d1) _instance
        AlarmIndex_Level status),
    alarmPrefixCount.getD t 0, alarmCounts.getD t 0, alarmPrefixCount_get t ht,
    alarmCounts_get t ht, slotIndex_of_lt t 0 ht, ?_, ?_, ?_, ?_⟩
  · rw [HandleMsg_report_version3 a _instance d1 d2 d3 status t 0x00 rest hv ht,
      if_pos (Or.inl rfl)]
  · intro inst index h3 hout
    exact HandleMsg_report_clear_frame a _instance d1 status t inst index h3 hout
  · rw [GetValue_foldl_refresh_miss (List.range (alarmCounts.getD t 0))
      (fun i => alarmPrefixCount.getD t 0 + i + 3) _ _instance 0 _instance AlarmIndex_Type
      (fun _ i _ => by
        show alarmPrefixCount.getD t 0 + i + 3 ≠ AlarmIndex_Type
        simp only [AlarmIndex_Type]; omega)]
    exact (GetValue_header_refreshed a _instance d1 status).1
  · rw [GetValue_foldl_refresh_miss (List.range (alarmCounts.getD t 0))
      (fun i => alarmPrefixCount.getD t 0 + i + 3) _ _instance 0 _instance AlarmIndex_Level
      (fun _ i _ => by
        show alarmPrefixCount.getD t 0 + i + 3 ≠ AlarmIndex_Level
        simp only [AlarmIndex_Level]; omega)]
    exact (GetValue_header_refreshed a _instance d1 status).2

theorem HandleMsg_report_clear_all_frame_witness :
    (3 ≤ (sampleAlarm 3 sampleStoreFlood).version ∧ Alarm_Flood < Alarm_Count) ∧
    ∃ a' offset count, alarmPrefixCount[Alarm_Flood]? = some offset ∧
      alarmCounts[Alarm_Flood]? = some count ∧
      slotIndex Alarm_Flood 0 = .ok (offset + 3) ∧
      HandleMsg (sampleAlarm 3 sampleStoreFlood)
          (0x05 :: 7 :: 0 :: 0 :: 0xFF :: Alarm_Flood :: 0x00 :: []) 1
        = .ok (true, a') ∧
      (∀ inst index, 3 ≤ index →
        (inst = 1 → index < offset + 3 ∨ offset + 3 + count ≤ index) →
        GetValue a' inst index = GetValue (sampleAlarm 3 sampleStoreFlood) inst index) ∧
      GetValue a' 1 AlarmIndex_Type =
        (GetValue (sampleAlarm 3 sampleStoreFlood) 1 AlarmIndex_Type).map
          (fun v => { v with value := 7 }) ∧
      GetValue a' 1 AlarmIndex_Level =
        (GetValue (sampleAlarm 3 sampleStoreFlood) 1 AlarmIndex_Level).map
          (fun v => { v with value := 0xFF }) :=
  ⟨⟨by decide, by decide⟩,
    HandleMsg_report_clear_all_frame (sampleAlarm 3 sampleStoreFlood) 1 7 0 0 0xFF Alarm_Flood []
      (by decide) (by decide)⟩


/-! ## The layout of a version 3 report -/

/-- C25, as stated, fails: with the bytes placed as in the claim,
`[kind, type, level, status, notifType, event, ...] = [5, 0, 0, 9, 7, 7, 8]`
(status 9 at offset 3, Burglar at offset 4, event 7 at offset 5), the Level slot
does not take 9 and the slot 115 of (Burglar, 7) is not refreshed: Level takes the
byte at offset 4 and the slot addressed is that of the bytes at offsets 5 and 6,
(Burglar, 8), slot 116. -/
theorem HandleMsg_report_version3_claimed_layout_fails :
    slotIndex Alarm_Burglar 7 = .ok 115 ∧
    GetValue (sampleAlarm 3 sampleStoreV3) 1 115 = some { value := 0, label := "Motion" } ∧
    HandleMsg (sampleAlarm 3 sampleStoreV3) [0x05, 0, 0, 9, 7, 7, 8] 1 =
      .ok (true, sampleAlarm 3
        [ ((1, 0), { value := 0, label := "Alarm Type" }),
          ((1, 1), { value := 7, label := "Alarm Level" }),
          ((1, 114), { value := 1, label := "Glass Breakage" }),
          ((1, 115), { value := 0, label := "Motion" }),
          ((1, 116), { value := 1, label := "Motion" }) ]) ∧
    (HandleMsg (sampleAlarm 3 sampleStoreV3) [0x05, 0, 0, 9, 7, 7, 8] 1).map
        (fun r => (GetValue r.2 1 AlarmIndex_Level).map (fun v => v.value)) ≠ .ok (some 9) ∧
    (HandleMsg (sampleAlarm 3 sampleStoreV3) [0x05, 0, 0, 9, 7, 7, 8] 1).map
        (fun r => (GetValue r.2 1 115).map (fun v => v.value)) ≠ .ok (some 1) :=
  ⟨rfl, rfl, rfl,
    fun h => by
      have h' : (Except.ok (some 7) : Except Fault (Option Nat)) = .ok (some 9) := h
      exact absurd (Option.some.inj (Except.ok.inj h')) (by decide),
    fun h => by
      have h' : (Except.ok (some 0) : Except Fault (Option Nat)) = .ok (some 1) := h
      exact absurd (Option.some.inj (Except.ok.inj h')) (by decide)⟩

/-- C25, amended: on a device of version 3 or more, a report frame
`[kind, type, level, source, status, notifType, event, ...]` with a notification
type of the table is handled without fault and with result `true`. The Level
slot is refreshed with the status byte at payload offset 4, and holds it
afterwards unless the slot that an activation addresses is the Level slot itself.
The type and the event that address the type-specific slot are the bytes at the
offsets 5 and 6: an activation gives the value 1 to the slot at the 8-bit index
`uint8 (alarmPrefixCount[notifType]+event+3)`, which is
`alarmPrefixCount[notifType]+event+3` itself, and not the Level slot, whenever
that is below 256. The bytes at the offsets 2 and 3 have no influence on the
result. -/
theorem HandleMsg_report_version3_layout (a : Alarm)
    (_instance d1 d2 d3 status t e offset : Nat) (rest : List Nat) (hv : 3 ≤ a.version)
    (ht : t < Alarm_Count) (hp : alarmPrefixCount[t]? = some offset) :
    ∃ a', HandleMsg a (0x05 :: d1 :: d2 :: d3 :: status :: t :: e :: rest) _instance
        = .ok (true, a') ∧
      ((e = 0x00 ∨ e = 0xFE ∨ uint8 (offset + e + 3) ≠ AlarmIndex_Level) →
        GetValue a' _instance AlarmIndex_Level =
          (GetValue a _instance AlarmIndex_Level).map (fun v => { v with value := status })) ∧
      (e ≠ 0x00 → e ≠ 0xFE →
        GetValue a' _instance (uint8 (offset + e + 3)) =
          (GetValue a _instance (uint8 (offset + e + 3))).map (fun v => { v with value := 1 })) ∧
      (offset + e + 3 < 256 →
        uint8 (offset + e + 3) = offset + e + 3 ∧ uint8 (offset + e + 3) ≠ AlarmIndex_Level) ∧
      (∀ d2' d3', HandleMsg a (0x05 :: d1 :: d2' :: d3' :: status :: t :: e :: rest) _instance
        = .ok (true, a')) := by
  have hoff := alarmPrefixCount_getD_of_get t offset ht hp
  have hsmall : offset + e + 3 < 256 →
      uint8 (offset + e + 3) = offset + e + 3 ∧ uint8 (offset + e + 3) ≠ AlarmIndex_Level := by
    intro h
    rw [uint8_of_lt _ h]
    refine ⟨rfl, ?_⟩
    simp only [AlarmIndex_Level]
    omega
  by_cases he : e = 0x00 ∨ e = 0xFE
  · refine ⟨(List.range (alarmCounts.getD t 0)).foldl
        (fun a i => OnValueRefreshed a _instance (alarmPrefixCount.getD t 0 + i + 3) 0)
        (OnValueRefreshed (OnValueRefreshed a _instance AlarmIndex_Type d1) _instance
          AlarmIndex_Level status), ?_, ?_, ?_, hsmall, ?_⟩
    · rw [HandleMsg_report_version3 a _instance d1 d2 d3 status t e rest hv ht, if_pos he]
    · intro _
      rw [GetValue_foldl_refresh_miss (List.range (alarmCounts.getD t 0))
        (fun i => alarmPrefixCount.getD t 0 + i + 3) _ _instance 0 _instance AlarmIndex_Level
        (fun _ i _ => by
          show alarmPrefixCount.getD t 0 + i + 3 ≠ AlarmIndex_Level
          simp only [AlarmIndex_Level]; omega)]
      exact (GetValue_header_refreshed a _instance d1 status).2
    · intro h0 hFE
      exact absurd he (fun h => h.elim h0 hFE)
    · intro d2' d3'
      rw [HandleMsg_report_version3 a _instance d1 d2' d3' status t e rest hv ht, if_pos he]
  · refine ⟨OnValueRefreshed (OnValueRefreshed (OnValueRefreshed a _instance AlarmIndex_Type d1)
        _instance AlarmIndex_Level status) _instance (uint8 (offset + e + 3)) 1,
        ?_, ?_, ?_, hsmall, ?_⟩
    · rw [HandleMsg_report_version3 a _instance d1 d2 d3 status t e rest hv ht, if_neg he, hoff]
    · intro hgood
      have hk : uint8 (offset + e + 3) ≠ AlarmIndex_Level := by
        rcases hgood with h | h | h
        · exact absurd (Or.inl h) he
        · exact absurd (Or.inr h) he
        · exact h
      rw [GetValue_OnValueRefreshed, if_neg (fun heq => hk (Prod.mk.inj heq).2.symm)]
      exact (GetValue_header_refreshed a _instance d1 status).2
    · intro _ _
      exact GetValue_activation a _instance d1 status _
    · intro d2' d3'
      rw [HandleMsg_report_version3 a _instance d1 d2' d3' status t e rest hv ht, if_neg he, hoff]

theorem HandleMsg_report_version3_layout_witness :
    (3 ≤ (sampleAlarm 3 sampleStoreV3).version ∧ Alarm_Burglar < Alarm_Count ∧
      alarmPrefixCount[Alarm_Burglar]? = some 105) ∧
    ∃ a', HandleMsg (sampleAlarm 3 sampleStoreV3)
          (0x05 :: 0 :: 0 :: 9 :: 0xFF :: Alarm_Burglar :: 7 :: []) 1
        = .ok (true, a') ∧
      ((7 = 0x00 ∨ 7 = 0xFE ∨ uint8 (105 + 7 + 3) ≠ AlarmIndex_Level) →
        GetValue a' 1 AlarmIndex_Level =
          (GetValue (sampleAlarm 3 sampleStoreV3) 1 AlarmIndex_Level).map
            (fun v => { v with value := 0xFF })) ∧
      (7 ≠ 0x00 → 7 ≠ 0xFE →
        GetValue a' 1 (uint8 (105 + 7 + 3)) =
          (GetValue (sampleAlarm 3 sampleStoreV3) 1 (uint8 (105 + 7 + 3))).map
            (fun v => { v with value := 1 })) ∧
      (105 + 7 + 3 < 256 →
        uint8 (105 + 7 + 3) = 105 + 7 + 3 ∧ uint8 (105 + 7 + 3) ≠ AlarmIndex_Level) ∧
      (∀ d2' d3', HandleMsg (sampleAlarm 3 sampleStoreV3)
          (0x05 :: 0 :: d2' :: d3' :: 0xFF :: Alarm_Burglar :: 7 :: []) 1
        = .ok (true, a')) :=
  ⟨⟨by decide, by decide, rfl⟩,
    HandleMsg_report_version3_layout (sampleAlarm 3 sampleStoreV3) 1 0 0 9 0xFF Alarm_Burglar 7
      105 [] (by decide) (by decide) rfl⟩

/-- The layout, evaluated on the sample store: the frame with status 0xFF at
offset 4, Burglar at offset 5 and event 7 at offset 6 gives Level the value 0xFF
and the slot 115 of (Burglar, 7) the value 1, whatever the bytes at the offsets 2
and 3. -/
theorem HandleMsg_report_version3_layout_example :
    HandleMsg (sampleAlarm 3 sampleStoreV3) [0x05, 0, 0, 9, 0xFF, Alarm_Burglar, 7] 1 =
      .ok (true, sampleAlarm 3
        [ ((1, 0), { value := 0, label := "Alarm Type" }),
          ((1, 1), { value := 0xFF, label := "Alarm Level" }),
          ((1, 114), { value := 1, label := "Glass Breakage" }),
          ((1, 115), { value := 1, label := "Motion" }),
          ((1, 116), { value := 1, label := "Motion" }) ]) ∧
    HandleMsg (sampleAlarm 3 sampleStoreV3) [0x05, 0, 0x33, 0x44, 0xFF, Alarm_Burglar, 7] 1 =
      HandleMsg (sampleAlarm 3 sampleStoreV3) [0x05, 0, 0, 9, 0xFF, Alarm_Burglar, 7] 1 :=
  ⟨rfl, rfl⟩

/-! ## Truncated version 2 reports -/

/-- On a device of version 2, a report frame of three to six bytes: the block of
the extended fields is skipped. -/
theorem HandleMsg_report_eq_version2_short (a : Alarm) (inst d1 d2 : Nat) (rest : List Nat)
    (hv : a.version = 2) (hlen : rest.length < 4) :
    HandleMsg a (0x05 :: d1 :: d2 :: rest) inst =
      .ok (true, OnValueRefreshed (OnValueRefreshed a inst AlarmIndex_Type d1) inst
        AlarmIndex_Level d2) := by
  have h7 : ¬ (rest.length + 1 + 1 + 1 ≥ 7) := by omega
  simp [HandleMsg, HandleMsg.report, HandleMsg.reportV2,
    HandleMsg.reportV3, readByte_at0, readByte_at1, readByte_at2, RefreshValue_ok, hv,
    AlarmCmd_Report, OnValueRefreshed, bind, Except.bind, pure, Except.pure, h7]

/-- C26: on a device of version 2, a report frame `[0x05, d1, d2, ...]` of three
to six bytes is handled without fault and with result `true`; the Type slot, if
present, takes byte 1 and the Level slot, if present, takes byte 2; every other
slot of every instance, the SourceNodeId slot and the slots of index 3 or more
included, keeps its value and label, and nothing is sent. -/
theorem HandleMsg_report_version2_truncated (a : Alarm) (_instance d1 d2 : Nat)
    (rest : List Nat) (hv : a.version = 2) (hlen : (0x05 :: d1 :: d2 :: rest).length ≤ 6) :
    ∃ a', HandleMsg a (0x05 :: d1 :: d2 :: rest) _instance = .ok (true, a') ∧
      GetValue a' _instance AlarmIndex_Type =
        (GetValue a _instance AlarmIndex_Type).map (fun v => { v with value := d1 }) ∧
      GetValue a' _instance AlarmIndex_Level =
        (GetValue a _instance AlarmIndex_Level).map (fun v => { v with value := d2 }) ∧
      GetValue a' _instance AlarmIndex_SourceNodeId = GetValue a _instance AlarmIndex_SourceNodeId ∧
      (∀ inst index, (inst, index) ≠ (_instance, AlarmIndex_Type) →
        (inst, index) ≠ (_instance, AlarmIndex_Level) →
        GetValue a' inst index = GetValue a inst index) ∧
      a'.sendQueue = a.sendQueue ∧ a'.staticRequest = a.staticRequest := by
  have hrest : rest.length < 4 := by
    simp only [List.length_cons] at hlen
    omega
  refine ⟨OnValueRefreshed (OnValueRefreshed a _instance AlarmIndex_Type d1) _instance
    AlarmIndex_Level d2, HandleMsg_report_eq_version2_short a _instance d1 d2 rest hv hrest,
    ?_, ?_, ?_, ?_, rfl, rfl⟩
  · simp [GetValue_OnValueRefreshed, AlarmIndex_Type, AlarmIndex_Level]
  · simp [GetValue_OnValueRefreshed, AlarmIndex_Type, AlarmIndex_Level]
  · simp [GetValue_OnValueRefreshed, AlarmIndex_Type, AlarmIndex_Level, AlarmIndex_SourceNodeId]
  · intro inst index h0 h1
    simp [GetValue_OnValueRefreshed, h0, h1]

theorem HandleMsg_report_version2_truncated_witness :
    ((sampleAlarm 2 sampleStoreV2).version = 2 ∧ (0x05 :: 0x02 :: 0x50 :: []).length ≤ 6) ∧
    ∃ a', HandleMsg (sampleAlarm 2 sampleStoreV2) (0x05 :: 0x02 :: 0x50 :: []) 1
        = .ok (true, a') ∧
      GetValue a' 1 AlarmIndex_Type =
        (GetValue (sampleAlarm 2 sampleStoreV2) 1 AlarmIndex_Type).map
          (fun v => { v with value := 0x02 }) ∧
      GetValue a' 1 AlarmIndex_Level =
        (GetValue (sampleAlarm 2 sampleStoreV2) 1 AlarmIndex_Level).map
          (fun v => { v with value := 0x50 }) ∧
      GetValue a' 1 AlarmIndex_SourceNodeId =
        GetValue (sampleAlarm 2 sampleStoreV2) 1 AlarmIndex_SourceNodeId ∧
      (∀ inst index, (inst, index) ≠ (1, AlarmIndex_Type) →
        (inst, index) ≠ (1, AlarmIndex_Level) →
        GetValue a' inst index = GetValue (sampleAlarm 2 sampleStoreV2) inst index) ∧
      a'.sendQueue = (sampleAlarm 2 sampleStoreV2).sendQueue ∧
      a'.staticRequest = (sampleAlarm 2 sampleStoreV2).staticRequest :=
  ⟨⟨rfl, by decide⟩,
    HandleMsg_report_version2_truncated (sampleAlarm 2 sampleStoreV2) 1 0x02 0x50 [] rfl
      (by decide)⟩

/-- Truncated version 2 reports, evaluated: frames of three and of six bytes
refresh Type and Level only. -/
theorem HandleMsg_report_version2_truncated_example :
    HandleMsg (sampleAlarm 2 sampleStoreV2) [0x05, 0x02, 0x50] 1 =
      .ok (true, sampleAlarm 2
        [ ((1, 0), { value := 0x02, label := "Alarm Type" }),
          ((1, 1), { value := 0x50, label := "Alarm Level" }),
          ((1, 2), { value := 0, label := "SourceNodeId" }),
          ((1, 7), { value := 0, label := "Heat" }),
          ((1, 8), { value := 0, label := "Flood" }) ]) ∧
    HandleMsg (sampleAlarm 2 sampleStoreV2) [0x05, 0x02, 0x50, 9, 0xFF, 4] 1 =
      .ok (true, sampleAlarm 2
        [ ((1, 0), { value := 0x02, label := "Alarm Type" }),
          ((1, 1), { value := 0x50, label := "Alarm Level" }),
          ((1, 2), { value := 0, label := "SourceNodeId" }),
          ((1, 7), { value := 0, label := "Heat" }),
          ((1, 8), { value := 0, label := "Flood" }) ]) :=
  ⟨rfl, rfl⟩


/-! ## Notification types outside the table -/

theorem tableRead_of_le {α : Type} (table : List α) (i : Nat) (h : table.length ≤ i) :
    tableRead table i = .error (Fault.tableOutOfBounds i) := by
  simp only [tableRead, List.getElem?_eq_none h]; rfl

/-- The report branch on a device of version 3 or more, for a frame of at least
seven bytes and any type byte: what is left after the header slots are refreshed. -/
theorem HandleMsg_report_version3_any (a : Alarm) (inst d1 d2 d3 status t e : Nat)
    (rest : List Nat) (hv : 3 ≤ a.version) :
    HandleMsg a (0x05 :: d1 :: d2 :: d3 :: status :: t :: e :: rest) inst =
      (if e = 0x00 ∨ e = 0xFE then
        HandleMsg.clearEvents (OnValueRefreshed (OnValueRefreshed a inst AlarmIndex_Type d1) inst
          AlarmIndex_Level status) inst t
      else
        slotIndex t e >>= fun index =>
          RefreshValue (OnValueRefreshed (OnValueRefreshed a inst AlarmIndex_Type d1) inst
            AlarmIndex_Level status) inst (uint8 index) (pure 1)) >>= fun a' =>
        pure (true, a') := by
  have hv2 : ¬ a.version ≤ 2 := by omega
  have hv3 : a.version ≠ 2 := by omega
  have hversion : ∀ x, (OnValueRefreshed a inst AlarmIndex_Type x).version = a.version :=
    fun _ => rfl
  simp only [HandleMsg, HandleMsg.report,
    HandleMsg.reportV2, HandleMsg.reportV3, readByte_at0, readByte_at1, readByte_at4,
    readByte_at5, readByte_at6, RefreshValue_ok, AlarmCmd_Report, bind, Except.bind, pure,
    Except.pure, hversion, hv2, hv3, if_true, if_false, false_and, ge_iff_le, hv]

/-- C27 (what the code does): on a device of version 3 or more a notification
type byte `t` of 14 or more takes `HandleMsg` out of the tables instead of being
handled with result `true`. A report of at least seven bytes with event 0x00 or
0xFE reads `alarmCounts[t]` past the end of the table; with another event and
`t` of 15 or more it reads `alarmPrefixCount[t]` past the end; and a
supported-events report (of at least three bytes, on a node that is there) reads
`c_alarmTypeName[t]` past the end. -/
theorem HandleMsg_unknown_type_reads_past_tables (a : Alarm) (_instance t : Nat)
    (hv : 3 ≤ a.version) (ht : Alarm_Count ≤ t) :
    (∀ d1 d2 d3 status e rest, (e = 0x00 ∨ e = 0xFE ∨ 15 ≤ t) →
      HandleMsg a (0x05 :: d1 :: d2 :: d3 :: status :: t :: e :: rest) _instance
        = .error (Fault.tableOutOfBounds t)) ∧
    (∀ countByte mask, a.node.isSome = true →
      HandleMsg a (0x02 :: t :: countByte :: mask) _instance
        = .error (Fault.tableOutOfBounds t)) := by
  have ht14 : 14 ≤ t := ht
  constructor
  · intro d1 d2 d3 status e rest he
    rw [HandleMsg_report_version3_any a _instance d1 d2 d3 status t e rest hv]
    by_cases hclear : e = 0x00 ∨ e = 0xFE
    · rw [if_pos hclear]
      simp only [HandleMsg.clearEvents,
        tableRead_of_le alarmCounts t (by simp only [alarmCounts, List.length]; omega), bind,
        Except.bind]
    · have h15 : 15 ≤ t := by
        rcases he with h | h | h
        · exact absurd (Or.inl h) hclear
        · exact absurd (Or.inr h) hclear
        · exact h
      rw [if_neg hclear]
      simp only [slotIndex,
        tableRead_of_le alarmPrefixCount t (by simp only [alarmPrefixCount, List.length]; omega),
        bind, Except.bind]
  · intro countByte mask hnode
    cases hn : a.node with
    | none => simp [hn] at hnode
    | some vs =>
      simp only [HandleMsg, HandleMsg.supportedEventReport, readByte_at0, readByte_at1,
        readByte_at2, hn, AlarmCmd_Report, AlarmCmd_SupportedReport,
        AlarmCmd_SupportedEventReport,
        tableRead_of_le c_alarmTypeName t (by simp only [c_alarmTypeName, List.length]; omega),
        bind, Except.bind, pure, Except.pure]
      rfl

theorem HandleMsg_unknown_type_reads_past_tables_witness :
    (3 ≤ (sampleAlarm 3 sampleStoreV3).version ∧ Alarm_Count ≤ 14) ∧
    ((∀ d1 d2 d3 status e rest, (e = 0x00 ∨ e = 0xFE ∨ 15 ≤ 14) →
      HandleMsg (sampleAlarm 3 sampleStoreV3) (0x05 :: d1 :: d2 :: d3 :: status :: 14 :: e :: rest)
        1 = .error (Fault.tableOutOfBounds 14)) ∧
    (∀ countByte mask, (sampleAlarm 3 sampleStoreV3).node.isSome = true →
      HandleMsg (sampleAlarm 3 sampleStoreV3) (0x02 :: 14 :: countByte :: mask) 1
        = .error (Fault.tableOutOfBounds 14))) :=
  ⟨⟨by decide, by decide⟩,
    HandleMsg_unknown_type_reads_past_tables (sampleAlarm 3 sampleStoreV3) 1 14 (by decide)
      (by decide)⟩

/-- Frames with a type byte outside the table, evaluated on a version 3 device:
the three table reads that go past the end, and the one combination (type 14,
event other than 0x00 and 0xFE) that stays inside `alarmPrefixCount`. -/
theorem HandleMsg_unknown_type_example :
    HandleMsg (sampleAlarm 3 sampleStoreV3) [0x05, 0, 0, 0, 0, 14, 0x00] 1
      = .error (Fault.tableOutOfBounds 14) ∧
    HandleMsg (sampleAlarm 3 sampleStoreV3) [0x05, 0, 0, 0, 0, 0x20, 0x01] 1
      = .error (Fault.tableOutOfBounds 0x20) ∧
    HandleMsg (sampleAlarm 3 sampleStoreV3) [0x02, 14, 0] 1
      = .error (Fault.tableOutOfBounds 14) ∧
    (HandleMsg (sampleAlarm 3 sampleStoreV3) [0x05, 0, 0, 0, 0, 14, 0x01] 1).map (fun r => r.1)
      = .ok true :=
  ⟨rfl, rfl, rfl, rfl⟩


/-! ## Slot creation and the declared event counts -/

/-- Slot creation and the count, evaluated. Smoke declares 5 events: a report for
Smoke with bit 5 set creates no slot (the index would be 8, the slot of event 0
of Carbon Monoxide), the call has no result; with the bits 0 to 4 set it creates
the five slots 3..7 of the block of Smoke. -/
theorem HandleMsg_supportedEventReport_count_example :
    alarmCounts[Alarm_Smoke]? = some 5 ∧
    maskBits [0b00100000] (1 &&& 0x1F) = [5] ∧
    slotIndex Alarm_Smoke 5 = .ok 8 ∧ slotIndex Alarm_CarbonMonoxide 0 = .ok 8 ∧
    HandleMsg (sampleAlarm 3 []) [0x02, Alarm_Smoke, 1, 0b00100000] 1 =
      .error Fault.nullLabel ∧
    HandleMsg (sampleAlarm 3 []) [0x02, Alarm_Smoke, 1, 0b00011111] 1 =
      .ok (true, sampleAlarm 3
        [ ((1, 3), { value := 0, label := "Smoke Alarm Inactive" }),
          ((1, 4), { value := 0, label := "Smoke" }),
          ((1, 5), { value := 0, label := "Smoke" }),
          ((1, 6), { value := 0, label := "Smoke Test" }),
          ((1, 7), { value := 0, label := "Smoke Replacement Required" }) ]) :=
  ⟨rfl, by decide, rfl, rfl, rfl, rfl⟩

/-! ## The blocks of the declared events -/

/-- C30: for notification types `t1`, `t2` of the table, with offsets `p1`, `p2`
and counts `c1`, `c2`, and declared events `e1 < c1`, `e2 < c2`: equal indices
`p1+e1+3 = p2+e2+3` force `t1 = t2` and `e1 = e2`; every such index is the value
of the index expression and is at least 3, so never a header slot; and the
blocks `[p+3, p+3+c)` of two distinct types have no index in common. -/
theorem declared_slot_blocks_disjoint (t1 t2 e1 e2 p1 p2 c1 c2 : Nat)
    (hp1 : alarmPrefixCount[t1]? = some p1) (hc1 : alarmCounts[t1]? = some c1)
    (hp2 : alarmPrefixCount[t2]? = some p2) (hc2 : alarmCounts[t2]? = some c2)
    (he1 : e1 < c1) (he2 : e2 < c2) :
    (p1 + e1 + 3 = p2 + e2 + 3 → t1 = t2 ∧ e1 = e2) ∧
    (slotIndex t1 e1 = .ok (p1 + e1 + 3) ∧ 3 ≤ p1 + e1 + 3 ∧
      p1 + 3 ≤ p1 + e1 + 3 ∧ p1 + e1 + 3 < p1 + 3 + c1) ∧
    (t1 ≠ t2 → ∀ index,
      ¬ ((p1 + 3 ≤ index ∧ index < p1 + 3 + c1) ∧ (p2 + 3 ≤ index ∧ index < p2 + 3 + c2))) := by
  have ht1 := alarmCounts_get_lt t1 c1 hc1
  have ht2 := alarmCounts_get_lt t2 c2 hc2
  have hp1' := alarmPrefixCount_getD_of_get t1 p1 ht1 hp1
  have hp2' := alarmPrefixCount_getD_of_get t2 p2 ht2 hp2
  have hc1' := alarmCounts_getD_of_get t1 c1 hc1
  have hc2' := alarmCounts_getD_of_get t2 c2 hc2
  refine ⟨fun h => ?_, ⟨?_, by omega, by omega, by omega⟩, fun hne index hx => ?_⟩
  · exact declared_index_eq t1 t2 e1 e2 ht1 ht2 (by rw [hc1']; exact he1)
      (by rw [hc2']; exact he2) (by rw [hp1', hp2']; exact h)
  · rw [slotIndex_of_lt t1 e1 ht1, hp1']
  · rcases Nat.lt_trichotomy t1 t2 with hlt | heq | hgt
    · have := offset_add_count_le t1 ht1 t2 ht2 hlt
      rw [hp1', hp2', hc1'] at this
      omega
    · exact hne heq
    · have := offset_add_count_le t2 ht2 t1 ht1 hgt
      rw [hp1', hp2', hc2'] at this
      omega

theorem declared_slot_blocks_disjoint_witness :
    (alarmPrefixCount[Alarm_Flood]? = some 22 ∧ alarmCounts[Alarm_Flood]? = some 6 ∧
      alarmPrefixCount[Alarm_Access_Control]? = some 28 ∧
      alarmCounts[Alarm_Access_Control]? = some 77 ∧ 5 < 6 ∧ 0 < 77) ∧
    ((22 + 5 + 3 = 28 + 0 + 3 → Alarm_Flood = Alarm_Access_Control ∧ 5 = 0) ∧
    (slotIndex Alarm_Flood 5 = .ok (22 + 5 + 3) ∧ 3 ≤ 22 + 5 + 3 ∧
      22 + 3 ≤ 22 + 5 + 3 ∧ 22 + 5 + 3 < 22 + 3 + 6) ∧
    (Alarm_Flood ≠ Alarm_Access_Control → ∀ index,
      ¬ ((22 + 3 ≤ index ∧ index < 22 + 3 + 6) ∧ (28 + 3 ≤ index ∧ index < 28 + 3 + 77)))) :=
  ⟨⟨rfl, rfl, rfl, rfl, by decide, by decide⟩,
    declared_slot_blocks_disjoint Alarm_Flood Alarm_Access_Control 5 0 22 28 6 77 rfl rfl rfl rfl
      (by decide) (by decide)⟩


/-! ## Event counts and the label table -/

/-- C24, as stated, fails: event 0x18 of Access Control is below the count 77 of
the type and is not the 0xFE sentinel, but has no label; the labelled codes of
Access Control other than 0xFE are 37, not 77. -/
theorem Access_Control_count_exceeds_labels :
    alarmCounts[Alarm_Access_Control]? = some 77 ∧ 0x18 < 77 ∧ 0x18 ≠ 0xFE ∧
    eventTypeName Alarm_Access_Control 0x18 = none ∧
    ((List.range 0xFE).filter
      (fun e => (eventTypeName Alarm_Access_Control e).isSome)).length = 37 :=
  ⟨rfl, by decide, by decide, rfl, by decide⟩

/-- C24, amended: for every notification type `t` of the table and every event
code `e` other than 0xFE, if `e` has a label for `t` then `e < alarmCounts[t]`;
for every type other than Access Control the converse holds too, every
`e < alarmCounts[t]` has a label; for Access Control the labelled codes other
than 0xFE are 0x00..0x17 and 0x40..0x4C, below the count 77. -/
theorem labels_below_event_count (t e count : Nat) (hc : alarmCounts[t]? = some count)
    (he : e ≠ 0xFE) :
    ((eventTypeName t e).isSome = true → e < count) ∧
    (t ≠ Alarm_Access_Control → e < count → (eventTypeName t e).isSome = true) ∧
    (t = Alarm_Access_Control →
      ((eventTypeName t e).isSome = true ↔ (e ≤ 0x17 ∨ (0x40 ≤ e ∧ e ≤ 0x4C)))) := by
  have ht := alarmCounts_get_lt t count hc
  have hc' := alarmCounts_getD_of_get t count hc
  have hle := alarmCounts_le t ht
  rw [hc'] at hle
  refine ⟨fun h => ?_, fun hne hlt => ?_, fun hAC => ?_⟩
  · have he254 : e < 254 := by
      have := eventTypeName_isSome_le t e h
      omega
    have := (label_below_count_bounded t ht e he254).1 h
    rw [hc'] at this
    exact this
  · have he254 : e < 254 := by omega
    exact (label_below_count_bounded t ht e he254).2 hne (by rw [hc']; exact hlt)
  · subst hAC
    by_cases he254 : e < 254
    · exact Access_Control_labels_bounded e he254
    · constructor
      · intro h
        have := eventTypeName_isSome_le Alarm_Access_Control e h
        omega
      · intro h
        omega

theorem labels_below_event_count_witness :
    (alarmCounts[Alarm_Burglar]? = some 9 ∧ 7 ≠ 0xFE) ∧
    (((eventTypeName Alarm_Burglar 7).isSome = true → 7 < 9) ∧
    (Alarm_Burglar ≠ Alarm_Access_Control → 7 < 9 →
      (eventTypeName Alarm_Burglar 7).isSome = true) ∧
    (Alarm_Burglar = Alarm_Access_Control →
      ((eventTypeName Alarm_Burglar 7).isSome = true ↔ (7 ≤ 0x17 ∨ (0x40 ≤ 7 ∧ 7 ≤ 0x4C))))) :=
  ⟨⟨rfl, by decide⟩, labels_below_event_count Alarm_Burglar 7 9 rfl (by decide)⟩


/-! ## Order of supported-events reports -/

/-- The two orders on the sample store, where none of the slots 3, 4, 7 (Smoke)
and 25, 27 (Flood) exists before: either way they exist afterwards with the
same labels. And an Access Control frame with the bits 0 and 24 set, both below
the count 77 of the type: bit 24 has no label, and the frame has no result,
neither on the sample store nor after the Smoke frame. -/
theorem HandleMsg_supportedEventReport_order_example :
    ((HandleMsg (sampleAlarm 3 sampleStoreV3) [0x02, Alarm_Smoke, 1, 0x13] 1).bind
      (fun r1 => (HandleMsg r1.2 [0x02, Alarm_Flood, 1, 0x05] 1).map
        (fun r2 => [3, 4, 7, 25, 27].map (GetValue r2.2 1)))) =
      .ok [ some { value := 0, label := "Smoke Alarm Inactive" },
            some { value := 0, label := "Smoke" },
            some { value := 0, label := "Smoke Replacement Required" },
            some { value := 0, label := "Flood Alarm Inactive" },
            some { value := 0, label := "Flood" } ] ∧
    ((HandleMsg (sampleAlarm 3 sampleStoreV3) [0x02, Alarm_Flood, 1, 0x05] 1).bind
      (fun r1 => (HandleMsg r1.2 [0x02, Alarm_Smoke, 1, 0x13] 1).map
        (fun r2 => [3, 4, 7, 25, 27].map (GetValue r2.2 1)))) =
      .ok [ some { value := 0, label := "Smoke Alarm Inactive" },
            some { value := 0, label := "Smoke" },
            some { value := 0, label := "Smoke Replacement Required" },
            some { value := 0, label := "Flood Alarm Inactive" },
            some { value := 0, label := "Flood" } ] ∧
    [3, 4, 7, 25, 27].map (GetValue (sampleAlarm 3 sampleStoreV3) 1)
      = [none, none, none, none, none] ∧
    maskBits [0x01, 0, 0, 0x01] (4 &&& 0x1F) = [0, 24] ∧
    alarmCounts[Alarm_Access_Control]? = some 77 ∧
    eventTypeName Alarm_Access_Control 24 = none ∧
    HandleMsg (sampleAlarm 3 sampleStoreV3) [0x02, Alarm_Access_Control, 4, 0x01, 0, 0, 0x01] 1
      = .error Fault.nullLabel ∧
    ((HandleMsg (sampleAlarm 3 sampleStoreV3) [0x02, Alarm_Smoke, 1, 0x13] 1).bind
      (fun r1 => HandleMsg r1.2 [0x02, Alarm_Access_Control, 4, 0x01, 0, 0, 0x01] 1))
      = .error Fault.nullLabel :=
  ⟨rfl, rfl, rfl, by decide, rfl, rfl, rfl, rfl⟩


/-! ## Which typed GETs `RequestValue` sends -/

/-- C31: on a device of version 2 or more that supports Get, `RequestValue`
queues, after what was queued before, the typed GETs of a list `types` of
notification types: `i` is in the list exactly when `i < 14` and a slot exists
at `i + 3`; the list is strictly ascending, so there is one frame per such `i`;
the frame of `i` is an `AlarmCmd_Get` with `i` as its type byte; the result is
`true` exactly when the list is not empty, that is when at least one frame was
queued; nothing else changes; and slots of index 17 or more are ignored: a store
that agrees on which slots of index 3..16 of the instance exist gives the same
result flag and the same queue. -/
theorem RequestValue_selects_types (a : Alarm) (_requestFlags _dummy1 _instance _queue : Nat)
    (hv : 2 ≤ a.version) (hget : a.getSupported = true) :
    ∃ types : List Nat,
      RequestValue a _requestFlags _dummy1 _instance _queue =
        (!types.isEmpty, { a with sendQueue := (a.sendQueue ++
          types.map (RequestValue.typedGet a _instance _queue)) }) ∧
      (∀ i, i ∈ types ↔ i < Alarm_Count ∧ (GetValue a _instance (i + 3)).isSome = true) ∧
      types.Pairwise (fun x y => x < y) ∧
      (∀ i, (RequestValue.typedGet a _instance _queue i).bytes[3]? = some AlarmCmd_Get ∧
        (RequestValue.typedGet a _instance _queue i).bytes[5]? = some i) ∧
      ((RequestValue a _requestFlags _dummy1 _instance _queue).1 = true ↔ types ≠ []) ∧
      (RequestValue a _requestFlags _dummy1 _instance _queue).2.sendQueue.length =
        a.sendQueue.length + types.length ∧
      (∀ node' : Option ValueStore,
        (∀ index, 3 ≤ index → index < 17 →
          (GetValue { a with node := node' } _instance index).isSome =
            (GetValue a _instance index).isSome) →
        (RequestValue { a with node := node' } _requestFlags _dummy1 _instance _queue).1 =
          (RequestValue a _requestFlags _dummy1 _instance _queue).1 ∧
        (RequestValue { a with node := node' } _requestFlags _dummy1 _instance _queue).2.sendQueue =
          (RequestValue a _requestFlags _dummy1 _instance _queue).2.sendQueue) := by
  have hv1 : a.version ≠ 1 := by omega
  have heq := RequestValue_eq a _requestFlags _dummy1 _instance _queue hget hv1
  refine ⟨(List.range Alarm_Count).filter (fun i => (GetValue a _instance (i + 3)).isSome),
    heq, ?_, List.Pairwise.filter _ (List.pairwise_lt_range _), ?_, ?_, ?_, ?_⟩
  · intro i
    rw [List.mem_filter, List.mem_range]
  · intro i
    by_cases h2 : a.version = 2
    · simp [RequestValue.typedGet, h2]
    · simp [RequestValue.typedGet, h2]
  · rw [heq]
    cases (List.range Alarm_Count).filter (fun i => (GetValue a _instance (i + 3)).isSome) <;>
      simp
  · rw [heq]
    simp
  · intro node' hsame
    have heq' := RequestValue_eq { a with node := node' } _requestFlags _dummy1 _instance _queue
      hget hv1
    have hfilter : (List.range Alarm_Count).filter
        (fun i => (GetValue { a with node := node' } _instance (i + 3)).isSome) =
        (List.range Alarm_Count).filter (fun i => (GetValue a _instance (i + 3)).isSome) := by
      apply List.filter_congr
      intro i hi
      have hi' : i < 14 := List.mem_range.mp hi
      exact hsame (i + 3) (by omega) (by omega)
    rw [heq', heq, hfilter]
    exact ⟨rfl, rfl⟩

theorem RequestValue_selects_types_witness :
    (2 ≤ (sampleAlarm 2 sampleStoreMixed).version ∧
      (sampleAlarm 2 sampleStoreMixed).getSupported = true) ∧
    ∃ types : List Nat,
      RequestValue (sampleAlarm 2 sampleStoreMixed) 4 0 1 5 =
        (!types.isEmpty, { sampleAlarm 2 sampleStoreMixed with
          sendQueue := ((sampleAlarm 2 sampleStoreMixed).sendQueue ++
          types.map (RequestValue.typedGet (sampleAlarm 2 sampleStoreMixed) 1 5)) }) ∧
      (∀ i, i ∈ types ↔
        i < Alarm_Count ∧ (GetValue (sampleAlarm 2 sampleStoreMixed) 1 (i + 3)).isSome = true) ∧
      types.Pairwise (fun x y => x < y) ∧
      (∀ i, (RequestValue.typedGet (sampleAlarm 2 sampleStoreMixed) 1 5 i).bytes[3]?
          = some AlarmCmd_Get ∧
        (RequestValue.typedGet (sampleAlarm 2 sampleStoreMixed) 1 5 i).bytes[5]? = some i) ∧
      ((RequestValue (sampleAlarm 2 sampleStoreMixed) 4 0 1 5).1 = true ↔ types ≠ []) ∧
      (RequestValue (sampleAlarm 2 sampleStoreMixed) 4 0 1 5).2.sendQueue.length =
        (sampleAlarm 2 sampleStoreMixed).sendQueue.length + types.length ∧
      (∀ node' : Option ValueStore,
        (∀ index, 3 ≤ index → index < 17 →
          (GetValue { sampleAlarm 2 sampleStoreMixed with node := node' } 1 index).isSome =
            (GetValue (sampleAlarm 2 sampleStoreMixed) 1 index).isSome) →
        (RequestValue { sampleAlarm 2 sampleStoreMixed with node := node' } 4 0 1 5).1 =
          (RequestValue (sampleAlarm 2 sampleStoreMixed) 4 0 1 5).1 ∧
        (RequestValue { sampleAlarm 2 sampleStoreMixed with node := node' } 4 0 1 5).2.sendQueue =
          (RequestValue (sampleAlarm 2 sampleStoreMixed) 4 0 1 5).2.sendQueue) :=
  ⟨⟨by decide, rfl⟩,
    RequestValue_selects_types (sampleAlarm 2 sampleStoreMixed) 4 0 1 5 (by decide) rfl⟩

/-- The selection, evaluated on a store with the slots 4, 16, 17 and 114: the
typed GETs of the types 1 and 13, in this order, on version 2 and on version 3;
with the slots 17 and 114 only, nothing is queued and the result is `false`. -/
theorem RequestValue_selects_types_example :
    (RequestValue (sampleAlarm 2 sampleStoreMixed) 4 0 1 5).1 = true ∧
    (RequestValue (sampleAlarm 2 sampleStoreMixed) 4 0 1 5).2.sendQueue.map Msg.bytes
      = [[9, 4, 0x71, 0x04, 0x00, 1, 0x25], [9, 4, 0x71, 0x04, 0x00, 13, 0x25]] ∧
    (RequestValue (sampleAlarm 3 sampleStoreMixed) 4 0 1 5).2.sendQueue.map Msg.bytes
      = [[9, 5, 0x71, 0x04, 0x00, 1, 0x01, 0x25], [9, 5, 0x71, 0x04, 0x00, 13, 0x01, 0x25]] ∧
    RequestValue (sampleAlarm 2
        [ ((1, 17), { value := 0, label := "Carbon Dioxide Replacement Required" }),
          ((1, 114), { value := 1, label := "Glass Breakage" }) ]) 4 0 1 5
      = (false, sampleAlarm 2
        [ ((1, 17), { value := 0, label := "Carbon Dioxide Replacement Required" }),
          ((1, 114), { value := 1, label := "Glass Breakage" }) ]) :=
  ⟨rfl, rfl, rfl, rfl⟩


/-! ## The length byte of the outbound frames -/

/-- The typed GET of `RequestValue` on a device of version 2 or more. -/
theorem typedGet_length_byte (a : Alarm) (inst q i : Nat) (hv : 2 ≤ a.version) :
    lengthByteConsistent (RequestValue.typedGet a inst q i).bytes ∧
    (RequestValue.typedGet a inst q i).bytes.head? = some a.nodeId ∧
    (RequestValue.typedGet a inst q i).bytes.getLast? = some a.transmitOptions ∧
    (RequestValue.typedGet a inst q i).bytes[3]? = some AlarmCmd_Get ∧
    ((a.version = 2 ∧ (RequestValue.typedGet a inst q i).bytes[1]? = some 4) ∨
      (3 ≤ a.version ∧ (RequestValue.typedGet a inst q i).bytes[1]? = some 5)) := by
  by_cases h2 : a.version = 2
  · simp [RequestValue.typedGet, lengthByteConsistent, h2]
  · have h3 : a.version > 2 := by omega
    have h3' : 3 ≤ a.version := h3
    simp [RequestValue.typedGet, lengthByteConsistent, h2, h3, h3']

/-- The frames `RequestValue` queues on a device of version 1 or more. -/
theorem RequestValue_frames (a : Alarm) (f d inst q : Nat) (hv : 1 ≤ a.version) :
    ∃ new, (RequestValue a f d inst q).2.sendQueue = a.sendQueue ++ new ∧
      ∀ m ∈ new, lengthByteConsistent m.bytes ∧ m.bytes.head? = some a.nodeId ∧
        m.bytes.getLast? = some a.transmitOptions ∧ m.bytes[3]? = some AlarmCmd_Get ∧
        ((a.version = 1 ∧ m.bytes[1]? = some 2) ∨ (a.version = 2 ∧ m.bytes[1]? = some 4) ∨
          (3 ≤ a.version ∧ m.bytes[1]? = some 5)) := by
  by_cases hget : a.getSupported = true
  · by_cases hv1 : a.version = 1
    · refine ⟨[{ name := "AlarmCmd_Get"
                 targetNodeId := a.nodeId
                 targetInstance := inst
                 bytes := [a.nodeId, 2, a.commandClassId, AlarmCmd_Get, a.transmitOptions]
                 queue := q }], ?_, ?_⟩
      · simp only [RequestValue, if_pos hget, if_pos hv1, SendMsg]
      · intro m hm
        rw [List.mem_singleton.mp hm]
        simp [lengthByteConsistent, hv1]
    · refine ⟨((List.range Alarm_Count).filter (fun i => (GetValue a inst (i + 3)).isSome)).map
          (RequestValue.typedGet a inst q), ?_, ?_⟩
      · rw [RequestValue_eq a f d inst q hget hv1]
      · intro m hm
        obtain ⟨i, _, hi⟩ := List.mem_map.mp hm
        rw [← hi]
        obtain ⟨h1, h2, h3, h4, h5⟩ := typedGet_length_byte a inst q i (by omega)
        exact ⟨h1, h2, h3, h4, Or.inr h5⟩
  · refine ⟨[], ?_, fun m hm => by cases hm⟩
    simp [RequestValue, hget]

/-- The frames the supported-types branch queues: supported-events GETs only. -/
theorem HandleMsg_supportedReport_frames (a : Alarm) (inst n : Nat) (mask : List Nat)
    (hlen : n ≤ mask.length) :
    ∃ a' new, HandleMsg a (0x08 :: n :: mask) inst = .ok (true, a') ∧
      a'.sendQueue = a.sendQueue ++ new ∧
      ∀ m ∈ new, ∃ index, index < Alarm_Count ∧ m = HandleMsg.supportedEventGet a inst index := by
  cases hn : a.node with
  | none =>
    exact ⟨ClearStaticRequest a, [], HandleMsg_supportedReport_no_node a inst _ hn, by
      simp [ClearStaticRequest], fun m hm => by cases hm⟩
  | some vs =>
    have hnode : a.node.isSome = true := by rw [hn]; rfl
    by_cases hv : 3 ≤ a.version
    · refine ⟨ClearStaticRequest
        { CreateValueByte a inst AlarmIndex_SourceNodeId "SourceNodeId" with
          sendQueue := (a.sendQueue ++
            ((maskBits mask n).filter (fun index => decide (index < Alarm_Count))).map
              (HandleMsg.supportedEventGet a inst)) },
        ((maskBits mask n).filter (fun index => decide (index < Alarm_Count))).map
          (HandleMsg.supportedEventGet a inst), ?_, rfl, ?_⟩
      · rw [HandleMsg_supportedReport_eq a inst n mask hnode hlen,
          supportedReport_fold_ge3 _ _ _ (show 3 ≤ (CreateValueByte a inst
            AlarmIndex_SourceNodeId "SourceNodeId").version from hv)]
        rfl
      · intro m hm
        obtain ⟨index, hmem, hindex⟩ := List.mem_map.mp hm
        exact ⟨index, by simpa using (List.mem_filter.mp hmem).2, hindex.symm⟩
    · have hv2 : a.version ≤ 2 := by omega
      refine ⟨ClearStaticRequest
        (((maskBits mask n).filter (fun index => decide (index < Alarm_Count))).foldl
          (fun s index => CreateValueByte s inst (index + 3)
            (c_alarmTypeName.getD index ""))
          (CreateValueByte a inst AlarmIndex_SourceNodeId "SourceNodeId")),
        [], ?_, ?_, fun m hm => by cases hm⟩
      · rw [HandleMsg_supportedReport_eq a inst n mask hnode hlen,
          supportedReport_fold_le2 _ _ _ (show (CreateValueByte a inst AlarmIndex_SourceNodeId
            "SourceNodeId").version ≤ 2 from hv2)]
      · rw [List.append_nil]
        exact (foldl_create_fields _ (fun index => index + 3) _ _ _).1

/-- C32: on a device of version 1 or more, every frame
`[nodeId, len, classId, command, qualifiers..., txOptions]` queued by
`RequestState`, by `RequestValue` and by the supported-types branch of
`HandleMsg` has a consistent length byte: `len` is the number of bytes strictly
between it and the trailing `txOptions` byte. It is 2 for the plain GET (version
1) and the supported-types GET, 4 for the typed GET of version 2, 5 for the
typed GET of version 3 or more, and 3 for the supported-events GET. -/
theorem outbound_length_byte_consistent (a : Alarm) (hv : 1 ≤ a.version) :
    (∀ _requestFlags _instance _queue, ∃ new,
      (RequestState a _requestFlags _instance _queue).2.sendQueue = a.sendQueue ++ new ∧
      ∀ m ∈ new, lengthByteConsistent m.bytes ∧ m.bytes.head? = some a.nodeId ∧
        m.bytes.getLast? = some a.transmitOptions ∧
        ((m.bytes[3]? = some AlarmCmd_SupportedGet ∧ m.bytes[1]? = some 2) ∨
          (m.bytes[3]? = some AlarmCmd_Get ∧
            ((a.version = 1 ∧ m.bytes[1]? = some 2) ∨ (a.version = 2 ∧ m.bytes[1]? = some 4) ∨
              (3 ≤ a.version ∧ m.bytes[1]? = some 5))))) ∧
    (∀ _requestFlags _dummy1 _instance _queue, ∃ new,
      (RequestValue a _requestFlags _dummy1 _instance _queue).2.sendQueue = a.sendQueue ++ new ∧
      ∀ m ∈ new, lengthByteConsistent m.bytes ∧ m.bytes.head? = some a.nodeId ∧
        m.bytes.getLast? = some a.transmitOptions ∧ m.bytes[3]? = some AlarmCmd_Get ∧
        ((a.version = 1 ∧ m.bytes[1]? = some 2) ∨ (a.version = 2 ∧ m.bytes[1]? = some 4) ∨
          (3 ≤ a.version ∧ m.bytes[1]? = some 5))) ∧
    (∀ _instance byteCount mask, byteCount ≤ mask.length → ∃ a' new,
      HandleMsg a (0x08 :: byteCount :: mask) _instance = .ok (true, a') ∧
      a'.sendQueue = a.sendQueue ++ new ∧
      ∀ m ∈ new, lengthByteConsistent m.bytes ∧ m.bytes.head? = some a.nodeId ∧
        m.bytes.getLast? = some a.transmitOptions ∧
        m.bytes[3]? = some AlarmCmd_SupportedEventGet ∧ m.bytes[1]? = some 3) := by
  refine ⟨fun f inst q => ?_, fun f d inst q => RequestValue_frames a f d inst q hv,
    fun inst n mask hlen => ?_⟩
  · unfold RequestState
    by_cases hs : (f &&& a.RequestFlag_Static ≠ 0 ∧ a.staticRequest = true) ∧ a.version > 1
    · rw [if_pos hs]
      refine ⟨[{ name := "AlarmCmd_SupportedGet"
                 targetNodeId := a.nodeId
                 targetInstance := inst
                 bytes := [a.nodeId, 2, a.commandClassId, AlarmCmd_SupportedGet,
                   a.transmitOptions]
                 queue := q }], rfl, ?_⟩
      intro m hm
      rw [List.mem_singleton.mp hm]
      simp [lengthByteConsistent]
    · rw [if_neg hs]
      by_cases hd : f &&& a.RequestFlag_Dynamic ≠ 0
      · rw [if_pos hd]
        obtain ⟨new, hq, hall⟩ := RequestValue_frames a f 0 inst q hv
        refine ⟨new, hq, fun m hm => ?_⟩
        obtain ⟨h1, h2, h3, h4, h5⟩ := hall m hm
        exact ⟨h1, h2, h3, Or.inr ⟨h4, h5⟩⟩
      · rw [if_neg hd]
        exact ⟨[], by simp, fun m hm => by cases hm⟩
  · obtain ⟨a', new, hres, hq, hall⟩ := HandleMsg_supportedReport_frames a inst n mask hlen
    refine ⟨a', new, hres, hq, fun m hm => ?_⟩
    obtain ⟨index, _, hindex⟩ := hall m hm
    rw [hindex]
    simp [HandleMsg.supportedEventGet, lengthByteConsistent]

theorem outbound_length_byte_consistent_witness :
    (1 ≤ (sampleAlarm 3 sampleStoreMixed).version) ∧
    ((∀ _requestFlags _instance _queue, ∃ new,
      (RequestState (sampleAlarm 3 sampleStoreMixed) _requestFlags _instance _queue).2.sendQueue
        = (sampleAlarm 3 sampleStoreMixed).sendQueue ++ new ∧
      ∀ m ∈ new, lengthByteConsistent m.bytes ∧
        m.bytes.head? = some (sampleAlarm 3 sampleStoreMixed).nodeId ∧
        m.bytes.getLast? = some (sampleAlarm 3 sampleStoreMixed).transmitOptions ∧
        ((m.bytes[3]? = some AlarmCmd_SupportedGet ∧ m.bytes[1]? = some 2) ∨
          (m.bytes[3]? = some AlarmCmd_Get ∧
            (((sampleAlarm 3 sampleStoreMixed).version = 1 ∧ m.bytes[1]? = some 2) ∨
              ((sampleAlarm 3 sampleStoreMixed).version = 2 ∧ m.bytes[1]? = some 4) ∨
              (3 ≤ (sampleAlarm 3 sampleStoreMixed).version ∧ m.bytes[1]? = some 5))))) ∧
    (∀ _requestFlags _dummy1 _instance _queue, ∃ new,
      (RequestValue (sampleAlarm 3 sampleStoreMixed) _requestFlags _dummy1 _instance
        _queue).2.sendQueue = (sampleAlarm 3 sampleStoreMixed).sendQueue ++ new ∧
      ∀ m ∈ new, lengthByteConsistent m.bytes ∧
        m.bytes.head? = some (sampleAlarm 3 sampleStoreMixed).nodeId ∧
        m.bytes.getLast? = some (sampleAlarm 3 sampleStoreMixed).transmitOptions ∧
        m.bytes[3]? = some AlarmCmd_Get ∧
        (((sampleAlarm 3 sampleStoreMixed).version = 1 ∧ m.bytes[1]? = some 2) ∨
          ((sampleAlarm 3 sampleStoreMixed).version = 2 ∧ m.bytes[1]? = some 4) ∨
          (3 ≤ (sampleAlarm 3 sampleStoreMixed).version ∧ m.bytes[1]? = some 5))) ∧
    (∀ _instance byteCount mask, byteCount ≤ mask.length → ∃ a' new,
      HandleMsg (sampleAlarm 3 sampleStoreMixed) (0x08 :: byteCount :: mask) _instance
        = .ok (true, a') ∧
      a'.sendQueue = (sampleAlarm 3 sampleStoreMixed).sendQueue ++ new ∧
      ∀ m ∈ new, lengthByteConsistent m.bytes ∧
        m.bytes.head? = some (sampleAlarm 3 sampleStoreMixed).nodeId ∧
        m.bytes.getLast? = some (sampleAlarm 3 sampleStoreMixed).transmitOptions ∧
        m.bytes[3]? = some AlarmCmd_SupportedEventGet ∧ m.bytes[1]? = some 3)) :=
  ⟨by decide, outbound_length_byte_consistent (sampleAlarm 3 sampleStoreMixed) (by decide)⟩

/-- The frames of the five kinds, evaluated, each with its length byte; and the
one combination left out above: a version of 0, which no device of the three
protocol versions has, takes the branch of the typed GET with length byte 5 and
no 0x01 qualifier. -/
theorem outbound_length_byte_example :
    (RequestValue (sampleAlarm 1 sampleStoreMixed) 4 0 1 5).2.sendQueue.map Msg.bytes
      = [[9, 2, 0x71, 0x04, 0x25]] ∧
    (RequestState (sampleAlarm 2 sampleStoreMixed) 1 1 5).2.sendQueue.map Msg.bytes
      = [[9, 2, 0x71, 0x07, 0x25]] ∧
    (RequestState (sampleAlarm 2 sampleStoreMixed) 4 1 5).2.sendQueue.map Msg.bytes
      = [[9, 4, 0x71, 0x04, 0x00, 1, 0x25], [9, 4, 0x71, 0x04, 0x00, 13, 0x25]] ∧
    (RequestState (sampleAlarm 3 sampleStoreMixed) 4 1 5).2.sendQueue.map Msg.bytes
      = [[9, 5, 0x71, 0x04, 0x00, 1, 0x01, 0x25], [9, 5, 0x71, 0x04, 0x00, 13, 0x01, 0x25]] ∧
    (HandleMsg (sampleAlarm 3 sampleStoreMixed) [0x08, 1, 0b00000010] 1).map
        (fun r => r.2.sendQueue.map Msg.bytes) = .ok [[9, 3, 0x71, 0x01, 1, 0x25]] ∧
    (RequestValue (sampleAlarm 0 sampleStoreMixed) 4 0 1 5).2.sendQueue.map Msg.bytes
      = [[9, 5, 0x71, 0x04, 0x00, 1, 0x25], [9, 5, 0x71, 0x04, 0x00, 13, 0x25]] ∧
    ¬ lengthByteConsistent [9, 5, 0x71, 0x04, 0x00, 1, 0x25] :=
  ⟨rfl, rfl, rfl, rfl, rfl, rfl, by simp [lengthByteConsistent]⟩


/-! ## The declared slot indices and the 8-bit index -/

/-- C33: for a notification type `t` of the table, with offset `p` and count `c`,
and a declared event `e < c`, the index `p + e + 3` that the index expression
yields is at most 174, so below 256, and reducing it modulo 256 (the 8-bit slot
index of the registry) does not change it; the event counts add up to 172, which
is also the last entry of the offset table. -/
theorem declared_slot_index_fits_byte (t e p c : Nat)
    (hp : alarmPrefixCount[t]? = some p) (hc : alarmCounts[t]? = some c) (he : e < c) :
    slotIndex t e = .ok (p + e + 3) ∧ p + e + 3 ≤ 174 ∧ 174 < 256 ∧
    (p + e + 3) % 256 = p + e + 3 ∧
    alarmCounts.sum = 172 ∧ alarmPrefixCount[Alarm_Count]? = some 172 := by
  have ht := alarmCounts_get_lt t c hc
  have hp' := alarmPrefixCount_getD_of_get t p ht hp
  have hc' := alarmCounts_getD_of_get t c hc
  have htotal := offset_add_count_le_total t ht
  rw [hp', hc'] at htotal
  refine ⟨by rw [slotIndex_of_lt t e ht, hp'], by omega, by decide, ?_, by decide, rfl⟩
  exact Nat.mod_eq_of_lt (by omega)

theorem declared_slot_index_fits_byte_witness :
    (alarmPrefixCount[Alarm_HomeHealth]? = some 165 ∧ alarmCounts[Alarm_HomeHealth]? = some 7 ∧
      6 < 7) ∧
    (slotIndex Alarm_HomeHealth 6 = .ok (165 + 6 + 3) ∧ 165 + 6 + 3 ≤ 174 ∧ 174 < 256 ∧
      (165 + 6 + 3) % 256 = 165 + 6 + 3 ∧
      alarmCounts.sum = 172 ∧ alarmPrefixCount[Alarm_Count]? = some 172) :=
  ⟨⟨rfl, rfl, by decide⟩,
    declared_slot_index_fits_byte Alarm_HomeHealth 6 165 7 rfl rfl (by decide)⟩

/-- The bound 174 is attained, by the last declared event of the last type. -/
theorem declared_slot_index_max_example :
    slotIndex Alarm_HomeHealth 6 = .ok 174 ∧ alarmCounts[Alarm_HomeHealth]? = some 7 ∧
    (eventTypeName Alarm_HomeHealth 6).isSome = true :=
  ⟨rfl, rfl, rfl⟩


/-! ## The header slots of a version 3 report -/

theorem slotIndex_ge3 (t e index : Nat) (h : slotIndex t e = .ok index) : 3 ≤ index := by
  unfold slotIndex at h
  cases hread : tableRead alarmPrefixCount t with
  | error f =>
    rw [hread] at h
    cases h
  | ok offset =>
    rw [hread] at h
    have h' : (Except.ok (offset + e + 3) : Except Fault Nat) = .ok index := h
    have := Except.ok.inj h'
    omega

theorem GetValue_of_node_eq (a b : Alarm) (h : b.node = a.node) (inst index : Nat) :
    GetValue b inst index = GetValue a inst index := by
  unfold GetValue
  rw [h]

/-- C34 (what the code does): on a device of version 3 or more, for a report
frame of seven bytes or more `[0x05, d1, d2, d3, status, t, e, ...]` with a
notification type `t` of the table, of offset `offset`. The frame is handled
with result `true`; byte 2, the legacy level, has no influence on the outcome;
and on a device of version 1 or 2 with the same store the same frame leaves byte
1 in the Type slot and byte 2 in the Level slot. On version 3 the Type slot is
refreshed with byte 1 and the Level slot with the status byte (offset 4), and
these are the values the two slots hold afterwards when the event is 0x00 or
0xFE or the 8-bit index of the event slot is 2 or more, which is so whenever
`offset + e + 3 < 256`. The index of the event slot is passed as a `uint8`: for
an activation whose index `offset + e + 3` is 256 the slot refreshed with 1 is
the Type slot, which then holds 1 and not byte 1, and for an index of 257 it is
the Level slot, which then holds 1 and not the status byte. -/
theorem HandleMsg_report_version3_header (a : Alarm)
    (_instance d1 d2 d3 status t e offset : Nat) (rest : List Nat)
    (hv : 3 ≤ a.version) (ht : t < Alarm_Count) (hp : alarmPrefixCount[t]? = some offset) :
    (∃ a', HandleMsg a (0x05 :: d1 :: d2 :: d3 :: status :: t :: e :: rest) _instance
        = .ok (true, a') ∧
      ((e = 0x00 ∨ e = 0xFE ∨ 2 ≤ uint8 (offset + e + 3)) →
        GetValue a' _instance AlarmIndex_Type =
          (GetValue a _instance AlarmIndex_Type).map (fun v => { v with value := d1 }) ∧
        GetValue a' _instance AlarmIndex_Level =
          (GetValue a _instance AlarmIndex_Level).map (fun v => { v with value := status })) ∧
      (e ≠ 0x00 → e ≠ 0xFE → uint8 (offset + e + 3) = 0 →
        GetValue a' _instance AlarmIndex_Type =
          (GetValue a _instance AlarmIndex_Type).map (fun v => { v with value := 1 }) ∧
        GetValue a' _instance AlarmIndex_Level =
          (GetValue a _instance AlarmIndex_Level).map (fun v => { v with value := status })) ∧
      (e ≠ 0x00 → e ≠ 0xFE → uint8 (offset + e + 3) = 1 →
        GetValue a' _instance AlarmIndex_Type =
          (GetValue a _instance AlarmIndex_Type).map (fun v => { v with value := d1 }) ∧
        GetValue a' _instance AlarmIndex_Level =
          (GetValue a _instance AlarmIndex_Level).map (fun v => { v with value := 1 }))) ∧
    (offset + e + 3 < 256 → 2 ≤ uint8 (offset + e + 3)) ∧
    (offset + e + 3 = 256 → uint8 (offset + e + 3) = 0) ∧
    (offset + e + 3 = 257 → uint8 (offset + e + 3) = 1) ∧
    (∀ d2', HandleMsg a (0x05 :: d1 :: d2' :: d3 :: status :: t :: e :: rest) _instance =
      HandleMsg a (0x05 :: d1 :: d2 :: d3 :: status :: t :: e :: rest) _instance) ∧
    (∀ b : Alarm, b.version = 1 ∨ b.version = 2 → b.node = a.node → ∃ b',
      HandleMsg b (0x05 :: d1 :: d2 :: d3 :: status :: t :: e :: rest) _instance
        = .ok (true, b') ∧
      GetValue b' _instance AlarmIndex_Type =
        (GetValue a _instance AlarmIndex_Type).map (fun v => { v with value := d1 }) ∧
      GetValue b' _instance AlarmIndex_Level =
        (GetValue a _instance AlarmIndex_Level).map (fun v => { v with value := d2 })) := by
  have ht14 : t < 14 := ht
  have hoff := alarmPrefixCount_getD_of_get t offset ht hp
  have hhead := GetValue_header_refreshed a _instance d1 status
  refine ⟨⟨_, HandleMsg_report_version3 a _instance d1 d2 d3 status t e rest hv ht, ?_, ?_, ?_⟩,
    fun h => ?_, fun h => ?_, fun h => ?_, fun d2' => ?_, fun b hb hnode => ?_⟩
  · intro hgood
    rw [hoff]
    by_cases hclear : e = 0x00 ∨ e = 0xFE
    · simp only [if_pos hclear]
      constructor
      · rw [GetValue_foldl_refresh_miss (List.range (alarmCounts.getD t 0))
          (fun i => offset + i + 3) _ _instance 0 _instance AlarmIndex_Type (fun _ i _ => by
            show offset + i + 3 ≠ AlarmIndex_Type
            simp only [AlarmIndex_Type]
            omega)]
        exact hhead.1
      · rw [GetValue_foldl_refresh_miss (List.range (alarmCounts.getD t 0))
          (fun i => offset + i + 3) _ _instance 0 _instance AlarmIndex_Level (fun _ i _ => by
            show offset + i + 3 ≠ AlarmIndex_Level
            simp only [AlarmIndex_Level]
            omega)]
        exact hhead.2
    · simp only [if_neg hclear]
      have hk : 2 ≤ uint8 (offset + e + 3) := by
        rcases hgood with h | h | h
        · exact absurd (Or.inl h) hclear
        · exact absurd (Or.inr h) hclear
        · exact h
      constructor
      · rw [GetValue_OnValueRefreshed, if_neg (fun heq => by
          have := (Prod.mk.inj heq).2
          simp only [AlarmIndex_Type] at this
          omega)]
        exact hhead.1
      · rw [GetValue_OnValueRefreshed, if_neg (fun heq => by
          have := (Prod.mk.inj heq).2
          simp only [AlarmIndex_Level] at this
          omega)]
        exact hhead.2
  · intro h0 hFE hk
    rw [hoff]
    have hclear : ¬ (e = 0x00 ∨ e = 0xFE) := fun h => h.elim h0 hFE
    simp only [if_neg hclear]
    rw [hk]
    constructor
    · exact GetValue_activation a _instance d1 status 0
    · rw [GetValue_OnValueRefreshed, if_neg (fun heq => by
        have := (Prod.mk.inj heq).2
        simp only [AlarmIndex_Level] at this
        omega)]
      exact hhead.2
  · intro h0 hFE hk
    rw [hoff]
    have hclear : ¬ (e = 0x00 ∨ e = 0xFE) := fun h => h.elim h0 hFE
    simp only [if_neg hclear]
    rw [hk]
    constructor
    · rw [GetValue_OnValueRefreshed, if_neg (fun heq => by
        have := (Prod.mk.inj heq).2
        simp only [AlarmIndex_Type] at this
        omega)]
      exact hhead.1
    · exact GetValue_activation a _instance d1 status 1
  · rw [uint8_of_lt _ h]
    omega
  · rw [h]
    rfl
  · rw [h]
    rfl
  · rw [HandleMsg_report_version3_any a _instance d1 d2' d3 status t e rest hv,
      HandleMsg_report_version3_any a _instance d1 d2 d3 status t e rest hv]
  · have hb0 := GetValue_of_node_eq a b hnode _instance AlarmIndex_Type
    have hb1 := GetValue_of_node_eq a b hnode _instance AlarmIndex_Level
    have hhead' := GetValue_header_refreshed b _instance d1 d2
    rw [hb0, hb1] at hhead'
    rcases hb with hb | hb
    · refine ⟨_, HandleMsg_report_eq_version1 b _instance d1 d2
        (d3 :: status :: t :: e :: rest) hb, hhead'.1, hhead'.2⟩
    · have hu : uint8 (t + 3) = t + 3 := uint8_of_lt _ (by omega)
      refine ⟨_, HandleMsg_report_eq_version2 b _instance d1 d2 d3 status t e rest hb, ?_, ?_⟩
      · rw [hu, GetValue_OnValueRefreshed, if_neg (fun heq => by
            have := (Prod.mk.inj heq).2
            simp only [AlarmIndex_Type] at this
            omega),
          GetValue_OnValueRefreshed, if_neg (fun heq => by
            have := (Prod.mk.inj heq).2
            simp only [AlarmIndex_Type, AlarmIndex_SourceNodeId] at this
            omega)]
        exact hhead'.1
      · rw [hu, GetValue_OnValueRefreshed, if_neg (fun heq => by
            have := (Prod.mk.inj heq).2
            simp only [AlarmIndex_Level] at this
            omega),
          GetValue_OnValueRefreshed, if_neg (fun heq => by
            have := (Prod.mk.inj heq).2
            simp only [AlarmIndex_Level, AlarmIndex_SourceNodeId] at this
            omega)]
        exact hhead'.2

theorem HandleMsg_report_version3_header_witness :
    (3 ≤ (sampleAlarm 3 sampleStoreV3).version ∧ Alarm_Smoke < Alarm_Count ∧
      alarmPrefixCount[Alarm_Smoke]? = some 0) ∧
    ((∃ a', HandleMsg (sampleAlarm 3 sampleStoreV3)
          (0x05 :: 2 :: 0x50 :: 0 :: 0xFF :: Alarm_Smoke :: 0xFD :: []) 1 = .ok (true, a') ∧
      ((0xFD = 0x00 ∨ 0xFD = 0xFE ∨ 2 ≤ uint8 (0 + 0xFD + 3)) →
        GetValue a' 1 AlarmIndex_Type =
          (GetValue (sampleAlarm 3 sampleStoreV3) 1 AlarmIndex_Type).map
            (fun v => { v with value := 2 }) ∧
        GetValue a' 1 AlarmIndex_Level =
          (GetValue (sampleAlarm 3 sampleStoreV3) 1 AlarmIndex_Level).map
            (fun v => { v with value := 0xFF })) ∧
      (0xFD ≠ 0x00 → 0xFD ≠ 0xFE → uint8 (0 + 0xFD + 3) = 0 →
        GetValue a' 1 AlarmIndex_Type =
          (GetValue (sampleAlarm 3 sampleStoreV3) 1 AlarmIndex_Type).map
            (fun v => { v with value := 1 }) ∧
        GetValue a' 1 AlarmIndex_Level =
          (GetValue (sampleAlarm 3 sampleStoreV3) 1 AlarmIndex_Level).map
            (fun v => { v with value := 0xFF })) ∧
      (0xFD ≠ 0x00 → 0xFD ≠ 0xFE → uint8 (0 + 0xFD + 3) = 1 →
        GetValue a' 1 AlarmIndex_Type =
          (GetValue (sampleAlarm 3 sampleStoreV3) 1 AlarmIndex_Type).map
            (fun v => { v with value := 2 }) ∧
        GetValue a' 1 AlarmIndex_Level =
          (GetValue (sampleAlarm 3 sampleStoreV3) 1 AlarmIndex_Level).map
            (fun v => { v with value := 1 }))) ∧
    (0 + 0xFD + 3 < 256 → 2 ≤ uint8 (0 + 0xFD + 3)) ∧
    (0 + 0xFD + 3 = 256 → uint8 (0 + 0xFD + 3) = 0) ∧
    (0 + 0xFD + 3 = 257 → uint8 (0 + 0xFD + 3) = 1) ∧
    (∀ d2', HandleMsg (sampleAlarm 3 sampleStoreV3)
          (0x05 :: 2 :: d2' :: 0 :: 0xFF :: Alarm_Smoke :: 0xFD :: []) 1 =
      HandleMsg (sampleAlarm 3 sampleStoreV3)
          (0x05 :: 2 :: 0x50 :: 0 :: 0xFF :: Alarm_Smoke :: 0xFD :: []) 1) ∧
    (∀ b : Alarm, b.version = 1 ∨ b.version = 2 → b.node = (sampleAlarm 3 sampleStoreV3).node →
      ∃ b', HandleMsg b (0x05 :: 2 :: 0x50 :: 0 :: 0xFF :: Alarm_Smoke :: 0xFD :: []) 1
        = .ok (true, b') ∧
      GetValue b' 1 AlarmIndex_Type =
        (GetValue (sampleAlarm 3 sampleStoreV3) 1 AlarmIndex_Type).map
          (fun v => { v with value := 2 }) ∧
      GetValue b' 1 AlarmIndex_Level =
        (GetValue (sampleAlarm 3 sampleStoreV3) 1 AlarmIndex_Level).map
          (fun v => { v with value := 0x50 }))) :=
  ⟨⟨by decide, by decide, rfl⟩,
    HandleMsg_report_version3_header (sampleAlarm 3 sampleStoreV3) 1 2 0x50 0 0xFF Alarm_Smoke
      0xFD 0 [] (by decide) (by decide) rfl⟩

/-- The header slots after a report, evaluated as (result, value of Type, value
of Level). The frame of a Burglar event 7 on the versions 3, 2 and 1: Type takes
byte 1, which is 2, on each; Level takes the status byte 0xFF on version 3 and
byte 2, 0x50, on the versions 1 and 2. On version 3 the frame of a Smoke event
0xFD, of index 0 + 0xFD + 3 = 256: Type holds 1 and not 2. On version 3 the
frame of a Carbon Monoxide event 0xF9, of index 5 + 0xF9 + 3 = 257: Level holds
1 and not 0xFF. -/
theorem HandleMsg_report_header_example :
    (HandleMsg (sampleAlarm 3 sampleStoreV3) [0x05, 2, 0x50, 0, 0xFF, Alarm_Burglar, 7] 1).map
        (fun r => (r.1, (GetValue r.2 1 0).map (fun v => v.value),
          (GetValue r.2 1 1).map (fun v => v.value))) = .ok (true, some 2, some 0xFF) ∧
    (HandleMsg (sampleAlarm 2 sampleStoreV3) [0x05, 2, 0x50, 0, 0xFF, Alarm_Burglar, 7] 1).map
        (fun r => (r.1, (GetValue r.2 1 0).map (fun v => v.value),
          (GetValue r.2 1 1).map (fun v => v.value))) = .ok (true, some 2, some 0x50) ∧
    (HandleMsg (sampleAlarm 1 sampleStoreV3) [0x05, 2, 0x50, 0, 0xFF, Alarm_Burglar, 7] 1).map
        (fun r => (r.1, (GetValue r.2 1 0).map (fun v => v.value),
          (GetValue r.2 1 1).map (fun v => v.value))) = .ok (true, some 2, some 0x50) ∧
    (HandleMsg (sampleAlarm 3 sampleStoreV3) [0x05, 2, 0x50, 0, 0xFF, Alarm_Smoke, 0xFD] 1).map
        (fun r => (r.1, (GetValue r.2 1 0).map (fun v => v.value),
          (GetValue r.2 1 1).map (fun v => v.value))) = .ok (true, some 1, some 0xFF) ∧
    (HandleMsg (sampleAlarm 3 sampleStoreV3)
        [0x05, 2, 0x50, 0, 0xFF, Alarm_CarbonMonoxide, 0xF9] 1).map
        (fun r => (r.1, (GetValue r.2 1 0).map (fun v => v.value),
          (GetValue r.2 1 1).map (fun v => v.value))) = .ok (true, some 2, some 1) ∧
    alarmPrefixCount[Alarm_Smoke]? = some 0 ∧ alarmPrefixCount[Alarm_CarbonMonoxide]? = some 5 :=
  ⟨rfl, rfl, rfl, rfl, rfl, rfl, rfl⟩

end OpenZWave
